import Mathlib

/-!
# qri: history log and save pipeline

A shallow embedding of `base/log.go` and `base/save.go`.

* Go `error` values are the type `Error`: one constructor per sentinel the code compares
  against, and `errorf msg` for an error made by `fmt.Errorf` (or by a collaborator).
* A Go result pair `(value, err)` is a Lean pair `(value, Option Error)`; a nil slice is `[]`,
  a nil pointer is `none`, a zero struct is the `zero` value of its type.
* Go `int` is `Int` with every `++` and `--` wrapped to 64 bits by `wrapInt`.
* `repo.Repo` is an interface: its state is the record `Repo S R L` of a content store, a ref
  store and a logbook, of arbitrary types, and the methods and the collaborators the two files call
  (packages `repo`, `dsfs`, `logbook`, `startf`, `dataset`, and the rest of `base`) are the fields
  of `Env`, arbitrary functions over that state. A theorem quantified over `Env` holds for every
  implementation of them.
-/

namespace Qri

/-! ## Data model -/

/-- Go `error` values. -/
inductive Error where
  /-- The sentinel `base.ErrDatasetLogTimeout` (log.go, line 23). -/
  | ErrDatasetLogTimeout
  /-- The sentinel `repo.ErrNotFound`. -/
  | ErrNotFound
  /-- The sentinel `repo.ErrNoHistory`. -/
  | ErrNoHistory
  /-- The sentinel `logbook.ErrNotFound`. -/
  | LogbookErrNotFound
  /-- The sentinel `logbook.ErrNoLogbook`. -/
  | ErrNoLogbook
  /-- The sentinel `dsref.ErrBadCaseName`. -/
  | ErrBadCaseName
  /-- An error made on the spot with a message, as by `fmt.Errorf`. -/
  | errorf (msg : String)
  deriving DecidableEq, Repr

/-- The type `dataset.Commit`, the fields the code reads. -/
structure Commit where
  Title : String
  Message : String
  deriving DecidableEq, Repr

/-- The type `dataset.Structure`, the field the code reads. -/
structure Structure where
  Format : String
  deriving DecidableEq, Repr

/-- The type `dataset.Transform`; the code only tests it against nil. -/
structure Transform where
  ScriptPath : String
  deriving DecidableEq, Repr

/-- A `qfs.File`; the code only tests it against nil and passes it on. -/
structure File where
  name : String
  data : String
  deriving DecidableEq, Repr

/-- The type `dataset.Dataset`: a snapshot. `bodyFile` is the private field behind
`BodyFile()` and `SetBodyFile`. -/
structure Dataset where
  Name : String
  Peername : String
  ProfileID : String
  Path : String
  PreviousPath : String
  BodyPath : String
  Commit : Option Commit
  Structure : Option Structure
  Transform : Option Transform
  bodyFile : Option File
  deriving DecidableEq, Repr

/-- The value `&dataset.Dataset{}`. -/
def Dataset.zero : Dataset :=
  { Name := "", Peername := "", ProfileID := "", Path := "", PreviousPath := "", BodyPath := "",
    Commit := none, Structure := none, Transform := none, bodyFile := none }

/-- The type `reporef.DatasetRef`. -/
structure DatasetRef where
  Peername : String
  ProfileID : String
  Name : String
  Path : String
  Dataset : Option Dataset
  Published : Bool
  Foreign : Bool
  deriving DecidableEq, Repr

/-- The zero `reporef.DatasetRef`, the value of the named result `ref` before it is assigned. -/
def DatasetRef.zero : DatasetRef :=
  { Peername := "", ProfileID := "", Name := "", Path := "", Dataset := none,
    Published := false, Foreign := false }

/-- The type `dsref.Ref`. -/
structure Ref where
  Username : String
  ProfileID : String
  Name : String
  Path : String
  deriving DecidableEq, Repr

/-- The type `profile.Profile`, the fields the code reads. -/
structure Profile where
  ID : String
  Peername : String
  deriving DecidableEq, Repr

/-- The type `logbook.DatasetLogItem` (aliased in log.go, line 17): a `dsref.VersionInfo`
with the commit title and message. -/
structure DatasetLogItem where
  Username : String
  ProfileID : String
  Name : String
  Path : String
  Foreign : Bool
  CommitTitle : String
  CommitMessage : String
  deriving DecidableEq, Repr

/-- The type `dsfs.SaveSwitches` (aliased in save.go, line 22), the switches the code reads. -/
structure SaveSwitches where
  Replace : Bool
  DryRun : Bool
  NewName : Bool
  ConvertFormatToPrev : Bool
  Drop : String
  deriving DecidableEq, Repr

/-- The state behind a `repo.Repo`: `r.Store()`, the ref store, `r.Logbook()`. -/
structure Repo (S R L : Type) where
  store : S
  refs : R
  book : L

/-- The methods of `repo.Repo` and the collaborators called by log.go and save.go. A method
that changes state returns the new state next to its result. -/
structure Env (S R L : Type) where
  /-- The method `r.Profile()`. -/
  Profile : Repo S R L → Except Error Profile
  /-- Whether `r.Logbook() != nil`. -/
  hasLogbook : L → Bool
  /-- The function `repo.CanonicalizeDatasetRef(r, &ref)`: the completed ref, or the error. -/
  CanonicalizeDatasetRef : Repo S R L → DatasetRef → Except Error DatasetRef
  /-- The function `dsfs.LoadDataset(ctx, store, path)`. -/
  LoadDataset : S → String → Except Error Dataset
  /-- The function `dsfs.LoadDatasetRefs(ctx, store, path)`. -/
  LoadDatasetRefs : S → String → Except Error Dataset
  /-- The method `r.Store().Has(ctx, path)`. -/
  Has : S → String → Except Error Bool
  /-- The method `r.Store().Get(ctx, path)`: the file and the error, both used (line 252). -/
  Get : S → String → Option File × Option Error
  /-- The method `book.Items(ctx, ref, offset, limit)`. -/
  Items : L → Ref → Int → Int → Except Error (List DatasetLogItem)
  /-- The function `reporef.ConvertToDsref`. -/
  ConvertToDsref : DatasetRef → Ref
  /-- The function `reporef.ConvertToDatasetLogItem`. -/
  ConvertToDatasetLogItem : DatasetRef → DatasetLogItem
  /-- The function `MaybeInferName(changes)` of package base: the name it returns, and the
  changes as the call leaves them. -/
  MaybeInferName : Dataset → String × Dataset
  /-- The function `PrepareHeadDatasetVersion(ctx, r, peername, name)` of package base:
  `(prev, mutable, prevPath)`, or the error. -/
  PrepareHeadDatasetVersion : Repo S R L → String → String → Except Error (Dataset × Dataset × String)
  /-- The in-memory repo of a dry run, `repo.NewMemRepo(pro, cafs.NewMapstore(), ...)`. -/
  NewMemRepo : Qri.Profile → Repo S R L → Except Error (Repo S R L)
  /-- The function `startf.ExecScript(ctx, changes, prev, opts...)`: the changes as the script
  leaves them, or the error. The script is given the repo to read from. -/
  ExecScript : Repo S R L → Dataset → Dataset → Except Error Dataset
  /-- The function `ConvertBodyFormat(bodyFile, fromStructure, toStructure)` of package base. -/
  ConvertBodyFormat : File → Structure → Structure → Except Error (Option File)
  /-- The method `mutable.Assign(changes)`: the receiver after the call. -/
  Assign : Dataset → Dataset → Dataset
  /-- The function `InferValues(pro, changes)` of package base: the dataset after the call. -/
  InferValues : Qri.Profile → Dataset → Except Error Dataset
  /-- The function `Drop(ds, sw.Drop)` of package base: the dataset after the call. -/
  Drop : Dataset → String → Except Error Dataset
  /-- The function `ValidateDataset(ds)` of package base. -/
  ValidateDataset : Dataset → Option Error
  /-- The function `dsfs.CreateDataset(ctx, store, ds, dsPrev, r.PrivateKey(), sw)`: the new
  path or the error, the store after the call, and `ds` as the call leaves it. -/
  dsfsCreateDataset : S → Dataset → Dataset → SaveSwitches → Except Error String × S × Dataset
  /-- The method `r.DeleteRef(ref)`. -/
  DeleteRef : R → DatasetRef → Option Error × R
  /-- The method `r.PutRef(ref)`. -/
  PutRef : R → DatasetRef → Option Error × R
  /-- The method `r.Logbook().RefToInitID(ref)`: the id and the error, both used (line 220). -/
  RefToInitID : L → Ref → String × Option Error
  /-- The method `r.Logbook().WriteDatasetInit(ctx, name)`. -/
  WriteDatasetInit : L → String → Except Error String × L
  /-- The method `r.Logbook().WriteVersionSave(ctx, initID, ds)`. -/
  WriteVersionSave : L → String → Dataset → Option Error × L

/-- A Go `int` after an arithmetic step: the value wrapped into `[-2^63, 2^63)`. -/
def wrapInt (x : Int) : Int :=
  (x + 2 ^ 63) % 2 ^ 64 - 2 ^ 63

/-! ## base/log.go -/

/-- Which of the two `Done` channels the `select` of `DatasetLogFromHistory` took. -/
inductive Cause where
  /-- The branch `<-timeoutCtx.Done()` (line 128). -/
  | timeout
  /-- The branch `<-ctx.Done()` (line 130). -/
  | cancelled
  deriving DecidableEq, Repr

/-- When the caller stops waiting: `steps` is how many steps the worker goroutine completes
before the caller's `select` takes a `Done` branch, a step being one pass of the worker's loop or
its final send on `done`; `cause` is the branch taken. The timeout always fires, so `steps` is
finite; a worker that finishes within `steps` is never cut off. `late` is how many further loads
of the worker complete after the statement `return rlog, ErrDatasetLogTimeout` has stored its
error in the named result `err` and before the function, having run the deferred `cancel()`,
hands its results back: the worker assigns that same `err` at every load (lines 96 and 100),
with nothing to order the two. -/
structure Sched where
  steps : Nat
  cause : Cause
  late : Nat := 0
  deriving DecidableEq, Repr

/-- The worker goroutine of `DatasetLogFromHistory` (lines 92-120) run for at most `steps`
steps: the refs it has sent on `versions`, in order, and whether it has sent on `done`.
A failed load ends the goroutine without a send on `done` (line 97, line 101). -/
def DatasetLogFromHistory.worker (load : String → Except Error Dataset) :
    Nat → DatasetRef → Int → Int → List DatasetRef × Bool
  | 0, _, _, _ => ([], false)
  | steps + 1, ref, offset, limit =>
    match load ref.Path with
    | .error _ => ([], false)
    | .ok ds =>
      let ref := { ref with Dataset := some ds }
      if offset ≤ 0 then
        let limit := wrapInt (limit - 1)
        if limit = 0 then
          (ref :: [], decide (0 < steps))
        else if ds.PreviousPath = "" then
          (ref :: [], decide (0 < steps))
        else
          let rest := DatasetLogFromHistory.worker load steps
            { ref with Path := ds.PreviousPath } (wrapInt (offset - 1)) limit
          (ref :: rest.1, rest.2)
      else if ds.PreviousPath = "" then
        ([], decide (0 < steps))
      else
        DatasetLogFromHistory.worker load steps
          { ref with Path := ds.PreviousPath } (wrapInt (offset - 1)) limit

/-- The worker goroutine going on from the top of its loop (line 93) while nobody receives
from it any more, for at most `late` loads: what it last assigned to `err`, `none` when it has
assigned nothing. Every load assigns `err` (`ds, err = ...`, lines 96 and 100): a failed load
leaves the error there and ends the goroutine; a successful one leaves nil, after which the worker
blocks for good on `versions <- ref` when the offset is used up, or on `done` at the end of the
chain, and otherwise goes on to the next load. The loads are handed `timeoutCtx`; the store is
taken to answer a late load as it answers any other, as a map store does, which does not look
at the context. -/
def DatasetLogFromHistory.lateLoads (load : String → Except Error Dataset) :
    Nat → DatasetRef → Int → Option (Option Error)
  | 0, _, _ => none
  | late + 1, ref, offset =>
    match load ref.Path with
    | .error err => some (some err)
    | .ok ds =>
      if offset ≤ 0 then
        some none
      else if ds.PreviousPath = "" then
        some none
      else
        match DatasetLogFromHistory.lateLoads load late
            { ref with Dataset := some ds, Path := ds.PreviousPath } (wrapInt (offset - 1)) with
        | none => some none
        | some w => some w

/-- What the worker goroutine assigns to `err` after the caller has taken a `Done` branch, the
worker having completed `steps` steps by then and completing `late` more loads before the
caller's results are handed back: `none` when it assigns nothing in between, because no load
completes in time or because the worker had already ended or is blocked on `done`. The first
`steps` passes are those of `DatasetLogFromHistory.worker`. -/
def DatasetLogFromHistory.lateWrite (load : String → Except Error Dataset) :
    Nat → Nat → DatasetRef → Int → Int → Option (Option Error)
  | 0, late, ref, offset, _ => DatasetLogFromHistory.lateLoads load late ref offset
  | steps + 1, late, ref, offset, limit =>
    match load ref.Path with
    | .error _ => none
    | .ok ds =>
      let ref := { ref with Dataset := some ds }
      if offset ≤ 0 then
        let limit := wrapInt (limit - 1)
        if limit = 0 then
          none
        else if ds.PreviousPath = "" then
          none
        else
          DatasetLogFromHistory.lateWrite load steps late
            { ref with Path := ds.PreviousPath } (wrapInt (offset - 1)) limit
      else if ds.PreviousPath = "" then
        none
      else
        DatasetLogFromHistory.lateWrite load steps late
          { ref with Path := ds.PreviousPath } (wrapInt (offset - 1)) limit

/-- The loader the worker uses (lines 95-103). -/
def DatasetLogFromHistory.load {S R L : Type} (env : Env S R L) (r : Repo S R L)
    (loadDatasets : Bool) : String → Except Error Dataset :=
  if loadDatasets then env.LoadDataset r.store else env.LoadDatasetRefs r.store

/-- The function `DatasetLogFromHistory` (log.go, lines 82-134). Every ref the worker sends is
received and appended before the next step of the worker, the channels being unbuffered. The
caller returns `rlog, nil` when it receives on `done`, the worker having ended by then. When it
takes either `Done` branch it stores `ErrDatasetLogTimeout` in the named result `err`, runs the
deferred `cancel()` and returns what `err` then holds: the worker, which shares `err`, may have
assigned it in between (`DatasetLogFromHistory.lateWrite`). -/
def DatasetLogFromHistory {S R L : Type} (env : Env S R L) (r : Repo S R L) (ref : DatasetRef)
    (offset limit : Int) (loadDatasets : Bool) (sched : Sched) :
    List DatasetRef × Option Error :=
  match env.CanonicalizeDatasetRef r ref with
  | .error err => ([], some err)
  | .ok ref =>
    let run := DatasetLogFromHistory.worker (DatasetLogFromHistory.load env r loadDatasets)
      sched.steps ref offset limit
    if run.2 then
      (run.1, none)
    else
      match DatasetLogFromHistory.lateWrite (DatasetLogFromHistory.load env r loadDatasets)
          sched.steps sched.late ref offset limit with
      | some err => (run.1, err)
      | none =>
        match sched.cause with
        | .timeout => (run.1, some Error.ErrDatasetLogTimeout)
        | .cancelled => (run.1, some Error.ErrDatasetLogTimeout)

/-- One pass of the loop of `DatasetLog` over the logbook items (lines 38-51): the item as the
loop leaves it. -/
def DatasetLog.hydrate {S R L : Type} (env : Env S R L) (r : Repo S R L)
    (item : DatasetLogItem) : DatasetLogItem :=
  if item.Path ≠ "" then
    match env.Has r.store item.Path with
    | .error _ => item
    | .ok isLocal =>
      let item1 : DatasetLogItem :=
        if isLocal then
          match env.LoadDataset r.store item.Path with
          | .ok ds =>
            match ds.Commit with
            | some c => { item with CommitMessage := c.Message }
            | none => item
          | .error _ => item
        else item
      { item1 with Foreign := !isLocal }
  else item

/-- The fallback of `DatasetLog` (lines 57-75): the history walk, its refs converted one by one,
and whether the goroutine that backfills the logbook is started (lines 67-73). -/
def DatasetLog.fromHistory {S R L : Type} (env : Env S R L) (r : Repo S R L) (ref : DatasetRef)
    (limit offset : Int) (loadDatasets : Bool) (sched : Sched) :
    (List DatasetLogItem × Option Error) × Bool :=
  match DatasetLogFromHistory env r ref offset limit loadDatasets sched with
  | (_, some err) => (([], some err), false)
  | (rlog, none) =>
    let items := rlog.map env.ConvertToDatasetLogItem
    match env.Profile r with
    | .ok pro => ((items, none), decide (ref.Peername = pro.Peername))
    | .error _ => ((items, none), false)

/-- The function `DatasetLog` (log.go, lines 26-76): the items and the error it returns, and
whether it started the backfill goroutine. -/
def DatasetLog {S R L : Type} (env : Env S R L) (r : Repo S R L) (ref : DatasetRef)
    (limit offset : Int) (loadDatasets : Bool) (sched : Sched) :
    (List DatasetLogItem × Option Error) × Bool :=
  if env.hasLogbook r.book then
    match env.Items r.book (env.ConvertToDsref ref) offset limit with
    | .ok items =>
      if items.length = 0 then
        (([], some Error.ErrNoHistory), false)
      else
        ((items.map (DatasetLog.hydrate env r), none), false)
    | .error _ => DatasetLog.fromHistory env r ref limit offset loadDatasets sched
  else
    DatasetLog.fromHistory env r ref limit offset loadDatasets sched

/-- The function `constructDatasetLogFromHistory` (log.go, lines 138-151): the error it
returns and the logbook it leaves. `construct` is the method `book.ConstructDatasetLog(ctx, ref,
history)`. The walk runs under `context.Background()`, whose `Done` channel never fires, so only
its own timeout can cut it off; `walk` is the schedule of that walk. -/
def constructDatasetLogFromHistory {S R L : Type} (env : Env S R L)
    (construct : L → Ref → List (Option Dataset) → Option Error × L) (r : Repo S R L)
    (ref : Ref) (walk : Sched) : Option Error × L :=
  let repoRef : DatasetRef :=
    { DatasetRef.zero with Peername := ref.Username, Name := ref.Name, Path := ref.Path }
  match DatasetLogFromHistory env r repoRef 0 1000000 true
      { steps := walk.steps, cause := Cause.timeout, late := walk.late } with
  | (_, some err) => (some err, r.book)
  | (refs, none) => construct r.book ref (refs.map (fun v => v.Dataset))

/-- A call of `DatasetLog` together with the goroutine it may start (lines 67-73): what the
call returns, and what the goroutine does, `none` when it is not started or, `backfill` being
`none`, never finishes; `backfill` is otherwise the schedule of the walk the goroutine makes. The
goroutine runs `constructDatasetLogFromHistory` on the repo and on `reporef.ConvertToDsref(ref)`;
its error is only logged. -/
def DatasetLog.withBackfill {S R L : Type} (env : Env S R L)
    (construct : L → Ref → List (Option Dataset) → Option Error × L) (r : Repo S R L)
    (ref : DatasetRef) (limit offset : Int) (loadDatasets : Bool) (sched : Sched)
    (backfill : Option Sched) :
    (List DatasetLogItem × Option Error) × Option (Option Error × L) :=
  let res := DatasetLog env r ref limit offset loadDatasets sched
  (res.1,
    if res.2 then
      backfill.map (constructDatasetLogFromHistory env construct r (env.ConvertToDsref ref))
    else none)

/-- How many times a Go int can be decremented before it is zero: `lim` times when it is
positive, and all the way round through the wrap when it is zero or negative. -/
def untilZero (lim : Int) : Int :=
  if 0 < lim then lim else lim + 2 ^ 64

/-! ## base/save.go -/

/-- The loop of `GenerateAvailableName` (lines 262-270) entered with `counter`, for at most
`fuel` passes: `none` when it has not returned by then. `fmt.Sprintf("%s_%d", ...)` is the
concatenation with the decimal form of the counter. -/
def GenerateAvailableName.loop {S R L : Type} (env : Env S R L) (r : Repo S R L)
    (peername pfx : String) : Nat → Int → Option String
  | 0, _ => none
  | fuel + 1, counter =>
    let counter := wrapInt (counter + 1)
    let tryName := pfx ++ "_" ++ toString counter
    let lookup : DatasetRef := { DatasetRef.zero with Name := tryName, Peername := peername }
    match env.CanonicalizeDatasetRef r lookup with
    | .error err =>
      if err = Error.ErrNotFound then some tryName
      else GenerateAvailableName.loop env r peername pfx fuel counter
    | .ok _ => GenerateAvailableName.loop env r peername pfx fuel counter

/-- The function `GenerateAvailableName` (save.go, lines 260-271), `pfx` being its parameter
`prefix`. -/
def GenerateAvailableName {S R L : Type} (env : Env S R L) (fuel : Nat) (r : Repo S R L)
    (peername pfx : String) : Option String :=
  GenerateAvailableName.loop env r peername pfx fuel 0

/-- What `SaveDataset` has done when it is through with line 148. -/
inductive Prepared (S R L : Type) where
  /-- It is still inside `GenerateAvailableName`, which has not returned. -/
  | diverges
  /-- It has returned `ref, err` without calling `CreateDataset`. -/
  | returns (ref : DatasetRef) (err : Option Error)
  /-- It calls `CreateDataset(ctx, r, str, ds, dsPrev, sw)` (line 149) with these arguments. -/
  | creates (r : Repo S R L) (ds : Dataset) (dsPrev : Dataset)

/-- What a save returns: the ref, the error, and the state of the repo it was given. -/
structure SaveResult (S R L : Type) where
  ref : DatasetRef
  err : Option Error
  repo : Repo S R L

/-- Lines 81-148 of `SaveDataset`, entered with the name resolved: the dry-run repo, the
transform, the two checks, the merge and the inference. -/
def SaveDataset.build {S R L : Type} (env : Env S R L) (r : Repo S R L) (pro : Profile)
    (changes : Dataset) (sw : SaveSwitches) (dsName : String) (prev mutable : Dataset)
    (prevPath : String) : Prepared S R L :=
  match (if sw.DryRun then env.NewMemRepo pro r else .ok r) with
  | .error err => .returns DatasetRef.zero (some err)
  | .ok r =>
    match (match changes.Transform with
      | some _ => env.ExecScript r changes prev
      | none => .ok changes) with
    | .error err => .returns DatasetRef.zero (some err)
    | .ok changes =>
      if prevPath = "" ∧ changes.bodyFile = none ∧ changes.Structure = none then
        .returns DatasetRef.zero
          (some (Error.errorf "creating a new dataset requires a structure or a body"))
      else
        let converted : Except Error Dataset :=
          match changes.bodyFile, prev.Structure, changes.Structure with
          | some body, some ps, some cs =>
            if ps.Format ≠ cs.Format then
              if sw.ConvertFormatToPrev then
                match env.ConvertBodyFormat body cs ps with
                | .error err => .error err
                | .ok f =>
                  .ok { changes with Structure := some { cs with Format := ps.Format }, bodyFile := f }
              else
                .error (Error.errorf
                  ("Refusing to change structure from " ++ ps.Format ++ " to " ++ cs.Format))
            else .ok changes
          | _, _, _ => .ok changes
        match converted with
        | .error err => .returns DatasetRef.zero (some err)
        | .ok changes =>
          let changes := if !sw.Replace then env.Assign mutable changes else changes
          match env.InferValues pro changes with
          | .error err => .returns DatasetRef.zero (some err)
          | .ok changes =>
            .creates r { changes with PreviousPath := prevPath, Name := dsName } prev

/-- What lines 37-76 of `SaveDataset`, the naming, have done. -/
inductive Named where
  /-- The save is still inside `GenerateAvailableName`, which has not returned. -/
  | diverges
  /-- The save has returned `ref, err`. -/
  | returns (ref : DatasetRef) (err : Option Error)
  /-- The save goes on to line 81 with the profile, the changes as `MaybeInferName` left them,
  the final `dsName`, and `prev`, `mutable` and `prevPath` as looked up for that name. -/
  | resolved (pro : Profile) (changes : Dataset) (dsName : String) (prev mutable : Dataset)
      (prevPath : String)

/-- Lines 37-76 of `SaveDataset`: the profile, the name given or inferred, the head version
under that name, and the policy when there is one. -/
def SaveDataset.naming {S R L : Type} (env : Env S R L) (fuel : Nat) (r : Repo S R L)
    (changes : Dataset) (sw : SaveSwitches) : Named :=
  match env.Profile r with
  | .error err => .returns DatasetRef.zero (some err)
  | .ok pro =>
    let peername := pro.Peername
    let dsName := changes.Name
    let inferredName := (env.MaybeInferName changes).1
    let changes := (env.MaybeInferName changes).2
    let dsName := if inferredName ≠ "" then inferredName else dsName
    match env.PrepareHeadDatasetVersion r peername dsName with
    | .error err => .returns DatasetRef.zero (some err)
    | .ok (prev, mutable, prevPath) =>
      if prevPath ≠ "" then
        if sw.NewName ∧ inferredName ≠ "" then
          match GenerateAvailableName env fuel r peername dsName with
          | none => .diverges
          | some dsName =>
            match env.PrepareHeadDatasetVersion r peername dsName with
            | .error err => .returns DatasetRef.zero (some err)
            | .ok (prev, mutable, prevPath) =>
              .resolved pro changes dsName prev mutable prevPath
        else if sw.NewName then
          .returns DatasetRef.zero (some (Error.errorf
            "dataset name has a previous version, cannot make new dataset"))
        else if inferredName ≠ "" then
          .returns DatasetRef.zero (some (Error.errorf
            "inferred dataset name already exists. To add a new commit to this dataset, run save again with the dataset reference. To create a new dataset, use --new flag"))
        else
          .resolved pro changes dsName prev mutable prevPath
      else
        .resolved pro changes dsName prev mutable prevPath

/-- Lines 37-148 of `SaveDataset`: the naming, then `SaveDataset.build`. -/
def SaveDataset.prepare {S R L : Type} (env : Env S R L) (fuel : Nat) (r : Repo S R L)
    (changes : Dataset) (sw : SaveSwitches) : Prepared S R L :=
  match SaveDataset.naming env fuel r changes sw with
  | .diverges => .diverges
  | .returns ref err => .returns ref err
  | .resolved pro changes dsName prev mutable prevPath =>
    SaveDataset.build env r pro changes sw dsName prev mutable prevPath

/-- Lines 238-256 of `CreateDataset`: the saved snapshot is loaded back, completed, and its
body re-opened from the store. `pro.ID.String()` is the id itself. -/
def CreateDataset.finish {S R L : Type} (env : Env S R L) (r : Repo S R L) (pro : Profile)
    (ref : DatasetRef) (path : String) : SaveResult S R L :=
  match env.LoadDataset r.store ref.Path with
  | .error err => { ref := ref, err := some err, repo := r }
  | .ok ds =>
    let ds := { ds with ProfileID := pro.ID, Name := ref.Name, Peername := ref.Peername, Path := path }
    let got := env.Get r.store ds.BodyPath
    { ref := { ref with Dataset := some { ds with bodyFile := got.1 } }, err := got.2, repo := r }

/-- Lines 232-236 of `CreateDataset`, then `CreateDataset.finish`. -/
def CreateDataset.writeVersion {S R L : Type} (env : Env S R L) (r : Repo S R L) (pro : Profile)
    (ref : DatasetRef) (path : String) (initID : String) (ds : Dataset) : SaveResult S R L :=
  let wrote := env.WriteVersionSave r.book initID ds
  let r := { r with book := wrote.2 }
  if wrote.1 ≠ none ∧ wrote.1 ≠ some Error.ErrNoLogbook then
    { ref := ref, err := wrote.1, repo := r }
  else
    CreateDataset.finish env r pro ref path

/-- The function `CreateDataset` (save.go, lines 154-257). -/
def CreateDataset {S R L : Type} (env : Env S R L) (r : Repo S R L) (ds dsPrev : Dataset)
    (sw : SaveSwitches) : SaveResult S R L :=
  match env.Profile r with
  | .error err => { ref := DatasetRef.zero, err := some err, repo := r }
  | .ok pro =>
    let dsName := ds.Name
    if dsName = "" then
      { ref := DatasetRef.zero, err := some (Error.errorf "cannot create dataset without a name"),
        repo := r }
    else
      match env.Drop ds sw.Drop with
      | .error err => { ref := DatasetRef.zero, err := some err, repo := r }
      | .ok ds =>
        match env.ValidateDataset ds with
        | some err => { ref := DatasetRef.zero, err := some err, repo := r }
        | none =>
          match env.dsfsCreateDataset r.store ds dsPrev sw with
          | (.error err, store, _) =>
            { ref := DatasetRef.zero, err := some err, repo := { r with store := store } }
          | (.ok path, store, ds) =>
            let r := { r with store := store }
            let r :=
              if ds.PreviousPath ≠ "" ∧ ds.PreviousPath ≠ "/" then
                let prev : DatasetRef :=
                  { DatasetRef.zero with
                    ProfileID := pro.ID, Peername := pro.Peername, Name := dsName,
                    Path := ds.PreviousPath }
                { r with refs := (env.DeleteRef r.refs prev).2 }
              else r
            let ref : DatasetRef :=
              { DatasetRef.zero with
                ProfileID := pro.ID, Peername := pro.Peername, Name := dsName, Path := path }
            if !sw.DryRun then
              let put := env.PutRef r.refs ref
              let r := { r with refs := put.2 }
              match put.1 with
              | some err => { ref := ref, err := some err, repo := r }
              | none =>
                let found := env.RefToInitID r.book
                  { Username := pro.Peername, ProfileID := "", Name := dsName, Path := "" }
                if found.2 = some Error.LogbookErrNotFound then
                  let init := env.WriteDatasetInit r.book dsName
                  let r := { r with book := init.2 }
                  match init.1 with
                  | .error err => { ref := ref, err := some err, repo := r }
                  | .ok initID => CreateDataset.writeVersion env r pro ref path initID ds
                else
                  CreateDataset.writeVersion env r pro ref path found.1 ds
            else
              CreateDataset.finish env r pro ref path

/-- The function `SaveDataset` (save.go, lines 25-150): `none` when `GenerateAvailableName`
has not returned within `fuel` passes. On a dry run `CreateDataset` works on the in-memory repo,
and the repo that was passed in stays as it was. -/
def SaveDataset {S R L : Type} (env : Env S R L) (fuel : Nat) (r : Repo S R L)
    (changes : Dataset) (sw : SaveSwitches) : Option (SaveResult S R L) :=
  match SaveDataset.prepare env fuel r changes sw with
  | .diverges => none
  | .returns ref err => some { ref := ref, err := err, repo := r }
  | .creates r' ds dsPrev =>
    let res := CreateDataset env r' ds dsPrev sw
    some { res with repo := if sw.DryRun then r else res.repo }

/-- The fields of a snapshot that a merge acts on, the fields of its components included,
`PreviousPath` and `Name` apart (lines 145 and 148 set these two). -/
inductive Field where
  | Peername
  | ProfileID
  | Path
  | BodyPath
  | CommitTitle
  | CommitMessage
  | StructureFormat
  | TransformScriptPath
  | bodyFile
  deriving DecidableEq, Repr

/-- What a field holds: a string, or the body file. -/
inductive Value where
  | text (s : String)
  | file (f : File)
  deriving DecidableEq, Repr

/-- The value of a field of a snapshot, `none` when the field is unset: an empty string, a
field of a nil component, a nil body file. -/
def Dataset.get (ds : Dataset) : Field → Option Value
  | .Peername => if ds.Peername = "" then none else some (.text ds.Peername)
  | .ProfileID => if ds.ProfileID = "" then none else some (.text ds.ProfileID)
  | .Path => if ds.Path = "" then none else some (.text ds.Path)
  | .BodyPath => if ds.BodyPath = "" then none else some (.text ds.BodyPath)
  | .CommitTitle =>
    match ds.Commit with
    | some c => if c.Title = "" then none else some (.text c.Title)
    | none => none
  | .CommitMessage =>
    match ds.Commit with
    | some c => if c.Message = "" then none else some (.text c.Message)
    | none => none
  | .StructureFormat =>
    match ds.Structure with
    | some st => if st.Format = "" then none else some (.text st.Format)
    | none => none
  | .TransformScriptPath =>
    match ds.Transform with
    | some t => if t.ScriptPath = "" then none else some (.text t.ScriptPath)
    | none => none
  | .bodyFile =>
    match ds.bodyFile with
    | some f => some (.file f)
    | none => none

/-- The field-level patch in the words of the spec, first half: a field set in the changes
takes the changes' value. -/
def Dataset.TakesSetFields (ds changes : Dataset) : Prop :=
  ∀ (f : Field) (v : Value), changes.get f = some v → ds.get f = some v

/-- The field-level patch in the words of the spec, second half: "unset fields in `changes`
inherit the previous value". -/
def Dataset.InheritsUnsetFields (ds changes previous : Dataset) : Prop :=
  ∀ (f : Field) (v : Value), changes.get f = none → previous.get f = some v → ds.get f = some v

/-- Lines 116-131 of `SaveDataset` on their own, as `SaveDataset.build` runs them: the changes
as the format check leaves them, or the error it returns. -/
def SaveDataset.convertFormat {S R L : Type} (env : Env S R L) (changes prev : Dataset)
    (sw : SaveSwitches) : Except Error Dataset :=
  match changes.bodyFile, prev.Structure, changes.Structure with
  | some body, some ps, some cs =>
    if ps.Format ≠ cs.Format then
      if sw.ConvertFormatToPrev then
        match env.ConvertBodyFormat body cs ps with
        | .error err => .error err
        | .ok f =>
          .ok { changes with Structure := some { cs with Format := ps.Format }, bodyFile := f }
      else
        .error (Error.errorf
          ("Refusing to change structure from " ++ ps.Format ++ " to " ++ cs.Format))
    else .ok changes
  | _, _, _ => .ok changes

/-- The snapshots `dss`, oldest last, are the chain that `load` serves from path `p`: each
loads at the path its successor names in `PreviousPath`, and only the oldest has an empty
`PreviousPath`. An empty list is no chain. -/
def IsChain (load : String → Except Error Dataset) : String → List Dataset → Prop
  | _, [] => False
  | p, d :: [] => load p = .ok d ∧ d.PreviousPath = ""
  | p, d :: d' :: rest =>
    load p = .ok d ∧ d.PreviousPath ≠ "" ∧ IsChain load d.PreviousPath (d' :: rest)

/-- The versions of a chain, newest first: position 0 is `ref` at path `p` with the snapshot
loaded there, position `i + 1` is the same ref at the `PreviousPath` of position `i`. -/
def chainRefs (ref : DatasetRef) : String → List Dataset → List DatasetRef
  | _, [] => []
  | p, d :: rest => { ref with Path := p, Dataset := some d } :: chainRefs ref d.PreviousPath rest

/-! ## The case rule of the save pipeline -/

/-- Whether a dataset name contains an upper-case letter. -/
def hasUpperCase (name : String) : Bool :=
  name.data.any Char.isUpper

/-- Modelled from the spec: the caller of `SaveDataset` that makes the check of step 4 of the
save pipeline (section 4.4); it is not in base/save.go, and src/ holds only its test,
`TestSaveBadCaseCantBeUsedForNewDatasets`. The spec: "Reject dataset names containing upper-case
letters when there is no existing prior version under that exact name (new creation only):
legacy names that already exist may be saved to and are exempted." The check comes after the name
resolution of steps 1-3: the name is the one the naming resolved, a prior version exists when the
naming found a head under it, and the error carries the message the test expects. A save that
passes the check is the save of `SaveDataset`. -/
def Save {S R L : Type} (env : Env S R L) (fuel : Nat) (r : Repo S R L)
    (changes : Dataset) (sw : SaveSwitches) : Option (SaveResult S R L) :=
  match SaveDataset.naming env fuel r changes sw with
  | .resolved _ _ dsName _ _ prevPath =>
    if hasUpperCase dsName ∧ prevPath = "" then
      some { ref := DatasetRef.zero,
             err := some (Error.errorf "dataset name may not contain any upper-case letters"),
             repo := r }
    else SaveDataset env fuel r changes sw
  | _ => SaveDataset env fuel r changes sw

/-! ## dsref: the reference parser -/

/-- A character of a name after its first: a letter, a digit, an underscore or a dash. -/
def isNameChar (c : Char) : Bool :=
  c.isAlphanum || c == '_' || c == '-'

/-- A character of the base58 alphabet: a letter or a digit other than `0`, `O`, `I`, `l`. -/
def isBase58 (c : Char) : Bool :=
  c.isAlphanum && !(c == '0' || c == 'O' || c == 'I' || c == 'l')

/-- Modelled from the spec: the name token of the reference grammar (section 4.1 and the name
invariant of section 3); the parser, dsref/parse.go, is not in src/. A name starts with a letter
and goes on with letters, digits, underscores and dashes, as far as they reach: the token and the
rest of the text, or `none` when the text does not start with a letter. -/
def parseName : List Char → Option (List Char × List Char)
  | [] => none
  | c :: rest =>
    if c.isAlpha then some (c :: rest.takeWhile isNameChar, rest.dropWhile isNameChar)
    else none

/-- Whether a list of characters is a name token: a letter, then name characters. -/
def isName : List Char → Bool
  | [] => false
  | c :: rest => c.isAlpha && rest.all isNameChar

/-- Modelled from the spec: the part `[username "/" name]` of the grammar of section 4.1:
the username, the name and the rest of the text, or `none`, with nothing consumed, when the text
does not start with that part. -/
def parseHumanFriendlyPortion (cs : List Char) : Option (List Char × List Char × List Char) :=
  match parseName cs with
  | some (username, '/' :: rest) =>
    match parseName rest with
    | some (name, rest) => some (username, name, rest)
    | none => none
  | _ => none

/-- Modelled from the spec: the part `["/" store "/" hash]` of the grammar of section 4.1:
the path and the rest of the text. The store is a name, the hash a run of letters and digits that
"must be valid base58; invalid base58 is a distinct error from a structurally malformed ref"
(the message is the one of `TestParse`). When the text does not start with that part the path is
empty and nothing is consumed. -/
def parsePath (cs : List Char) : Except Error (List Char × List Char) :=
  match cs with
  | '/' :: rest =>
    match parseName rest with
    | some (store, '/' :: rest) =>
      let hash := rest.takeWhile Char.isAlphanum
      if hash = [] then .ok ([], cs)
      else if hash.all isBase58 then
        .ok ('/' :: store ++ '/' :: hash, rest.dropWhile Char.isAlphanum)
      else .error (Error.errorf "path contains invalid base58 characters")
    | _ => .ok ([], cs)
  | _ => .ok ([], cs)

/-- The paths `parsePath` produces: none, or `/store/hash` with a name for the store and a
non-empty base58 run of letters and digits for the hash. -/
def IsPath (path : List Char) : Prop :=
  path = [] ∨
    ∃ store hash : List Char, path = '/' :: store ++ '/' :: hash ∧ isName store = true ∧
      hash ≠ [] ∧ (∀ x ∈ hash, x.isAlphanum = true) ∧ hash.all isBase58 = true

/-- Modelled from the spec: the part `["@" [profileID] ["/" store "/" hash]]` of the grammar
of section 4.1: the profile id (a run of letters and digits, possibly empty), the path and the
rest of the text. Without an `@` both are empty and nothing is consumed. -/
def parseConcreteRef (cs : List Char) : Except Error (List Char × List Char × List Char) :=
  match cs with
  | '@' :: rest =>
    match parsePath (rest.dropWhile Char.isAlphanum) with
    | .ok (path, rest') => .ok (rest.takeWhile Char.isAlphanum, path, rest')
    | .error err => .error err
  | _ => .ok ([], [], cs)

/-- Modelled from the spec: the function `Parse` of package dsref (section 4.1), of which src/
holds only the tests. The text is read left to right as
`[username "/" name] ["@" [profileID] ["/" store "/" hash]]`; a part that is absent is skipped;
text left over is an error that reports "the exact offending byte offset and character"; and "an
otherwise-valid name containing uppercase letters succeeds but returns a sentinel
`ErrBadCaseName` alongside the parsed ref". The ref returned with any other error is what had
been parsed so far. -/
def Parse (text : String) : Ref × Option Error :=
  let human : List Char × List Char × List Char :=
    match parseHumanFriendlyPortion text.data with
    | some parsed => parsed
    | none => ([], [], text.data)
  match parseConcreteRef human.2.2 with
  | .error err =>
    ({ Username := String.mk human.1, ProfileID := "", Name := String.mk human.2.1, Path := "" },
      some err)
  | .ok (profileID, path, rest) =>
    let ref : Ref :=
      { Username := String.mk human.1, ProfileID := String.mk profileID,
        Name := String.mk human.2.1, Path := String.mk path }
    match rest with
    | c :: _ =>
      (ref, some (Error.errorf
        ("parsing ref, unexpected character at position " ++
          toString (text.utf8ByteSize - (String.mk rest).utf8ByteSize) ++ ": \'" ++
          String.singleton c ++ "\'")))
    | [] =>
      if hasUpperCase ref.Name then (ref, some Error.ErrBadCaseName) else (ref, none)

/-- Modelled from the spec: the rendering of a ref to text, a method of `dsref.Ref` that is
not in src/, in the format of section 6, `[user/name][@[profileID][/store/hash]]`. -/
def Ref.render (ref : Ref) : String :=
  (if ref.Username = "" ∧ ref.Name = "" then "" else ref.Username ++ "/" ++ ref.Name) ++
    (if ref.ProfileID = "" ∧ ref.Path = "" then "" else "@" ++ ref.ProfileID ++ ref.Path)

/-- Modelled from the spec: the function `IsValidName` of package dsref (section 4.1), of
which src/ holds only the test: "true iff `s` matches `^[A-Za-z][A-Za-z0-9_]*$` (first character
must be a letter; digits and underscores allowed only after position 0)". -/
def IsValidName (text : String) : Bool :=
  match text.data with
  | [] => false
  | c :: rest => c.isAlpha && rest.all (fun x => x.isAlphanum || x == '_')

/-! ## Dscache -/

/-- A row of the `Users` table of the dscache (section 3 of the spec). -/
structure DscacheUser where
  Username : String
  ProfileID : String
  deriving DecidableEq, Repr

/-- A row of the `Refs` table of the dscache, `Dscache.RefEntry` (section 3 of the spec). -/
structure RefEntry where
  InitID : String
  ProfileID : String
  TopIndex : Int
  CursorIndex : Int
  PrettyName : String
  BodySize : Int
  BodyRows : Int
  CommitTime : Int
  NumErrors : Int
  HeadRef : String
  deriving DecidableEq, Repr

/-- Modelled from the spec: the dscache, package dscache, which is not in src/ (only the tests
of cmd/save_test.go that print it are): "a `Users` table (deduplicated by profile identity) and a
`Refs` table of `RefEntry`" (section 4.5). -/
structure Dscache where
  Users : List DscacheUser
  Refs : List RefEntry
  deriving DecidableEq, Repr

/-- The dscache of a repo with nothing saved. -/
def Dscache.empty : Dscache := { Users := [], Refs := [] }

/-- What a save tells the dscache: the lineage, the owner, and the data of the new head. -/
structure SaveInfo where
  InitID : String
  Username : String
  ProfileID : String
  PrettyName : String
  BodySize : Int
  BodyRows : Int
  CommitTime : Int
  NumErrors : Int
  HeadRef : String
  deriving DecidableEq, Repr

/-- Modelled from the spec: `MergeSave` of the dscache (section 4.5), not in src/: "if an entry
for `initID` exists, advances it in place (increments indices, rewrites head/body stats)";
otherwise the entry of the new dataset is added, with the indices of a first commit as
`TestSaveDscacheFirstCommit` prints them, and its owner is added to `Users` unless a row with
that profile is there. The rebuild of an absent cache from the log is left out. -/
def Dscache.MergeSave (cache : Dscache) (save : SaveInfo) : Dscache :=
  if cache.Refs.any (fun e => e.InitID == save.InitID) then
    { cache with
      Refs := cache.Refs.map (fun e =>
        if e.InitID = save.InitID then
          { e with
            TopIndex := e.TopIndex + 1, CursorIndex := e.CursorIndex + 1,
            BodySize := save.BodySize, BodyRows := save.BodyRows,
            CommitTime := save.CommitTime, NumErrors := save.NumErrors,
            HeadRef := save.HeadRef }
        else e) }
  else
    { Users :=
        if cache.Users.any (fun u => u.ProfileID == save.ProfileID) then cache.Users
        else cache.Users ++ [{ Username := save.Username, ProfileID := save.ProfileID }],
      Refs := cache.Refs ++
        [{ InitID := save.InitID, ProfileID := save.ProfileID, TopIndex := 1, CursorIndex := 1,
           PrettyName := save.PrettyName, BodySize := save.BodySize, BodyRows := save.BodyRows,
           CommitTime := save.CommitTime, NumErrors := save.NumErrors,
           HeadRef := save.HeadRef }] }

/-- Modelled from the spec: the listing of the dscache (section 4.5), not in src/: "Listing
order is always `PrettyName` ascending regardless of insertion order". -/
def Dscache.ListRefs (cache : Dscache) : List RefEntry :=
  cache.Refs.insertionSort (fun a b => a.PrettyName ≤ b.PrettyName)

/-- The file of a dscache: its two tables as written. "Exact byte format is an implementation
choice" (section 6 of the spec). -/
structure DscacheFile where
  Users : List DscacheUser
  Refs : List RefEntry
  deriving DecidableEq, Repr

/-- Modelled from the spec: the writing of the dscache to its file, not in src/: "entries
are ordered by `PrettyName` ascending on every read/serialize" (section 3). -/
def Dscache.serialize (cache : Dscache) : DscacheFile :=
  { Users := cache.Users, Refs := cache.ListRefs }

/-- Modelled from the spec: the loading of a dscache from its file, `dscache.NewDscache` on a
file name in `TestSaveDscacheFirstCommit`, not in src/. -/
def Dscache.load (file : DscacheFile) : Dscache :=
  { Users := file.Users, Refs := file.Refs }

/-! ## An in-memory repo

A small implementation of the collaborators, on which the functions above can be evaluated: a map
store from paths to snapshots, a list of refs, and a logbook that keeps, for each dataset name,
its items newest first (`none` when the repo has no logbook). -/

/-- The state of the in-memory repo. -/
abbrev MemRepo : Type :=
  Repo (List (String × Dataset)) (List DatasetRef) (Option (List (String × List DatasetLogItem)))

/-- Loading a snapshot from the map store. -/
def memLoad (store : List (String × Dataset)) (path : String) : Except Error Dataset :=
  match store.lookup path with
  | some ds => .ok ds
  | none => .error (Error.errorf "path not found")

/-- The ref stored for a peername and a name. -/
def memGetRef (refs : List DatasetRef) (peername name : String) : Option DatasetRef :=
  refs.find? (fun x => x.Peername == peername && x.Name == name)

/-- A field-level patch in the manner of `Assign` of package dataset: a string that is set in
the changes wins, a component that only one side has is taken whole, a component that both have
is patched field by field, and a body file of the changes wins. -/
def memAssign (base changes : Dataset) : Dataset :=
  { Name := if changes.Name = "" then base.Name else changes.Name
    Peername := if changes.Peername = "" then base.Peername else changes.Peername
    ProfileID := if changes.ProfileID = "" then base.ProfileID else changes.ProfileID
    Path := if changes.Path = "" then base.Path else changes.Path
    PreviousPath := if changes.PreviousPath = "" then base.PreviousPath else changes.PreviousPath
    BodyPath := if changes.BodyPath = "" then base.BodyPath else changes.BodyPath
    Commit := match base.Commit, changes.Commit with
      | none, c => c
      | some b, none => some b
      | some b, some c =>
        some { Title := if c.Title = "" then b.Title else c.Title,
               Message := if c.Message = "" then b.Message else c.Message }
    Structure := match base.Structure, changes.Structure with
      | none, c => c
      | some b, none => some b
      | some b, some c => some { Format := if c.Format = "" then b.Format else c.Format }
    Transform := match base.Transform, changes.Transform with
      | none, c => c
      | some b, none => some b
      | some b, some c =>
        some { ScriptPath := if c.ScriptPath = "" then b.ScriptPath else c.ScriptPath }
    bodyFile := changes.bodyFile <|> base.bodyFile }

/-- The in-memory implementation of the collaborators, for the profile `pro`. -/
def memEnv (pro : Profile) :
    Env (List (String × Dataset)) (List DatasetRef) (Option (List (String × List DatasetLogItem))) where
  Profile := fun _ => .ok pro
  hasLogbook := fun book => book.isSome
  CanonicalizeDatasetRef := fun r ref =>
    if ref.Path ≠ "" then .ok ref
    else
      match memGetRef r.refs ref.Peername ref.Name with
      | some x => .ok x
      | none => .error Error.ErrNotFound
  LoadDataset := memLoad
  LoadDatasetRefs := memLoad
  Has := fun store path => .ok (store.lookup path).isSome
  Get := fun _ path =>
    if path = "" then (none, some (Error.errorf "path not found"))
    else (some { name := path, data := "" }, none)
  Items := fun book ref offset limit =>
    match book with
    | none => .error Error.ErrNoLogbook
    | some logs =>
      match logs.lookup ref.Name with
      | none => .error Error.LogbookErrNotFound
      | some items => .ok ((items.drop offset.toNat).take limit.toNat)
  ConvertToDsref := fun ref =>
    { Username := ref.Peername, ProfileID := ref.ProfileID, Name := ref.Name, Path := ref.Path }
  ConvertToDatasetLogItem := fun ref =>
    { Username := ref.Peername, ProfileID := ref.ProfileID, Name := ref.Name, Path := ref.Path,
      Foreign := ref.Foreign,
      CommitTitle := match ref.Dataset.bind (fun ds => ds.Commit) with
        | some c => c.Title
        | none => "",
      CommitMessage := match ref.Dataset.bind (fun ds => ds.Commit) with
        | some c => c.Message
        | none => "" }
  MaybeInferName := fun ds =>
    if ds.Name = "" then
      match ds.bodyFile with
      | some f => (f.name, { ds with Name := f.name })
      | none => ("", ds)
    else ("", ds)
  PrepareHeadDatasetVersion := fun r peername name =>
    match memGetRef r.refs peername name with
    | none => .ok (Dataset.zero, { Dataset.zero with Name := name, Peername := peername }, "")
    | some x =>
      match memLoad r.store x.Path with
      | .ok ds => .ok (ds, { ds with Name := name, Peername := peername }, x.Path)
      | .error err => .error err
  NewMemRepo := fun _ _ => .ok { store := [], refs := [], book := some [] }
  ExecScript := fun _ changes _ => .ok changes
  ConvertBodyFormat := fun body _ _ => .ok (some body)
  Assign := memAssign
  InferValues := fun _ ds => .ok ds
  Drop := fun ds _ => .ok ds
  ValidateDataset := fun _ => none
  dsfsCreateDataset := fun store ds dsPrev _ =>
    if ds.bodyFile = dsPrev.bodyFile ∧ ds.Structure = dsPrev.Structure ∧ ds.Commit = dsPrev.Commit
    then (.error (Error.errorf "error saving: no changes"), store, ds)
    else
      let path := "/map/Qm" ++ toString store.length
      let saved := { ds with Path := path, BodyPath := path ++ "/body" }
      (.ok path, (path, saved) :: store, saved)
  DeleteRef := fun refs ref => (none, refs.filter (fun x => !(x.Name == ref.Name && x.Path == ref.Path)))
  PutRef := fun refs ref => (none, ref :: refs)
  RefToInitID := fun book ref =>
    match book with
    | none => ("", some Error.ErrNoLogbook)
    | some logs =>
      match logs.lookup ref.Name with
      | some _ => (ref.Name, none)
      | none => ("", some Error.LogbookErrNotFound)
  WriteDatasetInit := fun book name =>
    match book with
    | none => (.error Error.ErrNoLogbook, none)
    | some logs => (.ok name, some ((name, []) :: logs))
  WriteVersionSave := fun book initID ds =>
    match book with
    | none => (some Error.ErrNoLogbook, none)
    | some logs =>
      let item : DatasetLogItem :=
        { Username := ds.Peername, ProfileID := ds.ProfileID, Name := ds.Name, Path := ds.Path,
          Foreign := false,
          CommitTitle := match ds.Commit with
            | some c => c.Title
            | none => "",
          CommitMessage := "" }
      (none, some (logs.map (fun e => if e.1 = initID then (e.1, item :: e.2) else e)))

/-- The profile of the sample repos. -/
def sampleProfile : Profile := { ID := "QmPeer", Peername := "test_peer" }

/-- A snapshot with a commit and a link to its predecessor. -/
def sampleSnapshot (previousPath title : String) : Dataset :=
  { Dataset.zero with
    PreviousPath := previousPath,
    Commit := some { Title := title, Message := "message of " ++ title } }

/-- The ref `test_peer/movies`, to be resolved to its head. -/
def sampleRef : DatasetRef := { DatasetRef.zero with Peername := "test_peer", Name := "movies" }

/-- A repo without a logbook holding three versions of `test_peer/movies`:
`/map/c`, then `/map/b`, then `/map/a`. -/
def sampleRepo : MemRepo :=
  { store := [("/map/c", sampleSnapshot "/map/b" "third"),
              ("/map/b", sampleSnapshot "/map/a" "second"),
              ("/map/a", sampleSnapshot "" "first")],
    refs := [{ sampleRef with Path := "/map/c" }],
    book := none }

/-- A repo with a logbook and nothing saved. -/
def emptyRepo : MemRepo := { store := [], refs := [], book := some [] }

/-- No switch set. -/
def noSwitches : SaveSwitches :=
  { Replace := false, DryRun := false, NewName := false, ConvertFormatToPrev := false, Drop := "" }

/-- The changes of `qri save --body testdata/movies/body_four.json`: a body and no name. -/
def bodyFour : Dataset :=
  { Dataset.zero with bodyFile := some { name := "body_four", data := "four rows" } }

/-- The head of a dataset saved from `bodyFour` under `name`. -/
def bodyFourHead (name path : String) : Dataset :=
  { bodyFour with Name := name, Peername := "test_peer", Path := path, BodyPath := path ++ "/body" }

/-- The ref of a dataset of `test_peer`. -/
def peerRef (name path : String) : DatasetRef :=
  { DatasetRef.zero with ProfileID := "QmPeer", Peername := "test_peer", Name := name, Path := path }

/-- The logbook item of a version, as the logbook serves it: no commit message. -/
def logItem (name path title : String) : DatasetLogItem :=
  { Username := "test_peer", ProfileID := "QmPeer", Name := name, Path := path, Foreign := false,
    CommitTitle := title, CommitMessage := "" }

/-- The repo after `body_four` has been saved once. -/
def savedRepo : MemRepo :=
  { store := [("/map/Qm0", bodyFourHead "body_four" "/map/Qm0")],
    refs := [peerRef "body_four" "/map/Qm0"],
    book := some [("body_four", [logItem "body_four" "/map/Qm0" "created dataset"])] }

/-- The repo after `body_four` and then `body_four_1` have been saved. -/
def savedTwiceRepo : MemRepo :=
  { store := [("/map/Qm1", bodyFourHead "body_four_1" "/map/Qm1"),
              ("/map/Qm0", bodyFourHead "body_four" "/map/Qm0")],
    refs := [peerRef "body_four_1" "/map/Qm1", peerRef "body_four" "/map/Qm0"],
    book := some [("body_four_1", [logItem "body_four_1" "/map/Qm1" "created dataset"]),
                  ("body_four", [logItem "body_four" "/map/Qm0" "created dataset"])] }

/-- A repo whose logbook knows `movies` but holds no item for it. -/
def noHistoryRepo : MemRepo := { store := [], refs := [], book := some [("movies", [])] }

/-- A repo whose logbook holds two versions of `movies`: the content of the newer one,
`/map/c`, is in the local store, the content of the older one, `/ipfs/QmFar`, is not. -/
def loggedRepo : MemRepo :=
  { store := [("/map/c", sampleSnapshot "" "third")],
    refs := [peerRef "movies" "/map/c"],
    book := some [("movies", [logItem "movies" "/map/c" "", logItem "movies" "/ipfs/QmFar" "far"])] }

/-- The head of `movies` in `jsonRepo`: a json body with its structure. -/
def jsonHead : Dataset :=
  { Dataset.zero with
    Name := "movies", Peername := "test_peer", Path := "/map/Qm0", BodyPath := "/map/Qm0/body",
    Structure := some { Format := "json" },
    bodyFile := some { name := "body.json", data := "two rows" } }

/-- A repo where `movies` is saved once, in json. -/
def jsonRepo : MemRepo :=
  { store := [("/map/Qm0", jsonHead)],
    refs := [peerRef "movies" "/map/Qm0"],
    book := some [("movies", [logItem "movies" "/map/Qm0" "created dataset"])] }

/-- The changes of a save of `movies` with a csv body. -/
def csvChanges : Dataset :=
  { Dataset.zero with
    Name := "movies",
    Structure := some { Format := "csv" },
    bodyFile := some { name := "body.csv", data := "ten rows" } }

/-- The changes of a second save of `body_four`, under its name, with a new body. -/
def bodyFive : Dataset :=
  { Dataset.zero with
    Name := "body_four", bodyFile := some { name := "body_five", data := "five rows" } }

/-- The snapshot that a second save of `body_four`, with the body of `bodyFive`, hands to
`CreateDataset`: the head with the new body, linked to `/map/Qm0`. -/
def handedFive : Dataset :=
  { memAssign (bodyFourHead "body_four" "/map/Qm0") bodyFive with
    PreviousPath := "/map/Qm0", Name := "body_four" }

/-- The in-memory collaborators with a logbook whose `WriteVersionSave` fails with `err` and
writes nothing. -/
def failingSaveEnv (pro : Profile) (err : Error) :
    Env (List (String × Dataset)) (List DatasetRef) (Option (List (String × List DatasetLogItem))) :=
  { memEnv pro with WriteVersionSave := fun book _ _ => (some err, book) }

/-- The repo where `body_four` is saved once, without a logbook. -/
def noBookRepo : MemRepo := { savedRepo with book := none }

/-- The snapshot `handedFive` as the content store of `savedRepo` writes it, at `/map/Qm1`. -/
def writtenFive : Dataset := { handedFive with Path := "/map/Qm1", BodyPath := "/map/Qm1/body" }

/-- The changes of a save with a structure, and neither a name nor a body to infer one from. -/
def namelessChanges : Dataset := { Dataset.zero with Structure := some { Format := "json" } }

/-- The changes of `qri save --body testdata/movies/body_two.json test_peer/a_New_Dataset`. -/
def upperCaseChanges : Dataset :=
  { Dataset.zero with
    Name := "a_New_Dataset", Peername := "test_peer",
    bodyFile := some { name := "body_two", data := "two rows" } }

/-- A repo where a version of `test_peer/a_New_Dataset` was added to the ref store directly. -/
def legacyRepo : MemRepo :=
  { store := [("/map/Qm0",
      { Dataset.zero with
        Name := "a_New_Dataset", Peername := "test_peer", Path := "/map/Qm0",
        BodyPath := "/map/Qm0/body", Structure := some { Format := "json" },
        bodyFile := some { name := "body.json", data := "one row" } })],
    refs := [peerRef "a_New_Dataset" "/map/Qm0"],
    book := some [] }

/-- A chain that breaks: the snapshots `dss` load one after the other from path `p`, each
naming the next path, and the load at the path the last one names (at `p` itself when `dss` is
empty) fails. -/
def IsBrokenChain (load : String → Except Error Dataset) : String → List Dataset → Prop
  | p, [] => ∃ err, load p = .error err
  | p, d :: rest =>
    load p = .ok d ∧ d.PreviousPath ≠ "" ∧ IsBrokenChain load d.PreviousPath rest

/-- The saves of `TestSaveDscacheFirstCommit`: `movie_ds`, then `another_ds`. -/
def movieSave : SaveInfo :=
  { InitID := "vkys37xz", Username := "test_peer", ProfileID := "QmeL2mdV",
    PrettyName := "movie_ds", BodySize := 79, BodyRows := 2, CommitTime := 978310921,
    NumErrors := 0, HeadRef := "/ipfs/QmUoCuPQ" }

/-- The second save of `TestSaveDscacheFirstCommit`. -/
def anotherSave : SaveInfo :=
  { InitID := "wkr66hbc", Username := "test_peer", ProfileID := "QmeL2mdV",
    PrettyName := "another_ds", BodySize := 137, BodyRows := 4, CommitTime := 978311101,
    NumErrors := 0, HeadRef := "/ipfs/Qmf5Novq" }

/-- The repo of `sampleRepo` with a logbook that knows `movies` and holds no item for it. -/
def emptyLogRepo : MemRepo := { sampleRepo with book := some [("movies", [])] }

/-- A repo without a logbook whose head `/map/c` names a predecessor, `/map/gone`, that the
store does not have. -/
def brokenRepo : MemRepo :=
  { store := [("/map/c", sampleSnapshot "/map/gone" "third")],
    refs := [{ sampleRef with Path := "/map/c" }],
    book := none }

/-- The snapshot that the first save of `body_four` hands to `CreateDataset`. -/
def handedFour : Dataset := { bodyFour with Name := "body_four", Peername := "test_peer" }

/-- The snapshot `handedFour` as the content store of `emptyRepo` writes it, at `/map/Qm0`. -/
def writtenFour : Dataset := { handedFour with Path := "/map/Qm0", BodyPath := "/map/Qm0/body" }

/-- A repo in which every name is in use: the lookup of any reference succeeds. -/
def takenEnv : Env (List (String × Dataset)) (List DatasetRef)
    (Option (List (String × List DatasetLogItem))) :=
  { memEnv sampleProfile with CanonicalizeDatasetRef := fun _ ref => .ok ref }

/-- A repo like `sampleRepo` with a logbook that does not know `movies`. -/
def unloggedRepo : MemRepo := { sampleRepo with book := some [] }

/-- A `ConstructDatasetLog` for the in-memory logbook: the history is entered under the name of
the ref, one item for each version, newest first. -/
def memConstruct (book : Option (List (String × List DatasetLogItem))) (ref : Ref)
    (history : List (Option Dataset)) :
    Option Error × Option (List (String × List DatasetLogItem)) :=
  match book with
  | none => (some Error.ErrNoLogbook, none)
  | some logs =>
    (none, some ((ref.Name, history.map (fun version =>
      { Username := ref.Username, ProfileID := ref.ProfileID, Name := ref.Name,
        Path := match version with
          | some ds => ds.Path
          | none => "",
        Foreign := false,
        CommitTitle := match version.bind (fun ds => ds.Commit) with
          | some c => c.Title
          | none => "",
        CommitMessage := "" })) :: logs))

/-! ## Theorems -/

theorem wrapInt_of_range {x : Int} (h1 : -2 ^ 63 ≤ x) (h2 : x < 2 ^ 63) : wrapInt x = x := by
  unfold wrapInt
  have h : (x + 2 ^ 63) % 2 ^ 64 = x + 2 ^ 63 := Int.emod_eq_of_lt (by omega) (by omega)
  omega

theorem chainRefs_update (ref : DatasetRef) (q : String) (x : Option Dataset) :
    ∀ (dss : List Dataset) (p : String),
      chainRefs { ref with Path := q, Dataset := x } p dss = chainRefs ref p dss := by
  intro dss
  induction dss with
  | nil => intro p; rfl
  | cons d rest ih => intro p; simp [chainRefs, ih]

theorem chainRefs_length (ref : DatasetRef) :
    ∀ (dss : List Dataset) (p : String), (chainRefs ref p dss).length = dss.length := by
  intro dss
  induction dss with
  | nil => intro p; rfl
  | cons d rest ih => intro p; simp [chainRefs, ih]

/-- On a chain the worker, given steps enough, sends the versions from position `off` on, at
most `lim` of them, and then signals `done`. -/
theorem worker_chain (load : String → Except Error Dataset) :
    ∀ (dss : List Dataset) (p : String) (ref : DatasetRef) (off lim : Int) (steps : Nat),
      IsChain load p dss → ref.Path = p → off < 2 ^ 63 → 1 ≤ lim → lim < 2 ^ 63 →
      -2 ^ 63 ≤ min off 0 - lim + 1 →
      min (dss.length : Int) (max off 0 + lim) < steps →
      DatasetLogFromHistory.worker load steps ref off lim =
        (((chainRefs ref p dss).drop off.toNat).take lim.toNat, true) := by
  intro dss
  induction dss with
  | nil => intro p ref off lim steps h; exact absurd h (by simp [IsChain])
  | cons d rest ih =>
    intro p ref off lim steps hc hp hoff hl1 hl2 hinv hst
    obtain ⟨n, rfl⟩ : ∃ n, steps = n + 1 := ⟨steps - 1, by omega⟩
    obtain ⟨k, hk⟩ : ∃ k, lim.toNat = k + 1 := ⟨lim.toNat - 1, by omega⟩
    have hw : wrapInt (lim - 1) = lim - 1 := wrapInt_of_range (by omega) (by omega)
    cases rest with
    | nil =>
      obtain ⟨hload, hprev⟩ := hc
      subst hp
      by_cases h0 : off ≤ 0
      · have h0n : off.toNat = 0 := by omega
        have hpos : 0 < n := by simp at hst; omega
        by_cases hlim : lim - 1 = 0
        · rw [hlim] at hw
          have hk0 : k = 0 := by omega
          simp [DatasetLogFromHistory.worker, hload, h0, hw, hlim, chainRefs, h0n, hk, hpos, hk0]
        · simp [DatasetLogFromHistory.worker, hload, h0, hw, hlim, chainRefs, h0n, hk, hpos, hprev]
      · obtain ⟨j, hj⟩ : ∃ j, off.toNat = j + 1 := ⟨off.toNat - 1, by omega⟩
        have hpos : 0 < n := by simp at hst; omega
        simp [DatasetLogFromHistory.worker, hload, h0, chainRefs, hj, hprev, hpos]
    | cons d' rest' =>
      obtain ⟨hload, hprev, hrest⟩ := hc
      subst hp
      by_cases h0 : off ≤ 0
      · have h0n : off.toNat = 0 := by omega
        by_cases hlim : lim - 1 = 0
        · have hpos : 0 < n := by simp at hst; omega
          have hk0 : k = 0 := by omega
          rw [hlim] at hw
          simp [DatasetLogFromHistory.worker, hload, h0, hw, hlim, chainRefs, h0n, hk, hpos, hk0]
        · have hwo : wrapInt (off - 1) = off - 1 := wrapInt_of_range (by omega) (by omega)
          have hih := ih d.PreviousPath
            { ref with Dataset := some d, Path := d.PreviousPath } (off - 1) (lim - 1) n hrest rfl
            (by omega) (by omega) (by omega) (by omega) (by simp at hst ⊢; omega)
          have h1 : (off - 1).toNat = 0 := by omega
          have h2 : (lim - 1).toNat = k := by omega
          rw [chainRefs_update, h1, h2] at hih
          simp [DatasetLogFromHistory.worker, hload, h0, hw, hlim, hprev, hwo, hih, h0n, hk]
          simp [chainRefs]
      · obtain ⟨j, hj⟩ : ∃ j, off.toNat = j + 1 := ⟨off.toNat - 1, by omega⟩
        have hwo : wrapInt (off - 1) = off - 1 := wrapInt_of_range (by omega) (by omega)
        have hih := ih d.PreviousPath
          { ref with Dataset := some d, Path := d.PreviousPath } (off - 1) lim n hrest rfl
          (by omega) hl1 hl2 (by omega) (by simp at hst ⊢; omega)
        have h1 : (off - 1).toNat = j := by omega
        rw [chainRefs_update, h1] at hih
        simp [DatasetLogFromHistory.worker, hload, h0, hprev, hwo, hih, hj]
        simp [chainRefs]

/-- What the worker has sent after some steps is a prefix of what it has sent after more. -/
theorem worker_prefix (load : String → Except Error Dataset) :
    ∀ (steps more : Nat) (ref : DatasetRef) (off lim : Int),
      (DatasetLogFromHistory.worker load steps ref off lim).1 <+:
        (DatasetLogFromHistory.worker load (steps + more) ref off lim).1 := by
  intro steps
  induction steps with
  | zero => intro more ref off lim; simp [DatasetLogFromHistory.worker]
  | succ n ih =>
    intro more ref off lim
    have hs : n + 1 + more = (n + more) + 1 := by omega
    rw [hs]
    simp only [DatasetLogFromHistory.worker]
    cases hload : load ref.Path with
    | error e => simp
    | ok ds =>
      simp only []
      by_cases h0 : off ≤ 0
      · simp only [h0, if_true]
        by_cases hlim : wrapInt (lim - 1) = 0
        · simp [hlim]
        · by_cases hprev : ds.PreviousPath = ""
          · simp [hlim, hprev]
          · simp only [hlim, hprev, if_false]
            exact (List.prefix_cons_inj _).mpr (ih more _ _ _)
      · simp only [h0, if_false]
        by_cases hprev : ds.PreviousPath = ""
        · simp [hprev]
        · simp only [hprev, if_false]
          exact ih more _ _ _

/-- C1: on a chain of snapshots linked by `PreviousPath` from the path of the canonicalized
ref, with an offset `o ≥ 0` and a limit `l ≥ 1` (both Go ints), when every load succeeds and the
worker finishes before a `Done` channel fires, `DatasetLogFromHistory` returns a nil error and
the versions at positions `o, o+1, ...` of the chain, newest first, `min l (n - o)` of them
(none when `o ≥ n`). -/
theorem DatasetLogFromHistory_page {S R L : Type} (env : Env S R L) (r : Repo S R L)
    (ref ref' : DatasetRef) (o l : Int) (loadDatasets : Bool) (sched : Sched)
    (dss : List Dataset)
    (hcanon : env.CanonicalizeDatasetRef r ref = .ok ref')
    (hchain : IsChain (DatasetLogFromHistory.load env r loadDatasets) ref'.Path dss)
    (ho : 0 ≤ o) (ho' : o < 2 ^ 63) (hl : 1 ≤ l) (hl' : l < 2 ^ 63)
    (hsched : min (dss.length : Int) (o + l) < sched.steps) :
    DatasetLogFromHistory env r ref o l loadDatasets sched =
        (((chainRefs ref' ref'.Path dss).drop o.toNat).take l.toNat, none) ∧
      (DatasetLogFromHistory env r ref o l loadDatasets sched).1.length =
        min l.toNat (dss.length - o.toNat) ∧
      ∀ i : Nat, i < min l.toNat (dss.length - o.toNat) →
        (DatasetLogFromHistory env r ref o l loadDatasets sched).1[i]? =
          (chainRefs ref' ref'.Path dss)[o.toNat + i]? := by
  have hw := worker_chain (DatasetLogFromHistory.load env r loadDatasets) dss ref'.Path ref' o l
    sched.steps hchain rfl ho' hl hl' (by omega) (by omega)
  have hres : DatasetLogFromHistory env r ref o l loadDatasets sched =
      (((chainRefs ref' ref'.Path dss).drop o.toNat).take l.toNat, none) := by
    simp [DatasetLogFromHistory, hcanon, hw]
  refine ⟨hres, ?_, ?_⟩
  · rw [hres]
    simp [chainRefs_length]
  · intro i hi
    rw [hres]
    have hi' : i < l.toNat := by omega
    simp [List.getElem?_take, hi']

/-- C1, on the sample repo: the three snapshots are a chain from `/map/c`, and offset 1 with
limit 1 returns the second version alone, with a nil error. -/
theorem DatasetLogFromHistory_page_witness :
    IsChain (DatasetLogFromHistory.load (memEnv sampleProfile) sampleRepo true) "/map/c"
        [sampleSnapshot "/map/b" "third", sampleSnapshot "/map/a" "second",
          sampleSnapshot "" "first"] ∧
      (DatasetLogFromHistory (memEnv sampleProfile) sampleRepo sampleRef 1 1 true
        { steps := 3, cause := Cause.timeout }).1.map (fun v => v.Path) = ["/map/b"] ∧
      (DatasetLogFromHistory (memEnv sampleProfile) sampleRepo sampleRef 1 1 true
        { steps := 3, cause := Cause.timeout }).2 = none := by
  have hchain : IsChain (DatasetLogFromHistory.load (memEnv sampleProfile) sampleRepo true)
      "/map/c" [sampleSnapshot "/map/b" "third", sampleSnapshot "/map/a" "second",
        sampleSnapshot "" "first"] := ⟨rfl, by decide, rfl, by decide, rfl, rfl⟩
  have h := DatasetLogFromHistory_page (memEnv sampleProfile) sampleRepo sampleRef
    { sampleRef with Path := "/map/c" } 1 1 true { steps := 3, cause := Cause.timeout }
    [sampleSnapshot "/map/b" "third", sampleSnapshot "/map/a" "second", sampleSnapshot "" "first"]
    rfl hchain (by decide) (by decide) (by decide) (by decide) (by decide)
  rw [h.1]
  exact ⟨hchain, rfl, rfl⟩

/-- With no load left in the window, nothing is assigned to `err`. -/
theorem lateWrite_zero (load : String → Except Error Dataset) :
    ∀ (steps : Nat) (ref : DatasetRef) (offset limit : Int),
      DatasetLogFromHistory.lateWrite load steps 0 ref offset limit = none := by
  intro steps
  induction steps with
  | zero => intro ref offset limit; rfl
  | succ n ih =>
    intro ref offset limit
    simp only [DatasetLogFromHistory.lateWrite]
    split
    · rfl
    · split_ifs <;> first | rfl | exact ih _ _ _

/-- What a cut-off walk returns: the versions the worker has sent so far, with the value a late
load of the worker left in `err` when there is one, and `ErrDatasetLogTimeout`, whichever of the
two channels fired, when there is none; and the versions are a prefix of what the call returns
when it is given any longer, in particular long enough to finish. -/
theorem DatasetLogFromHistory_cut_off_result {S R L : Type} (env : Env S R L) (r : Repo S R L)
    (ref ref' : DatasetRef) (offset limit : Int) (loadDatasets : Bool) (sched : Sched)
    (hcanon : env.CanonicalizeDatasetRef r ref = .ok ref')
    (hcut : (DatasetLogFromHistory.worker (DatasetLogFromHistory.load env r loadDatasets)
      sched.steps ref' offset limit).2 = false) :
    DatasetLogFromHistory env r ref offset limit loadDatasets sched =
        ((DatasetLogFromHistory.worker (DatasetLogFromHistory.load env r loadDatasets)
            sched.steps ref' offset limit).1,
          match DatasetLogFromHistory.lateWrite (DatasetLogFromHistory.load env r loadDatasets)
              sched.steps sched.late ref' offset limit with
          | some err => err
          | none => some Error.ErrDatasetLogTimeout) ∧
      (∀ cause : Cause,
        DatasetLogFromHistory env r ref offset limit loadDatasets
            { steps := sched.steps, cause := cause } =
          ((DatasetLogFromHistory.worker (DatasetLogFromHistory.load env r loadDatasets)
              sched.steps ref' offset limit).1, some Error.ErrDatasetLogTimeout)) ∧
      ∀ later : Sched, sched.steps ≤ later.steps →
        (DatasetLogFromHistory env r ref offset limit loadDatasets sched).1 <+:
          (DatasetLogFromHistory env r ref offset limit loadDatasets later).1 := by
  have hfst : ∀ s : Sched, (DatasetLogFromHistory env r ref offset limit loadDatasets s).1 =
      (DatasetLogFromHistory.worker (DatasetLogFromHistory.load env r loadDatasets)
        s.steps ref' offset limit).1 := by
    intro s
    simp only [DatasetLogFromHistory, hcanon]
    split
    · rfl
    · split
      · rfl
      · cases s.cause <;> rfl
  refine ⟨?_, ?_, ?_⟩
  · simp only [DatasetLogFromHistory, hcanon, hcut]
    cases DatasetLogFromHistory.lateWrite (DatasetLogFromHistory.load env r loadDatasets)
        sched.steps sched.late ref' offset limit with
    | some err => simp
    | none => cases sched.cause <;> simp
  · intro cause
    simp only [DatasetLogFromHistory, hcanon, hcut, lateWrite_zero]
    cases cause <;> simp
  · intro later hle
    obtain ⟨more, hmore⟩ : ∃ more, later.steps = sched.steps + more :=
      ⟨later.steps - sched.steps, by omega⟩
    have hp := worker_prefix (DatasetLogFromHistory.load env r loadDatasets) sched.steps more
      ref' offset limit
    rw [← hmore] at hp
    rw [hfst sched, hfst later]
    exact hp

/-- C2, the code at a failing input: on the repo with the three versions of `movies`, walked
with offset 0 and limit 10, the caller has received the newest version and the worker has not
signalled `done` when the timeout fires. `return rlog, ErrDatasetLogTimeout` stores the error in
the named result `err`; the worker's load of `/map/b` then completes and assigns nil to the same
`err` (line 96) before the function, through the deferred `cancel()`, hands its results back.
The walk returns the one version with a nil error, not `ErrDatasetLogTimeout`; when no load
completes in between it returns `ErrDatasetLogTimeout`. -/
theorem DatasetLogFromHistory_cut_off_nil_error :
    (DatasetLogFromHistory.worker (DatasetLogFromHistory.load (memEnv sampleProfile) sampleRepo true)
        1 { sampleRef with Path := "/map/c" } 0 10).2 = false ∧
      (DatasetLogFromHistory (memEnv sampleProfile) sampleRepo sampleRef 0 10 true
        { steps := 1, cause := Cause.timeout, late := 1 }).1.map (fun v => v.Path) =
        ["/map/c"] ∧
      (DatasetLogFromHistory (memEnv sampleProfile) sampleRepo sampleRef 0 10 true
        { steps := 1, cause := Cause.timeout, late := 1 }).2 = none ∧
      (DatasetLogFromHistory (memEnv sampleProfile) sampleRepo sampleRef 0 10 true
        { steps := 1, cause := Cause.timeout }).2 = some Error.ErrDatasetLogTimeout :=
  ⟨rfl, rfl, rfl, rfl⟩

/-- C3: when the content-store creation `dsfs.CreateDataset` fails, `CreateDataset` returns that
error with a zero ref, and the ref store and the logbook of the repo are what they were before the
call. The result names none of `DeleteRef`, `PutRef`, `WriteDatasetInit` and `WriteVersionSave`,
whatever they are: none of them is called. -/
theorem CreateDataset_store_failure {S R L : Type} (env : Env S R L) (r : Repo S R L)
    (ds dsPrev dropped left : Dataset) (sw : SaveSwitches) (pro : Profile) (err : Error) (store : S)
    (hpro : env.Profile r = .ok pro) (hname : ds.Name ≠ "")
    (hdrop : env.Drop ds sw.Drop = .ok dropped) (hvalid : env.ValidateDataset dropped = none)
    (hfail : env.dsfsCreateDataset r.store dropped dsPrev sw = (.error err, store, left)) :
    CreateDataset env r ds dsPrev sw =
        { ref := DatasetRef.zero, err := some err, repo := { r with store := store } } ∧
      (CreateDataset env r ds dsPrev sw).repo.refs = r.refs ∧
      (CreateDataset env r ds dsPrev sw).repo.book = r.book := by
  have h : CreateDataset env r ds dsPrev sw =
      { ref := DatasetRef.zero, err := some err, repo := { r with store := store } } := by
    simp [CreateDataset, hpro, hname, hdrop, hvalid, hfail]
  rw [h]
  exact ⟨rfl, rfl, rfl⟩

/-- C3, on the repo where `body_four` is saved: saving the head once more fails with
"no changes", and the refs and the logbook stay as they were. -/
theorem CreateDataset_store_failure_witness :
    (CreateDataset (memEnv sampleProfile) savedRepo (bodyFourHead "body_four" "")
        (bodyFourHead "body_four" "/map/Qm0") noSwitches).err =
        some (Error.errorf "error saving: no changes") ∧
      (CreateDataset (memEnv sampleProfile) savedRepo (bodyFourHead "body_four" "")
        (bodyFourHead "body_four" "/map/Qm0") noSwitches).repo.refs = savedRepo.refs ∧
      (CreateDataset (memEnv sampleProfile) savedRepo (bodyFourHead "body_four" "")
        (bodyFourHead "body_four" "/map/Qm0") noSwitches).repo.book = savedRepo.book := by
  have h := CreateDataset_store_failure (memEnv sampleProfile) savedRepo
    (bodyFourHead "body_four" "") (bodyFourHead "body_four" "/map/Qm0")
    (bodyFourHead "body_four" "") (bodyFourHead "body_four" "") noSwitches sampleProfile
    (Error.errorf "error saving: no changes") savedRepo.store rfl (by decide) rfl rfl rfl
  refine ⟨?_, h.2.1, h.2.2⟩
  rw [h.1]

/-- C4: when `MaybeInferName` returns a name, a head version exists under that name and the
`NewName` switch is not set, `SaveDataset` returns the error that the inferred name already
exists; it returns before line 149, without a call of `CreateDataset`, and the repo is as it
was. -/
theorem SaveDataset_inferred_name_exists {S R L : Type} (env : Env S R L) (fuel : Nat)
    (r : Repo S R L) (changes : Dataset) (sw : SaveSwitches) (pro : Profile)
    (prev mutable : Dataset) (prevPath : String)
    (hpro : env.Profile r = .ok pro)
    (hinferred : (env.MaybeInferName changes).1 ≠ "")
    (hhead : env.PrepareHeadDatasetVersion r pro.Peername (env.MaybeInferName changes).1 =
      .ok (prev, mutable, prevPath))
    (hprev : prevPath ≠ "") (hnew : sw.NewName = false) :
    SaveDataset.prepare env fuel r changes sw =
        .returns DatasetRef.zero (some (Error.errorf
          "inferred dataset name already exists. To add a new commit to this dataset, run save again with the dataset reference. To create a new dataset, use --new flag")) ∧
      SaveDataset env fuel r changes sw =
        some { ref := DatasetRef.zero,
               err := some (Error.errorf
                 "inferred dataset name already exists. To add a new commit to this dataset, run save again with the dataset reference. To create a new dataset, use --new flag"),
               repo := r } := by
  have h : SaveDataset.prepare env fuel r changes sw =
      .returns DatasetRef.zero (some (Error.errorf
        "inferred dataset name already exists. To add a new commit to this dataset, run save again with the dataset reference. To create a new dataset, use --new flag")) := by
    simp [SaveDataset.prepare, SaveDataset.naming, hpro, hinferred, hhead, hprev, hnew]
  refine ⟨h, ?_⟩
  simp [SaveDataset, h]

/-- C4, on the repo where `body_four` is saved: the same save again, without `--new`, fails
with the error of the test `TestSaveInferName` and leaves the repo as it was. -/
theorem SaveDataset_inferred_name_exists_witness :
    ((memEnv sampleProfile).MaybeInferName bodyFour).1 = "body_four" ∧
      SaveDataset (memEnv sampleProfile) 0 savedRepo bodyFour noSwitches =
        some { ref := DatasetRef.zero,
               err := some (Error.errorf
                 "inferred dataset name already exists. To add a new commit to this dataset, run save again with the dataset reference. To create a new dataset, use --new flag"),
               repo := savedRepo } :=
  ⟨rfl, (SaveDataset_inferred_name_exists (memEnv sampleProfile) 0 savedRepo bodyFour noSwitches
    sampleProfile (bodyFourHead "body_four" "/map/Qm0") (bodyFourHead "body_four" "/map/Qm0")
    "/map/Qm0" rfl (by decide) rfl (by decide) rfl).2⟩

/-- One pass of the loop of `GenerateAvailableName`. -/
theorem loop_succ {S R L : Type} (env : Env S R L) (r : Repo S R L) (peername pfx : String)
    (fuel : Nat) (counter : Int) :
    GenerateAvailableName.loop env r peername pfx (fuel + 1) counter =
      match env.CanonicalizeDatasetRef r
        { DatasetRef.zero with
          Name := pfx ++ "_" ++ toString (wrapInt (counter + 1)), Peername := peername } with
      | .error err =>
        if err = Error.ErrNotFound then some (pfx ++ "_" ++ toString (wrapInt (counter + 1)))
        else GenerateAvailableName.loop env r peername pfx fuel (wrapInt (counter + 1))
      | .ok _ => GenerateAvailableName.loop env r peername pfx fuel (wrapInt (counter + 1)) :=
  rfl

/-- Entered with a counter below the first free number `k`, the loop returns `pfx_k`. -/
theorem loop_finds {S R L : Type} (env : Env S R L) (r : Repo S R L) (peername pfx : String)
    (k : Nat) (hk' : (k : Int) < 2 ^ 63)
    (hfree : env.CanonicalizeDatasetRef r
      { DatasetRef.zero with Name := pfx ++ "_" ++ toString (k : Int), Peername := peername } =
        .error Error.ErrNotFound)
    (hused : ∀ j : Nat, 1 ≤ j → j < k → env.CanonicalizeDatasetRef r
      { DatasetRef.zero with Name := pfx ++ "_" ++ toString (j : Int), Peername := peername } ≠
        .error Error.ErrNotFound) :
    ∀ (fuel c : Nat), c < k → k - c ≤ fuel →
      GenerateAvailableName.loop env r peername pfx fuel (c : Int) =
        some (pfx ++ "_" ++ toString (k : Int)) := by
  intro fuel
  induction fuel with
  | zero => intro c hc hf; omega
  | succ n ih =>
    intro c hc hf
    have hw : wrapInt ((c : Int) + 1) = ((c + 1 : Nat) : Int) := by
      rw [wrapInt_of_range (by omega) (by omega)]; rfl
    rw [loop_succ, hw]
    by_cases hck : c + 1 = k
    · subst hck
      rw [hfree]
      simp
    · have hu := hused (c + 1) (by omega) (by omega)
      have hi := ih (c + 1) (by omega) (by omega)
      cases hlook : env.CanonicalizeDatasetRef r
          { DatasetRef.zero with
            Name := pfx ++ "_" ++ toString ((c + 1 : Nat) : Int), Peername := peername } with
      | error e =>
        have hne : e ≠ Error.ErrNotFound := by
          intro he; subst he; exact hu hlook
        simp only [hne, if_false]
        exact hi
      | ok x => exact hi

/-- C5: if the lookup of `peername/pfx_k` answers `ErrNotFound` for some `k ≥ 1` (a Go int)
and the lookup of `peername/pfx_j` answers anything else for every `1 ≤ j < k`, then
`GenerateAvailableName` returns `pfx_k`, as soon as it is given `k` passes of its loop: the
counter starts at 1 and stops at the smallest number whose name is not in use. -/
theorem GenerateAvailableName_smallest {S R L : Type} (env : Env S R L) (r : Repo S R L)
    (peername pfx : String) (k fuel : Nat) (hk : 1 ≤ k) (hk' : k < 2 ^ 63)
    (hfree : env.CanonicalizeDatasetRef r
      { DatasetRef.zero with Name := pfx ++ "_" ++ toString k, Peername := peername } =
        .error Error.ErrNotFound)
    (hused : ∀ j : Nat, 1 ≤ j → j < k → env.CanonicalizeDatasetRef r
      { DatasetRef.zero with Name := pfx ++ "_" ++ toString j, Peername := peername } ≠
        .error Error.ErrNotFound)
    (hfuel : k ≤ fuel) :
    GenerateAvailableName env fuel r peername pfx = some (pfx ++ "_" ++ toString k) :=
  loop_finds env r peername pfx k (by exact_mod_cast hk') hfree hused fuel 0 (by omega) (by omega)

/-- C5, on the sample repos: with `body_four` taken the name is `body_four_1`, and with
`body_four_1` taken as well it is `body_four_2`. -/
theorem GenerateAvailableName_smallest_witness :
    GenerateAvailableName (memEnv sampleProfile) 1 savedRepo "test_peer" "body_four" =
        some "body_four_1" ∧
      GenerateAvailableName (memEnv sampleProfile) 2 savedTwiceRepo "test_peer" "body_four" =
        some "body_four_2" :=
  ⟨GenerateAvailableName_smallest (memEnv sampleProfile) savedRepo "test_peer" "body_four" 1 1
      (by decide) (by decide) rfl (fun j h1 h2 => by omega) (by decide),
   GenerateAvailableName_smallest (memEnv sampleProfile) savedTwiceRepo "test_peer" "body_four" 2 2
      (by decide) (by decide) rfl
      (fun j h1 h2 => by
        obtain rfl : j = 1 := by omega
        intro h
        cases h)
      (by decide)⟩

/-- C6: when no name is inferred, a head version exists under the name given in the changes
and the `NewName` switch is set, `SaveDataset` returns the error that the name has a previous
version; it returns before line 149, without a call of `CreateDataset`, and the repo is as it
was. -/
theorem SaveDataset_given_name_exists {S R L : Type} (env : Env S R L) (fuel : Nat)
    (r : Repo S R L) (changes : Dataset) (sw : SaveSwitches) (pro : Profile)
    (prev mutable : Dataset) (prevPath : String)
    (hpro : env.Profile r = .ok pro)
    (hgiven : (env.MaybeInferName changes).1 = "")
    (hhead : env.PrepareHeadDatasetVersion r pro.Peername changes.Name =
      .ok (prev, mutable, prevPath))
    (hprev : prevPath ≠ "") (hnew : sw.NewName = true) :
    SaveDataset.prepare env fuel r changes sw =
        .returns DatasetRef.zero (some (Error.errorf
          "dataset name has a previous version, cannot make new dataset")) ∧
      SaveDataset env fuel r changes sw =
        some { ref := DatasetRef.zero,
               err := some (Error.errorf
                 "dataset name has a previous version, cannot make new dataset"),
               repo := r } := by
  have h : SaveDataset.prepare env fuel r changes sw =
      .returns DatasetRef.zero (some (Error.errorf
        "dataset name has a previous version, cannot make new dataset")) := by
    simp [SaveDataset.prepare, SaveDataset.naming, hpro, hgiven, hhead, hprev, hnew]
  refine ⟨h, ?_⟩
  simp [SaveDataset, h]

/-- C6, on the repo where `body_four` is saved: a save under the given name `body_four` with
`--new` fails and leaves the repo as it was. -/
theorem SaveDataset_given_name_exists_witness :
    ((memEnv sampleProfile).MaybeInferName { bodyFour with Name := "body_four" }).1 = "" ∧
      SaveDataset (memEnv sampleProfile) 0 savedRepo { bodyFour with Name := "body_four" }
          { noSwitches with NewName := true } =
        some { ref := DatasetRef.zero,
               err := some (Error.errorf
                 "dataset name has a previous version, cannot make new dataset"),
               repo := savedRepo } :=
  ⟨rfl, (SaveDataset_given_name_exists (memEnv sampleProfile) 0 savedRepo
    { bodyFour with Name := "body_four" } { noSwitches with NewName := true }
    sampleProfile (bodyFourHead "body_four" "/map/Qm0") (bodyFourHead "body_four" "/map/Qm0")
    "/map/Qm0" rfl rfl rfl (by decide) rfl).2⟩

/-- C7: when the repo has a logbook and `Items` succeeds with an empty list, `DatasetLog`
returns no items and the error `ErrNoHistory`. -/
theorem DatasetLog_no_history {S R L : Type} (env : Env S R L) (r : Repo S R L)
    (ref : DatasetRef) (limit offset : Int) (loadDatasets : Bool) (sched : Sched)
    (hbook : env.hasLogbook r.book = true)
    (hitems : env.Items r.book (env.ConvertToDsref ref) offset limit = .ok []) :
    (DatasetLog env r ref limit offset loadDatasets sched).1 = ([], some Error.ErrNoHistory) := by
  simp [DatasetLog, hbook, hitems]

/-- C7, on a repo whose logbook holds no item for `movies`. -/
theorem DatasetLog_no_history_witness :
    (memEnv sampleProfile).Items noHistoryRepo.book
        ((memEnv sampleProfile).ConvertToDsref sampleRef) 0 10 = .ok [] ∧
      (DatasetLog (memEnv sampleProfile) noHistoryRepo sampleRef 10 0 true
        { steps := 10, cause := Cause.timeout }).1 = ([], some Error.ErrNoHistory) :=
  ⟨rfl, DatasetLog_no_history (memEnv sampleProfile) noHistoryRepo sampleRef 10 0 true
    { steps := 10, cause := Cause.timeout } rfl rfl⟩

/-- C8, the code at a failing input: the logbook serves the item of `/map/c` with an empty
title and an empty message, the content is in the local store and loads with the commit titled
"third"; `DatasetLog` returns the item with the message of that commit, and with the title
still empty. -/
theorem DatasetLog_leaves_commit_title :
    memLoad loggedRepo.store "/map/c" = .ok (sampleSnapshot "" "third") ∧
      (sampleSnapshot "" "third").Commit =
        some { Title := "third", Message := "message of third" } ∧
      (DatasetLog (memEnv sampleProfile) loggedRepo sampleRef 1 0 true
          { steps := 10, cause := Cause.timeout }).1 =
        ([{ logItem "movies" "/map/c" "" with CommitMessage := "message of third" }], none) ∧
      ((DatasetLog (memEnv sampleProfile) loggedRepo sampleRef 1 0 true
          { steps := 10, cause := Cause.timeout }).1.1.map (fun item => item.CommitTitle)) =
        [""] := by
  refine ⟨rfl, rfl, rfl, rfl⟩

/-- The loop of `DatasetLog` never changes the path of an item. -/
theorem hydrate_path {S R L : Type} (env : Env S R L) (r : Repo S R L) (item : DatasetLogItem) :
    (DatasetLog.hydrate env r item).Path = item.Path := by
  unfold DatasetLog.hydrate
  repeat' split
  all_goals rfl

/-- The loop of `DatasetLog` never changes the commit title of an item. -/
theorem hydrate_title {S R L : Type} (env : Env S R L) (r : Repo S R L) (item : DatasetLogItem) :
    (DatasetLog.hydrate env r item).CommitTitle = item.CommitTitle := by
  unfold DatasetLog.hydrate
  repeat' split
  all_goals rfl

/-- The flag `Foreign` of an item whose presence check succeeds. -/
theorem hydrate_foreign {S R L : Type} (env : Env S R L) (r : Repo S R L) (item : DatasetLogItem)
    (isLocal : Bool) (hpath : item.Path ≠ "") (hhas : env.Has r.store item.Path = .ok isLocal) :
    (DatasetLog.hydrate env r item).Foreign = !isLocal := by
  unfold DatasetLog.hydrate
  rw [if_pos hpath, hhas]

/-- C9: an item that `DatasetLog` returns from the logbook, with a non-empty `Path` for which
`Has` answers `isLocal`, has `Foreign` true exactly when `isLocal` is false; and when the
content is not local the item is the one the logbook returned with `Foreign` set, so its
`CommitMessage` and `CommitTitle` are the logbook's, whatever `LoadDataset` would answer. -/
theorem DatasetLog_foreign {S R L : Type} (env : Env S R L) (r : Repo S R L)
    (ref : DatasetRef) (limit offset : Int) (loadDatasets : Bool) (sched : Sched)
    (items : List DatasetLogItem) (i : Nat) (item : DatasetLogItem) (isLocal : Bool)
    (hbook : env.hasLogbook r.book = true)
    (hitems : env.Items r.book (env.ConvertToDsref ref) offset limit = .ok items)
    (hitem : items[i]? = some item) (hpath : item.Path ≠ "")
    (hhas : env.Has r.store item.Path = .ok isLocal) :
    ∃ out res,
      (DatasetLog env r ref limit offset loadDatasets sched).1 = (out, none) ∧
      out.length = items.length ∧ out[i]? = some res ∧
      res.Path = item.Path ∧
      (res.Foreign = true ↔ isLocal = false) ∧
      (isLocal = false →
        res = { item with Foreign := true } ∧
        res.CommitMessage = item.CommitMessage ∧ res.CommitTitle = item.CommitTitle) := by
  have hne : items.length ≠ 0 := by
    intro h0
    have : items = [] := List.length_eq_zero.mp h0
    rw [this] at hitem
    simp at hitem
  refine ⟨items.map (DatasetLog.hydrate env r), DatasetLog.hydrate env r item, ?_, ?_, ?_, ?_, ?_, ?_⟩
  · simp [DatasetLog, hbook, hitems, hne]
  · simp
  · simp [hitem]
  · exact hydrate_path env r item
  · rw [hydrate_foreign env r item isLocal hpath hhas]
    cases isLocal <;> simp
  · intro hl
    subst hl
    simp [DatasetLog.hydrate, hpath, hhas]

/-- C9, on the repo whose logbook holds `/ipfs/QmFar`, absent from the local store: the
item comes back foreign, with the title and the message the logbook gave. -/
theorem DatasetLog_foreign_witness :
    (memEnv sampleProfile).Has loggedRepo.store "/ipfs/QmFar" = .ok false ∧
      ∃ out res,
        (DatasetLog (memEnv sampleProfile) loggedRepo sampleRef 10 0 true
          { steps := 10, cause := Cause.timeout }).1 = (out, none) ∧
        out.length = 2 ∧ out[1]? = some res ∧
        res.Path = "/ipfs/QmFar" ∧
        (res.Foreign = true ↔ false = false) ∧
        (false = false →
          res = { logItem "movies" "/ipfs/QmFar" "far" with Foreign := true } ∧
          res.CommitMessage = "" ∧ res.CommitTitle = "far") :=
  ⟨rfl, DatasetLog_foreign (memEnv sampleProfile) loggedRepo sampleRef 10 0 true
    { steps := 10, cause := Cause.timeout }
    [logItem "movies" "/map/c" "", logItem "movies" "/ipfs/QmFar" "far"] 1
    (logItem "movies" "/ipfs/QmFar" "far") false rfl rfl rfl (by decide) rfl⟩

/-- C10: when the naming finds no previous head under the resolved name (`prevPath` is empty)
and the changes, as they stand at line 111 (after the transform, when one is attached, has run
in the repo of the save), carry neither a body file nor a structure, `SaveDataset` returns the
error that a new dataset requires a structure or a body; it returns before line 149, without a
call of `CreateDataset`, and the repo is as it was. -/
theorem SaveDataset_requires_body_or_structure {S R L : Type} (env : Env S R L) (fuel : Nat)
    (r r' : Repo S R L) (changes named transformed : Dataset) (sw : SaveSwitches) (pro : Profile)
    (dsName : String) (prev mutable : Dataset)
    (hnaming : SaveDataset.naming env fuel r changes sw =
      .resolved pro named dsName prev mutable "")
    (hdry : (if sw.DryRun then env.NewMemRepo pro r else .ok r) = .ok r')
    (htransform : (match named.Transform with
      | some _ => env.ExecScript r' named prev
      | none => .ok named) = .ok transformed)
    (hbody : transformed.bodyFile = none) (hstructure : transformed.Structure = none) :
    SaveDataset.prepare env fuel r changes sw =
        .returns DatasetRef.zero (some (Error.errorf
          "creating a new dataset requires a structure or a body")) ∧
      SaveDataset env fuel r changes sw =
        some { ref := DatasetRef.zero,
               err := some (Error.errorf "creating a new dataset requires a structure or a body"),
               repo := r } := by
  have h : SaveDataset.prepare env fuel r changes sw =
      .returns DatasetRef.zero (some (Error.errorf
        "creating a new dataset requires a structure or a body")) := by
    simp only [SaveDataset.prepare, hnaming, SaveDataset.build, hdry, htransform]
    simp [hbody, hstructure]
  refine ⟨h, ?_⟩
  simp [SaveDataset, h]

/-- C10, on the repo where `body_four` is saved: a save under the new name `fresh` with no
body and no structure fails and leaves the repo as it was. -/
theorem SaveDataset_requires_body_or_structure_witness :
    SaveDataset.naming (memEnv sampleProfile) 0 savedRepo { Dataset.zero with Name := "fresh" }
        noSwitches =
        .resolved sampleProfile { Dataset.zero with Name := "fresh" } "fresh" Dataset.zero
          { Dataset.zero with Name := "fresh", Peername := "test_peer" } "" ∧
      SaveDataset (memEnv sampleProfile) 0 savedRepo { Dataset.zero with Name := "fresh" }
          noSwitches =
        some { ref := DatasetRef.zero,
               err := some (Error.errorf "creating a new dataset requires a structure or a body"),
               repo := savedRepo } :=
  ⟨rfl, (SaveDataset_requires_body_or_structure (memEnv sampleProfile) 0 savedRepo savedRepo
    { Dataset.zero with Name := "fresh" } { Dataset.zero with Name := "fresh" }
    { Dataset.zero with Name := "fresh" } noSwitches sampleProfile "fresh" Dataset.zero
    { Dataset.zero with Name := "fresh", Peername := "test_peer" } rfl rfl rfl rfl rfl).2⟩

/-- Lines 81-148 of `SaveDataset` with the format check named. -/
theorem build_eq {S R L : Type} (env : Env S R L) (r : Repo S R L) (pro : Profile)
    (changes : Dataset) (sw : SaveSwitches) (dsName : String) (prev mutable : Dataset)
    (prevPath : String) :
    SaveDataset.build env r pro changes sw dsName prev mutable prevPath =
      match (if sw.DryRun then env.NewMemRepo pro r else .ok r) with
      | .error err => .returns DatasetRef.zero (some err)
      | .ok r =>
        match (match changes.Transform with
          | some _ => env.ExecScript r changes prev
          | none => .ok changes) with
        | .error err => .returns DatasetRef.zero (some err)
        | .ok changes =>
          if prevPath = "" ∧ changes.bodyFile = none ∧ changes.Structure = none then
            .returns DatasetRef.zero
              (some (Error.errorf "creating a new dataset requires a structure or a body"))
          else
            match SaveDataset.convertFormat env changes prev sw with
            | .error err => .returns DatasetRef.zero (some err)
            | .ok changes =>
              match env.InferValues pro
                (if sw.Replace then changes else env.Assign mutable changes) with
              | .error err => .returns DatasetRef.zero (some err)
              | .ok changes =>
                .creates r { changes with PreviousPath := prevPath, Name := dsName } prev := by
  unfold SaveDataset.build SaveDataset.convertFormat
  cases sw.Replace <;> rfl

/-- C11: when the changes, as they stand at line 116, carry a body file and a structure, the
previous version has a structure, the two formats differ and `ConvertFormatToPrev` is not set,
`SaveDataset` returns the error "Refusing to change structure from P to N", `P` being the
format of the previous version and `N` the format of the changes; it returns before line 149 and
the repo is as it was. -/
theorem SaveDataset_refuses_format_change {S R L : Type} (env : Env S R L) (fuel : Nat)
    (r r' : Repo S R L) (changes named transformed : Dataset) (sw : SaveSwitches) (pro : Profile)
    (dsName : String) (prev mutable : Dataset) (prevPath : String) (body : File)
    (ps cs : Structure)
    (hnaming : SaveDataset.naming env fuel r changes sw =
      .resolved pro named dsName prev mutable prevPath)
    (hdry : (if sw.DryRun then env.NewMemRepo pro r else .ok r) = .ok r')
    (htransform : (match named.Transform with
      | some _ => env.ExecScript r' named prev
      | none => .ok named) = .ok transformed)
    (hbody : transformed.bodyFile = some body) (hprev : prev.Structure = some ps)
    (hstructure : transformed.Structure = some cs) (hformat : ps.Format ≠ cs.Format)
    (hswitch : sw.ConvertFormatToPrev = false) :
    SaveDataset.prepare env fuel r changes sw =
        .returns DatasetRef.zero (some (Error.errorf
          ("Refusing to change structure from " ++ ps.Format ++ " to " ++ cs.Format))) ∧
      SaveDataset env fuel r changes sw =
        some { ref := DatasetRef.zero,
               err := some (Error.errorf
                 ("Refusing to change structure from " ++ ps.Format ++ " to " ++ cs.Format)),
               repo := r } := by
  have hc : SaveDataset.convertFormat env transformed prev sw =
      .error (Error.errorf
        ("Refusing to change structure from " ++ ps.Format ++ " to " ++ cs.Format)) := by
    simp [SaveDataset.convertFormat, hbody, hprev, hstructure, hformat, hswitch]
  have h : SaveDataset.prepare env fuel r changes sw =
      .returns DatasetRef.zero (some (Error.errorf
        ("Refusing to change structure from " ++ ps.Format ++ " to " ++ cs.Format))) := by
    simp only [SaveDataset.prepare, hnaming, build_eq, hdry, htransform, hc]
    simp [hbody]
  refine ⟨h, ?_⟩
  simp [SaveDataset, h]

/-- C11, on the repo where `movies` is saved in json: a save with a csv body, without the
switch, is refused, the json format named first. -/
theorem SaveDataset_refuses_format_change_witness :
    jsonHead.Structure = some { Format := "json" } ∧
      csvChanges.Structure = some { Format := "csv" } ∧
      SaveDataset (memEnv sampleProfile) 0 jsonRepo csvChanges noSwitches =
        some { ref := DatasetRef.zero,
               err := some (Error.errorf "Refusing to change structure from json to csv"),
               repo := jsonRepo } :=
  ⟨rfl, rfl, (SaveDataset_refuses_format_change (memEnv sampleProfile) 0 jsonRepo jsonRepo
    csvChanges csvChanges csvChanges noSwitches sampleProfile "movies" jsonHead
    { jsonHead with Name := "movies", Peername := "test_peer" } "/map/Qm0"
    { name := "body.csv", data := "ten rows" } { Format := "json" } { Format := "csv" }
    rfl rfl rfl rfl rfl rfl (by decide) rfl).2⟩

/-- A save that reaches line 149 has passed every step of lines 37-148: the naming resolved
a name, the repo of the save was made, the transform step, the format check and the inference
succeeded, and the guard of line 111 did not fire. -/
theorem prepare_creates_inv {S R L : Type} (env : Env S R L) (fuel : Nat) (r r' : Repo S R L)
    (changes ds dsPrev : Dataset) (sw : SaveSwitches)
    (h : SaveDataset.prepare env fuel r changes sw = .creates r' ds dsPrev) :
    ∃ (pro : Profile) (named : Dataset) (dsName : String) (prev mutable : Dataset)
      (prevPath : String) (transformed converted inferred : Dataset),
      SaveDataset.naming env fuel r changes sw =
        .resolved pro named dsName prev mutable prevPath ∧
      (if sw.DryRun then env.NewMemRepo pro r else .ok r) = .ok r' ∧
      (match named.Transform with
        | some _ => env.ExecScript r' named prev
        | none => .ok named) = .ok transformed ∧
      ¬ (prevPath = "" ∧ transformed.bodyFile = none ∧ transformed.Structure = none) ∧
      SaveDataset.convertFormat env transformed prev sw = .ok converted ∧
      env.InferValues pro (if sw.Replace then converted else env.Assign mutable converted) =
        .ok inferred ∧
      ds = { inferred with PreviousPath := prevPath, Name := dsName } ∧ dsPrev = prev := by
  unfold SaveDataset.prepare at h
  split at h
  · cases h
  · cases h
  · rename_i pro named dsName prev mutable prevPath hnaming
    rw [build_eq] at h
    split at h
    · cases h
    · rename_i r1 hdry
      split at h
      · cases h
      · rename_i transformed htransform
        split at h
        · cases h
        · rename_i hguard
          split at h
          · cases h
          · rename_i converted hconvert
            split at h
            · cases h
            · rename_i inferred hinfer
              injection h with h1 h2 h3
              subst h1
              exact ⟨pro, named, dsName, prev, mutable, prevPath, transformed, converted,
                inferred, hnaming, hdry, htransform, hguard, hconvert, hinfer, h2.symm, h3.symm⟩

/-- The two fields that lines 145 and 148 set are not among the fields of `Dataset.get`. -/
theorem get_set_link (ds : Dataset) (prevPath dsName : String) (f : Field) :
    ({ ds with PreviousPath := prevPath, Name := dsName } : Dataset).get f = ds.get f := by
  cases f <;> rfl

/-- The sample `Assign` is a field-level patch. -/
theorem memAssign_patch (base changes : Dataset) :
    (memAssign base changes).TakesSetFields changes ∧
      (memAssign base changes).InheritsUnsetFields changes base := by
  rcases base with ⟨bn, bp, bi, bpa, bpp, bbp, bc, bs, bt, bf⟩
  rcases changes with ⟨cn, cp, ci, cpa, cpp, cbp, cc, cs, ct, cf⟩
  constructor
  · intro f v hv
    cases f
    · simp only [Dataset.get, memAssign] at hv ⊢; split_ifs at hv ⊢; simp_all
    · simp only [Dataset.get, memAssign] at hv ⊢; split_ifs at hv ⊢; simp_all
    · simp only [Dataset.get, memAssign] at hv ⊢; split_ifs at hv ⊢; simp_all
    · simp only [Dataset.get, memAssign] at hv ⊢; split_ifs at hv ⊢; simp_all
    · rcases bc with _ | ⟨b1, b2⟩ <;> rcases cc with _ | ⟨c1, c2⟩ <;>
        simp only [Dataset.get, memAssign] at hv ⊢ <;> (try split_ifs at hv ⊢) <;> simp_all
    · rcases bc with _ | ⟨b1, b2⟩ <;> rcases cc with _ | ⟨c1, c2⟩ <;>
        simp only [Dataset.get, memAssign] at hv ⊢ <;> (try split_ifs at hv ⊢) <;> simp_all
    · rcases bs with _ | ⟨b1⟩ <;> rcases cs with _ | ⟨c1⟩ <;>
        simp only [Dataset.get, memAssign] at hv ⊢ <;> (try split_ifs at hv ⊢) <;> simp_all
    · rcases bt with _ | ⟨b1⟩ <;> rcases ct with _ | ⟨c1⟩ <;>
        simp only [Dataset.get, memAssign] at hv ⊢ <;> (try split_ifs at hv ⊢) <;> simp_all
    · rcases bf with _ | b1 <;> rcases cf with _ | c1 <;>
        simp_all [Dataset.get, memAssign]
  · intro f v hc hb
    cases f
    · simp only [Dataset.get, memAssign] at hc hb ⊢; split_ifs at hc hb ⊢; simp_all
    · simp only [Dataset.get, memAssign] at hc hb ⊢; split_ifs at hc hb ⊢; simp_all
    · simp only [Dataset.get, memAssign] at hc hb ⊢; split_ifs at hc hb ⊢; simp_all
    · simp only [Dataset.get, memAssign] at hc hb ⊢; split_ifs at hc hb ⊢; simp_all
    · rcases bc with _ | ⟨b1, b2⟩ <;> rcases cc with _ | ⟨c1, c2⟩ <;>
        simp only [Dataset.get, memAssign] at hc hb ⊢ <;> (try split_ifs at hc hb ⊢) <;>
        simp_all
    · rcases bc with _ | ⟨b1, b2⟩ <;> rcases cc with _ | ⟨c1, c2⟩ <;>
        simp only [Dataset.get, memAssign] at hc hb ⊢ <;> (try split_ifs at hc hb ⊢) <;>
        simp_all
    · rcases bs with _ | ⟨b1⟩ <;> rcases cs with _ | ⟨c1⟩ <;>
        simp only [Dataset.get, memAssign] at hc hb ⊢ <;> (try split_ifs at hc hb ⊢) <;>
        simp_all
    · rcases bt with _ | ⟨b1⟩ <;> rcases ct with _ | ⟨c1⟩ <;>
        simp only [Dataset.get, memAssign] at hc hb ⊢ <;> (try split_ifs at hc hb ⊢) <;>
        simp_all
    · rcases bf with _ | b1 <;> rcases cf with _ | c1 <;>
        simp_all [Dataset.get, memAssign]

/-- C12, as amended: for every save that reaches line 149, the snapshot handed to
`CreateDataset` is made from the changes as they stand at line 133 (`converted`, the changes
after the name inference, the transform and the format conversion): when `Replace` is not set
the merge is `mutable.Assign(changes)`, the changes assigned over the copy of the previous head
that `PrepareHeadDatasetVersion` returned, and when `Replace` is set it is the changes alone,
`mutable` unused; `InferValues` then runs on the merge, and `PreviousPath` and `Name` of the
result are set to the resolved head path and the final name, whatever the merge holds in these
two fields. So, when `Assign` is a field-level patch and `InferValues` leaves the fields that are
set as they are, then, `PreviousPath` and `Name` apart: every field set in the changes has the
value of the changes in the snapshot; without `Replace`, every field unset in the changes and set
in the copy of the previous head has the previous head's value; and with `Replace` the snapshot
is made from the changes alone. The previous head is handed over unchanged as `dsPrev`. -/
theorem SaveDataset_hands_merge {S R L : Type} (env : Env S R L) (fuel : Nat)
    (r r' : Repo S R L) (changes ds dsPrev : Dataset) (sw : SaveSwitches)
    (h : SaveDataset.prepare env fuel r changes sw = .creates r' ds dsPrev)
    (hassign : ∀ base ch : Dataset,
      (env.Assign base ch).TakesSetFields ch ∧ (env.Assign base ch).InheritsUnsetFields ch base)
    (hinfer : ∀ (pro : Profile) (merged out : Dataset),
      env.InferValues pro merged = .ok out → out.TakesSetFields merged) :
    ∃ (pro : Profile) (named : Dataset) (dsName : String) (prev mutable : Dataset)
      (prevPath : String) (transformed converted inferred : Dataset),
      SaveDataset.naming env fuel r changes sw =
        .resolved pro named dsName prev mutable prevPath ∧
      (match named.Transform with
        | some _ => env.ExecScript r' named prev
        | none => .ok named) = .ok transformed ∧
      SaveDataset.convertFormat env transformed prev sw = .ok converted ∧
      (sw.Replace = false →
        env.InferValues pro (env.Assign mutable converted) = .ok inferred ∧
        ds.InheritsUnsetFields converted mutable) ∧
      (sw.Replace = true → env.InferValues pro converted = .ok inferred) ∧
      ds.TakesSetFields converted ∧
      ds = { inferred with PreviousPath := prevPath, Name := dsName } ∧
      ds.PreviousPath = prevPath ∧ ds.Name = dsName ∧ dsPrev = prev := by
  obtain ⟨pro, named, dsName, prev, mutable, prevPath, transformed, converted, inferred,
    hnaming, _, htransform, _, hconvert, hinf, hds, hprev⟩ :=
    prepare_creates_inv env fuel r r' changes ds dsPrev sw h
  have hget : ∀ f : Field, ds.get f = inferred.get f := by
    intro f
    rw [hds]
    exact get_set_link inferred prevPath dsName f
  refine ⟨pro, named, dsName, prev, mutable, prevPath, transformed, converted, inferred,
    hnaming, htransform, hconvert, ?_, ?_, ?_, hds, ?_, ?_, hprev⟩
  · intro hrep
    have hi : env.InferValues pro (env.Assign mutable converted) = .ok inferred := by
      simpa [hrep] using hinf
    refine ⟨hi, ?_⟩
    intro f v hc hm
    rw [hget f]
    exact hinfer pro _ inferred hi f v ((hassign mutable converted).2 f v hc hm)
  · intro hrep
    simpa [hrep] using hinf
  · intro f v hc
    rw [hget f]
    cases hrep : sw.Replace with
    | false =>
      have hi : env.InferValues pro (env.Assign mutable converted) = .ok inferred := by
        simpa [hrep] using hinf
      exact hinfer pro _ inferred hi f v ((hassign mutable converted).1 f v hc)
    | true =>
      have hi : env.InferValues pro converted = .ok inferred := by
        simpa [hrep] using hinf
      exact hinfer pro _ inferred hi f v hc
  · rw [hds]
  · rw [hds]

/-- C12, as amended, on the repo where `body_four` is saved: a second save under that name
reaches line 149, and the snapshot handed over is the head with the new body assigned over it,
linked to `/map/Qm0`: the body file is the one of the changes, the peername, unset in the
changes, is the one of the head. -/
theorem SaveDataset_hands_merge_witness :
    SaveDataset.prepare (memEnv sampleProfile) 0 savedRepo bodyFive noSwitches =
        .creates savedRepo handedFive (bodyFourHead "body_four" "/map/Qm0") ∧
      handedFive.get Field.bodyFile = bodyFive.get Field.bodyFile ∧
      bodyFive.get Field.Peername = none ∧
      handedFive.get Field.Peername = some (Value.text "test_peer") ∧
      ∃ (pro : Profile) (named : Dataset) (dsName : String) (prev mutable : Dataset)
        (prevPath : String) (transformed converted inferred : Dataset),
        SaveDataset.naming (memEnv sampleProfile) 0 savedRepo bodyFive noSwitches =
          .resolved pro named dsName prev mutable prevPath ∧
        (match named.Transform with
          | some _ => (memEnv sampleProfile).ExecScript savedRepo named prev
          | none => .ok named) = .ok transformed ∧
        SaveDataset.convertFormat (memEnv sampleProfile) transformed prev noSwitches =
          .ok converted ∧
        (noSwitches.Replace = false →
          (memEnv sampleProfile).InferValues pro
            ((memEnv sampleProfile).Assign mutable converted) = .ok inferred ∧
          handedFive.InheritsUnsetFields converted mutable) ∧
        (noSwitches.Replace = true →
          (memEnv sampleProfile).InferValues pro converted = .ok inferred) ∧
        handedFive.TakesSetFields converted ∧
        handedFive = { inferred with PreviousPath := prevPath, Name := dsName } ∧
        handedFive.PreviousPath = prevPath ∧
        handedFive.Name = dsName ∧
        bodyFourHead "body_four" "/map/Qm0" = prev :=
  ⟨rfl, rfl, rfl, rfl,
    SaveDataset_hands_merge (memEnv sampleProfile) 0 savedRepo savedRepo bodyFive handedFive
      (bodyFourHead "body_four" "/map/Qm0") noSwitches rfl memAssign_patch
      (fun _ merged out hout => by
        have : out = merged := by
          have h2 : (Except.ok merged : Except Error Dataset) = .ok out := hout
          injection h2 with h3
          exact h3.symm
        rw [this]
        intro f v hv
        exact hv)⟩

/-- C12, as stated, fails on the repo where `body_four` is saved: in a second save under that
name, without `Replace`, the field `PreviousPath` is unset in the changes and empty in the
previous head, yet the snapshot handed to `CreateDataset` has `PreviousPath` `/map/Qm0`; it is
not the previous head with the changes assigned over it field by field. -/
theorem SaveDataset_merge_previous_path :
    ∃ handed : Dataset,
      SaveDataset.prepare (memEnv sampleProfile) 0 savedRepo bodyFive noSwitches =
        .creates savedRepo handed (bodyFourHead "body_four" "/map/Qm0") ∧
      noSwitches.Replace = false ∧
      bodyFive.PreviousPath = "" ∧
      (bodyFourHead "body_four" "/map/Qm0").PreviousPath = "" ∧
      handed.PreviousPath = "/map/Qm0" ∧
      handed.PreviousPath ≠ (bodyFourHead "body_four" "/map/Qm0").PreviousPath ∧
      handed ≠ memAssign (bodyFourHead "body_four" "/map/Qm0") bodyFive :=
  ⟨{ memAssign (bodyFourHead "body_four" "/map/Qm0") bodyFive with
      PreviousPath := "/map/Qm0", Name := "body_four" },
    rfl, rfl, rfl, rfl, rfl, by decide, by decide⟩

/-- C13, the code at a failing input: `CreateDataset` is called with `DryRun` on the repo where
`body_four` is saved, with a new version linked to the head `/map/Qm0`. The call succeeds, the
logbook is as it was and the new ref is not added, but the ref of the head is gone from the ref
store: `DeleteRef` (line 198) is called before the guard of line 210. -/
theorem CreateDataset_dry_run_deletes_ref :
    savedRepo.refs = [peerRef "body_four" "/map/Qm0"] ∧
      (CreateDataset (memEnv sampleProfile) savedRepo handedFive
        (bodyFourHead "body_four" "/map/Qm0") { noSwitches with DryRun := true }).err = none ∧
      (CreateDataset (memEnv sampleProfile) savedRepo handedFive
        (bodyFourHead "body_four" "/map/Qm0") { noSwitches with DryRun := true }).repo.refs = [] ∧
      (CreateDataset (memEnv sampleProfile) savedRepo handedFive
        (bodyFourHead "body_four" "/map/Qm0") { noSwitches with DryRun := true }).repo.book =
        savedRepo.book :=
  ⟨rfl, rfl, rfl, rfl⟩

/-- C14: in a call of `CreateDataset` without `DryRun` in which the content write and `PutRef`
succeed and `WriteVersionSave` is reached (with the id that `RefToInitID` or, after
`ErrNotFound`, `WriteDatasetInit` returned), an answer `ErrNoLogbook` of `WriteVersionSave` is
treated as a nil answer: `CreateDataset` goes on to lines 238-256. It loads the snapshot at the
new path and, when that load succeeds, returns the new ref (profile id, peername, name and the
new path) carrying the loaded snapshot, completed with the profile id, the name, the peername
and the path and with its body re-opened from the store, the error being the one of that
re-opening, nil when the body is there; when the load fails it returns the new ref and the load
error. Every other non-nil answer of `WriteVersionSave` is returned, with the new ref, as the
error of the save. -/
theorem CreateDataset_tolerates_no_logbook {S R L : Type} (env : Env S R L) (r : Repo S R L)
    (ds dsPrev dropped written : Dataset) (sw : SaveSwitches) (pro : Profile) (path : String)
    (store : S) (refs1 refs2 : R) (initID : String) (book1 book2 : L) (werr : Option Error)
    (hpro : env.Profile r = .ok pro) (hname : ds.Name ≠ "")
    (hdrop : env.Drop ds sw.Drop = .ok dropped) (hvalid : env.ValidateDataset dropped = none)
    (hwrite : env.dsfsCreateDataset r.store dropped dsPrev sw = (.ok path, store, written))
    (hdry : sw.DryRun = false)
    (hdelete : refs1 =
      if written.PreviousPath ≠ "" ∧ written.PreviousPath ≠ "/" then
        (env.DeleteRef r.refs
          { DatasetRef.zero with
            ProfileID := pro.ID, Peername := pro.Peername, Name := ds.Name,
            Path := written.PreviousPath }).2
      else r.refs)
    (hput : env.PutRef refs1
      { DatasetRef.zero with
        ProfileID := pro.ID, Peername := pro.Peername, Name := ds.Name, Path := path } =
        (none, refs2))
    (hinit :
      ((env.RefToInitID r.book
          { Username := pro.Peername, ProfileID := "", Name := ds.Name, Path := "" }).2 =
          some Error.LogbookErrNotFound ∧
        env.WriteDatasetInit r.book ds.Name = (.ok initID, book1)) ∨
      ((env.RefToInitID r.book
          { Username := pro.Peername, ProfileID := "", Name := ds.Name, Path := "" }).2 ≠
          some Error.LogbookErrNotFound ∧
        initID = (env.RefToInitID r.book
          { Username := pro.Peername, ProfileID := "", Name := ds.Name, Path := "" }).1 ∧
        book1 = r.book))
    (hsave : env.WriteVersionSave book1 initID written = (werr, book2)) :
    ((werr = none ∨ werr = some Error.ErrNoLogbook) →
        (∀ loaded : Dataset, env.LoadDataset store path = .ok loaded →
          CreateDataset env r ds dsPrev sw =
            { ref := { DatasetRef.zero with
                       ProfileID := pro.ID, Peername := pro.Peername, Name := ds.Name,
                       Path := path,
                       Dataset := some { loaded with
                         ProfileID := pro.ID, Name := ds.Name, Peername := pro.Peername,
                         Path := path, bodyFile := (env.Get store loaded.BodyPath).1 } },
              err := (env.Get store loaded.BodyPath).2,
              repo := { store := store, refs := refs2, book := book2 } }) ∧
        (∀ lerr : Error, env.LoadDataset store path = .error lerr →
          CreateDataset env r ds dsPrev sw =
            { ref := { DatasetRef.zero with
                       ProfileID := pro.ID, Peername := pro.Peername, Name := ds.Name,
                       Path := path },
              err := some lerr,
              repo := { store := store, refs := refs2, book := book2 } })) ∧
      (∀ err : Error, werr = some err → err ≠ Error.ErrNoLogbook →
        CreateDataset env r ds dsPrev sw =
          { ref := { DatasetRef.zero with
                     ProfileID := pro.ID, Peername := pro.Peername, Name := ds.Name,
                     Path := path },
            err := some err,
            repo := { store := store, refs := refs2, book := book2 } }) := by
  have key : CreateDataset env r ds dsPrev sw =
      CreateDataset.writeVersion env { store := store, refs := refs2, book := book1 } pro
        { DatasetRef.zero with
          ProfileID := pro.ID, Peername := pro.Peername, Name := ds.Name, Path := path }
        path initID written := by
    rcases hinit with ⟨hnf, hwi⟩ | ⟨hnf, hid, hbook⟩
    · unfold CreateDataset
      simp only [hpro, hname, hdrop, hvalid, hwrite, hdry]
      split_ifs <;> simp_all
    · unfold CreateDataset
      simp only [hpro, hname, hdrop, hvalid, hwrite, hdry]
      split_ifs <;> simp_all
  constructor
  · intro hw
    have hfin : CreateDataset env r ds dsPrev sw =
        CreateDataset.finish env { store := store, refs := refs2, book := book2 } pro
          { DatasetRef.zero with
            ProfileID := pro.ID, Peername := pro.Peername, Name := ds.Name, Path := path }
          path := by
      rw [key]
      unfold CreateDataset.writeVersion
      rcases hw with hw | hw <;> simp [hsave, hw]
    constructor
    · intro loaded hload
      rw [hfin]
      simp only [CreateDataset.finish, hload]
    · intro lerr hload
      rw [hfin]
      simp only [CreateDataset.finish, hload]
  · intro err hw hne
    rw [key]
    unfold CreateDataset.writeVersion
    simp [hsave, hw, hne]

/-- C14, on the repo without a logbook: `WriteVersionSave` answers `ErrNoLogbook`, and the
second save of `body_four` succeeds with the new ref at `/map/Qm1`, carrying the snapshot loaded
from there with its body re-opened. -/
theorem CreateDataset_tolerates_no_logbook_witness :
    (memEnv sampleProfile).WriteVersionSave noBookRepo.book "" writtenFive =
        (some Error.ErrNoLogbook, none) ∧
      (CreateDataset (memEnv sampleProfile) noBookRepo handedFive
        (bodyFourHead "body_four" "/map/Qm0") noSwitches).err = none ∧
      (CreateDataset (memEnv sampleProfile) noBookRepo handedFive
        (bodyFourHead "body_four" "/map/Qm0") noSwitches).ref =
        { peerRef "body_four" "/map/Qm1" with
          Dataset := some { writtenFive with
            ProfileID := "QmPeer",
            bodyFile := some { name := "/map/Qm1/body", data := "" } } } := by
  have h := ((CreateDataset_tolerates_no_logbook (memEnv sampleProfile) noBookRepo handedFive
    (bodyFourHead "body_four" "/map/Qm0") handedFive writtenFive noSwitches sampleProfile
    "/map/Qm1" [("/map/Qm1", writtenFive), ("/map/Qm0", bodyFourHead "body_four" "/map/Qm0")]
    [] [peerRef "body_four" "/map/Qm1"] "" none none (some Error.ErrNoLogbook)
    rfl (by decide) rfl rfl rfl rfl rfl rfl (Or.inr ⟨by decide, rfl, rfl⟩) rfl).1
      (Or.inr rfl)).1 writtenFive rfl
  rw [h]
  exact ⟨rfl, rfl, rfl⟩

/-- C15, as amended: in a call of `CreateDataset` without `DryRun` in which the content write
succeeds, a failure of `PutRef`, of `WriteDatasetInit` or of `WriteVersionSave` (other than
`ErrNoLogbook`) is returned with the new ref, and nothing is rolled back: the store holds the
new content, the ref store is as `DeleteRef` (when the snapshot has a previous path) and the
calls of `PutRef` left it, and the logbook is as the log calls made so far left it, untouched
when it is `PutRef` that fails. -/
theorem CreateDataset_no_rollback {S R L : Type} (env : Env S R L) (r : Repo S R L)
    (ds dsPrev dropped written : Dataset) (sw : SaveSwitches) (pro : Profile) (path : String)
    (store : S) (refs1 : R)
    (hpro : env.Profile r = .ok pro) (hname : ds.Name ≠ "")
    (hdrop : env.Drop ds sw.Drop = .ok dropped) (hvalid : env.ValidateDataset dropped = none)
    (hwrite : env.dsfsCreateDataset r.store dropped dsPrev sw = (.ok path, store, written))
    (hdry : sw.DryRun = false)
    (hdelete : refs1 =
      if written.PreviousPath ≠ "" ∧ written.PreviousPath ≠ "/" then
        (env.DeleteRef r.refs
          { DatasetRef.zero with
            ProfileID := pro.ID, Peername := pro.Peername, Name := ds.Name,
            Path := written.PreviousPath }).2
      else r.refs) :
    (∀ (err : Error) (refs2 : R),
        env.PutRef refs1
          { DatasetRef.zero with
            ProfileID := pro.ID, Peername := pro.Peername, Name := ds.Name, Path := path } =
          (some err, refs2) →
        CreateDataset env r ds dsPrev sw =
          { ref := { DatasetRef.zero with
                     ProfileID := pro.ID, Peername := pro.Peername, Name := ds.Name,
                     Path := path },
            err := some err,
            repo := { store := store, refs := refs2, book := r.book } }) ∧
      (∀ (err : Error) (refs2 : R) (book1 : L),
        env.PutRef refs1
          { DatasetRef.zero with
            ProfileID := pro.ID, Peername := pro.Peername, Name := ds.Name, Path := path } =
          (none, refs2) →
        (env.RefToInitID r.book
          { Username := pro.Peername, ProfileID := "", Name := ds.Name, Path := "" }).2 =
          some Error.LogbookErrNotFound →
        env.WriteDatasetInit r.book ds.Name = (.error err, book1) →
        CreateDataset env r ds dsPrev sw =
          { ref := { DatasetRef.zero with
                     ProfileID := pro.ID, Peername := pro.Peername, Name := ds.Name,
                     Path := path },
            err := some err,
            repo := { store := store, refs := refs2, book := book1 } }) ∧
      (∀ (err : Error) (refs2 : R) (initID : String) (book1 book2 : L),
        env.PutRef refs1
          { DatasetRef.zero with
            ProfileID := pro.ID, Peername := pro.Peername, Name := ds.Name, Path := path } =
          (none, refs2) →
        (((env.RefToInitID r.book
              { Username := pro.Peername, ProfileID := "", Name := ds.Name, Path := "" }).2 =
              some Error.LogbookErrNotFound ∧
            env.WriteDatasetInit r.book ds.Name = (.ok initID, book1)) ∨
          ((env.RefToInitID r.book
              { Username := pro.Peername, ProfileID := "", Name := ds.Name, Path := "" }).2 ≠
              some Error.LogbookErrNotFound ∧
            initID = (env.RefToInitID r.book
              { Username := pro.Peername, ProfileID := "", Name := ds.Name, Path := "" }).1 ∧
            book1 = r.book)) →
        env.WriteVersionSave book1 initID written = (some err, book2) →
        err ≠ Error.ErrNoLogbook →
        CreateDataset env r ds dsPrev sw =
          { ref := { DatasetRef.zero with
                     ProfileID := pro.ID, Peername := pro.Peername, Name := ds.Name,
                     Path := path },
            err := some err,
            repo := { store := store, refs := refs2, book := book2 } }) := by
  refine ⟨?_, ?_, ?_⟩
  · intro err refs2 hput
    unfold CreateDataset
    simp only [hpro, hname, hdrop, hvalid, hwrite, hdry]
    split_ifs <;> simp_all
  · intro err refs2 book1 hput hnf hwi
    unfold CreateDataset
    simp only [hpro, hname, hdrop, hvalid, hwrite, hdry]
    split_ifs <;> simp_all
  · intro err refs2 initID book1 book2 hput hinit hsave hne
    rcases hinit with ⟨hnf, hwi⟩ | ⟨hnf, hid, hbook⟩
    · unfold CreateDataset CreateDataset.writeVersion
      simp only [hpro, hname, hdrop, hvalid, hwrite, hdry]
      split_ifs <;> simp_all
    · unfold CreateDataset CreateDataset.writeVersion
      simp only [hpro, hname, hdrop, hvalid, hwrite, hdry]
      split_ifs <;> simp_all

/-- C15, as amended, on the repo where `body_four` is saved and with a logbook whose
`WriteVersionSave` fails: the second save returns that error, and the ref store keeps the new
ref that `PutRef` added. -/
theorem CreateDataset_no_rollback_witness :
    (failingSaveEnv sampleProfile (Error.errorf "logbook: write failed")).WriteVersionSave
        savedRepo.book "body_four" writtenFive =
        (some (Error.errorf "logbook: write failed"), savedRepo.book) ∧
      CreateDataset (failingSaveEnv sampleProfile (Error.errorf "logbook: write failed"))
          savedRepo handedFive (bodyFourHead "body_four" "/map/Qm0") noSwitches =
        { ref := peerRef "body_four" "/map/Qm1",
          err := some (Error.errorf "logbook: write failed"),
          repo := { store := [("/map/Qm1", writtenFive),
                              ("/map/Qm0", bodyFourHead "body_four" "/map/Qm0")],
                    refs := [peerRef "body_four" "/map/Qm1"],
                    book := savedRepo.book } } :=
  ⟨rfl, (CreateDataset_no_rollback
    (failingSaveEnv sampleProfile (Error.errorf "logbook: write failed")) savedRepo handedFive
    (bodyFourHead "body_four" "/map/Qm0") handedFive writtenFive noSwitches sampleProfile
    "/map/Qm1" [("/map/Qm1", writtenFive), ("/map/Qm0", bodyFourHead "body_four" "/map/Qm0")]
    [] rfl (by decide) rfl rfl rfl rfl rfl).2.2
    (Error.errorf "logbook: write failed") [peerRef "body_four" "/map/Qm1"] "body_four"
    savedRepo.book savedRepo.book rfl (Or.inr ⟨by decide, rfl, rfl⟩) rfl (by decide)⟩

/-- C15, as stated, fails on the repo where `body_four` is saved, with a logbook whose
`WriteVersionSave` fails: the content write and `PutRef` have succeeded, the save returns the
error of the log write, and the ref store no longer points `body_four` at the previous head
`/map/Qm0` but at the new path `/map/Qm1`. -/
theorem CreateDataset_failed_log_write_keeps_new_ref :
    memGetRef savedRepo.refs "test_peer" "body_four" = some (peerRef "body_four" "/map/Qm0") ∧
      (CreateDataset (failingSaveEnv sampleProfile (Error.errorf "logbook: write failed"))
        savedRepo handedFive (bodyFourHead "body_four" "/map/Qm0") noSwitches).err =
        some (Error.errorf "logbook: write failed") ∧
      memGetRef
        (CreateDataset (failingSaveEnv sampleProfile (Error.errorf "logbook: write failed"))
          savedRepo handedFive (bodyFourHead "body_four" "/map/Qm0") noSwitches).repo.refs
        "test_peer" "body_four" = some (peerRef "body_four" "/map/Qm1") ∧
      memGetRef
        (CreateDataset (failingSaveEnv sampleProfile (Error.errorf "logbook: write failed"))
          savedRepo handedFive (bodyFourHead "body_four" "/map/Qm0") noSwitches).repo.refs
        "test_peer" "body_four" ≠ some (peerRef "body_four" "/map/Qm0") :=
  ⟨rfl, rfl, rfl, by decide⟩

/-- Without `DryRun` the repo handed to `CreateDataset` is the repo of the save. -/
theorem prepare_creates_repo {S R L : Type} (env : Env S R L) (fuel : Nat) (r r' : Repo S R L)
    (changes ds dsPrev : Dataset) (sw : SaveSwitches)
    (h : SaveDataset.prepare env fuel r changes sw = .creates r' ds dsPrev)
    (hdry : sw.DryRun = false) : r' = r := by
  obtain ⟨pro, _, _, _, _, _, _, _, _, _, hrepo, _⟩ :=
    prepare_creates_inv env fuel r r' changes ds dsPrev sw h
  simp [hdry] at hrepo
  exact hrepo.symm

/-- C16: a `SaveDataset` call that returns before line 149, as the calls failing with a naming
error, the missing body or structure error or the format-mismatch error do, leaves the repo as it
was; and a call that reaches `CreateDataset` and fails there with the empty-name error, a `Drop`
error or a `ValidateDataset` error leaves unchanged both the repo `CreateDataset` was given and
the repo of the save: all these returns come before the first call of `dsfs.CreateDataset`,
`DeleteRef`, `PutRef`, `WriteDatasetInit` or `WriteVersionSave`. -/
theorem SaveDataset_checks_before_writes {S R L : Type} (env : Env S R L) (fuel : Nat)
    (r : Repo S R L) (changes : Dataset) (sw : SaveSwitches) :
    (∀ (ref : DatasetRef) (err : Option Error),
        SaveDataset.prepare env fuel r changes sw = .returns ref err →
        SaveDataset env fuel r changes sw = some { ref := ref, err := err, repo := r }) ∧
      (∀ (r' : Repo S R L) (ds dsPrev : Dataset) (pro : Profile),
        SaveDataset.prepare env fuel r changes sw = .creates r' ds dsPrev →
        env.Profile r' = .ok pro →
        (ds.Name = "" →
          CreateDataset env r' ds dsPrev sw =
            { ref := DatasetRef.zero,
              err := some (Error.errorf "cannot create dataset without a name"), repo := r' } ∧
          SaveDataset env fuel r changes sw =
            some { ref := DatasetRef.zero,
                   err := some (Error.errorf "cannot create dataset without a name"),
                   repo := r }) ∧
        (∀ err : Error, ds.Name ≠ "" → env.Drop ds sw.Drop = .error err →
          CreateDataset env r' ds dsPrev sw =
            { ref := DatasetRef.zero, err := some err, repo := r' } ∧
          SaveDataset env fuel r changes sw =
            some { ref := DatasetRef.zero, err := some err, repo := r }) ∧
        (∀ (dropped : Dataset) (err : Error), ds.Name ≠ "" →
          env.Drop ds sw.Drop = .ok dropped → env.ValidateDataset dropped = some err →
          CreateDataset env r' ds dsPrev sw =
            { ref := DatasetRef.zero, err := some err, repo := r' } ∧
          SaveDataset env fuel r changes sw =
            some { ref := DatasetRef.zero, err := some err, repo := r })) := by
  constructor
  · intro ref err h
    simp [SaveDataset, h]
  · intro r' ds dsPrev pro h hpro
    have hrepo : (if sw.DryRun then r else r') = r := by
      cases hdry : sw.DryRun with
      | true => simp
      | false => simpa using prepare_creates_repo env fuel r r' changes ds dsPrev sw h hdry
    refine ⟨?_, ?_, ?_⟩
    · intro hname
      have hc : CreateDataset env r' ds dsPrev sw =
          { ref := DatasetRef.zero,
            err := some (Error.errorf "cannot create dataset without a name"), repo := r' } := by
        simp [CreateDataset, hpro, hname]
      refine ⟨hc, ?_⟩
      simp [SaveDataset, h, hc, hrepo]
    · intro err hname hdrop
      have hc : CreateDataset env r' ds dsPrev sw =
          { ref := DatasetRef.zero, err := some err, repo := r' } := by
        simp [CreateDataset, hpro, hname, hdrop]
      refine ⟨hc, ?_⟩
      simp [SaveDataset, h, hc, hrepo]
    · intro dropped err hname hdrop hvalid
      have hc : CreateDataset env r' ds dsPrev sw =
          { ref := DatasetRef.zero, err := some err, repo := r' } := by
        simp [CreateDataset, hpro, hname, hdrop, hvalid]
      refine ⟨hc, ?_⟩
      simp [SaveDataset, h, hc, hrepo]

/-- C16, on the repo where `body_four` is saved: the save that fails on the inferred name and
the save that fails on an empty name both leave the repo as it was. -/
theorem SaveDataset_checks_before_writes_witness :
    SaveDataset (memEnv sampleProfile) 0 savedRepo bodyFour noSwitches =
        some { ref := DatasetRef.zero,
               err := some (Error.errorf
                 "inferred dataset name already exists. To add a new commit to this dataset, run save again with the dataset reference. To create a new dataset, use --new flag"),
               repo := savedRepo } ∧
      SaveDataset (memEnv sampleProfile) 0 savedRepo namelessChanges noSwitches =
        some { ref := DatasetRef.zero,
               err := some (Error.errorf "cannot create dataset without a name"),
               repo := savedRepo } :=
  ⟨(SaveDataset_checks_before_writes (memEnv sampleProfile) 0 savedRepo bodyFour noSwitches).1
      DatasetRef.zero _ rfl,
   ((SaveDataset_checks_before_writes (memEnv sampleProfile) 0 savedRepo namelessChanges
      noSwitches).2 savedRepo
      { memAssign { Dataset.zero with Name := "", Peername := "test_peer" } namelessChanges with
        PreviousPath := "", Name := "" }
      Dataset.zero sampleProfile rfl rfl).1 rfl |>.2⟩

/-- C17: when the name the save resolves contains an upper-case letter, the save pipeline
fails with "dataset name may not contain any upper-case letters" if no prior version exists under
that name, leaving the repo as it was; if a prior version exists the name is not checked, and the
save is the save of `SaveDataset`. -/
theorem Save_rejects_new_upper_case_name {S R L : Type} (env : Env S R L) (fuel : Nat)
    (r : Repo S R L) (changes named : Dataset) (sw : SaveSwitches) (pro : Profile)
    (dsName : String) (prev mutable : Dataset) (prevPath : String)
    (hnaming : SaveDataset.naming env fuel r changes sw =
      .resolved pro named dsName prev mutable prevPath)
    (hupper : hasUpperCase dsName = true) :
    (prevPath = "" →
        Save env fuel r changes sw =
          some { ref := DatasetRef.zero,
                 err := some (Error.errorf "dataset name may not contain any upper-case letters"),
                 repo := r }) ∧
      (prevPath ≠ "" → Save env fuel r changes sw = SaveDataset env fuel r changes sw) := by
  constructor
  · intro hp
    simp [Save, hnaming, hupper, hp]
  · intro hp
    simp [Save, hnaming, hp]

/-- C17, as in `TestSaveBadCaseCantBeUsedForNewDatasets`: the save of
`test_peer/a_New_Dataset` fails on a repo without that dataset and succeeds, as a second version
at `/map/Qm1`, on a repo that already has a version under that name. -/
theorem Save_rejects_new_upper_case_name_witness :
    hasUpperCase "a_New_Dataset" = true ∧
      Save (memEnv sampleProfile) 0 emptyRepo upperCaseChanges noSwitches =
        some { ref := DatasetRef.zero,
               err := some (Error.errorf "dataset name may not contain any upper-case letters"),
               repo := emptyRepo } ∧
      (Save (memEnv sampleProfile) 0 legacyRepo upperCaseChanges noSwitches).map
          (fun res => (res.err, res.ref.Name, res.ref.Path)) =
        some (none, "a_New_Dataset", "/map/Qm1") := by
  refine ⟨rfl, ?_, ?_⟩
  · exact (Save_rejects_new_upper_case_name (memEnv sampleProfile) 0 emptyRepo upperCaseChanges
      upperCaseChanges noSwitches sampleProfile "a_New_Dataset" Dataset.zero
      { Dataset.zero with Name := "a_New_Dataset", Peername := "test_peer" } "" rfl rfl).1 rfl
  · rw [(Save_rejects_new_upper_case_name (memEnv sampleProfile) 0 legacyRepo upperCaseChanges
      upperCaseChanges noSwitches sampleProfile "a_New_Dataset" _ _ "/map/Qm0" rfl rfl).2
      (by decide)]
    rfl

/-- The lower-case letters. -/
theorem isLower_iff (c : Char) : c.isLower = true ↔ 'a' ≤ c ∧ c ≤ 'z' := by
  simp only [Char.isLower, Bool.and_eq_true, decide_eq_true_eq, Char.le_def, ge_iff_le]
  exact Iff.rfl

/-- The upper-case letters. -/
theorem isUpper_iff (c : Char) : c.isUpper = true ↔ 'A' ≤ c ∧ c ≤ 'Z' := by
  simp only [Char.isUpper, Bool.and_eq_true, decide_eq_true_eq, Char.le_def, ge_iff_le]
  exact Iff.rfl

/-- The digits. -/
theorem isDigit_iff (c : Char) : c.isDigit = true ↔ '0' ≤ c ∧ c ≤ '9' := by
  simp only [Char.isDigit, Bool.and_eq_true, decide_eq_true_eq, Char.le_def, ge_iff_le]
  exact Iff.rfl

/-- The letters. -/
theorem isAlpha_iff (c : Char) :
    c.isAlpha = true ↔ ('a' ≤ c ∧ c ≤ 'z') ∨ ('A' ≤ c ∧ c ≤ 'Z') := by
  simp only [Char.isAlpha, Bool.or_eq_true, isLower_iff, isUpper_iff]
  exact Or.comm

/-- The letters and the digits. -/
theorem isAlphanum_iff (c : Char) :
    c.isAlphanum = true ↔
      ('a' ≤ c ∧ c ≤ 'z') ∨ ('A' ≤ c ∧ c ≤ 'Z') ∨ ('0' ≤ c ∧ c ≤ '9') := by
  simp only [Char.isAlphanum, Bool.or_eq_true, isAlpha_iff, isDigit_iff, or_assoc]

/-- C19: `IsValidName` is true of a text exactly when its first character is a letter and
every later character is a letter, a digit or an underscore, which is to match
`^[A-Za-z][A-Za-z0-9_]*$`; the texts of `TestIsValidName` come out as the test expects. -/
theorem IsValidName_iff (text : String) :
    (IsValidName text = true ↔
      ∃ (c : Char) (rest : List Char), text = String.mk (c :: rest) ∧
        (('a' ≤ c ∧ c ≤ 'z') ∨ ('A' ≤ c ∧ c ≤ 'Z')) ∧
        ∀ x ∈ rest,
          ('a' ≤ x ∧ x ≤ 'z') ∨ ('A' ≤ x ∧ x ≤ 'Z') ∨ ('0' ≤ x ∧ x ≤ '9') ∨ x = '_') ∧
      IsValidName "_bad" = false ∧ IsValidName "1dataset" = false ∧
      IsValidName "dataset!" = false ∧ IsValidName "abc" = true ∧
      IsValidName "aDataset" = true ∧ IsValidName "a1234" = true ∧
      IsValidName "a_dataset_name" = true ∧ IsValidName "DatasetName" = true := by
  refine ⟨?_, rfl, rfl, rfl, rfl, rfl, rfl, rfl, rfl⟩
  obtain ⟨cs⟩ := text
  cases cs with
  | nil =>
    constructor
    · intro h
      simp [IsValidName] at h
    · rintro ⟨c, rest, heq, _⟩
      injection heq with heq
      cases heq
  | cons c rest =>
    simp only [IsValidName, Bool.and_eq_true, List.all_eq_true, Bool.or_eq_true, isAlpha_iff,
      isAlphanum_iff, beq_iff_eq, or_assoc]
    constructor
    · rintro ⟨h1, h2⟩
      exact ⟨c, rest, rfl, h1, h2⟩
    · rintro ⟨c', rest', heq, h1, h2⟩
      injection heq with heq
      injection heq with hc hr
      subst hc hr
      exact ⟨h1, h2⟩

/-- The longest run of `p` in front of a text that starts with its `p`-characters `tok` and
goes on with a character outside `p`, or ends. -/
theorem takeWhile_token {p : Char → Bool} (tok rest : List Char)
    (htok : ∀ x ∈ tok, p x = true) (hrest : ∀ c t, rest = c :: t → p c = false) :
    (tok ++ rest).takeWhile p = tok ∧ (tok ++ rest).dropWhile p = rest := by
  rw [List.takeWhile_append_of_pos htok, List.dropWhile_append_of_pos htok]
  cases rest with
  | nil => simp
  | cons c t =>
    have hc := hrest c t rfl
    simp [List.takeWhile, List.dropWhile, hc]

/-- What a successful `parseName` returns. -/
theorem parseName_some (cs tok rest : List Char) (h : parseName cs = some (tok, rest)) :
    isName tok = true ∧ cs = tok ++ rest ∧ ∀ c t, rest = c :: t → isNameChar c = false := by
  cases cs with
  | nil => simp [parseName] at h
  | cons c cs' =>
    simp only [parseName] at h
    split at h
    · rename_i hc
      injection h with h
      injection h with h1 h2
      subst h1 h2
      refine ⟨?_, ?_, ?_⟩
      · simp only [isName, Bool.and_eq_true, hc, true_and, List.all_eq_true]
        intro x hx
        exact List.mem_takeWhile_imp hx
      · simp
      · intro d t hdt
        have hpos : 0 < (List.dropWhile isNameChar cs').length := by rw [hdt]; simp
        have := List.dropWhile_get_zero_not isNameChar cs' hpos
        simp only [hdt, List.get_eq_getElem, List.getElem_cons_zero] at this
        simpa using this
    · cases h

/-- A name token in front of a text that does not go on with a name character is parsed
off it. -/
theorem parseName_token (tok rest : List Char) (htok : isName tok = true)
    (hrest : ∀ c t, rest = c :: t → isNameChar c = false) :
    parseName (tok ++ rest) = some (tok, rest) := by
  cases tok with
  | nil => simp [isName] at htok
  | cons c t =>
    simp only [isName, Bool.and_eq_true, List.all_eq_true] at htok
    obtain ⟨h1, h2⟩ := takeWhile_token (p := isNameChar) t rest htok.2 hrest
    simp [parseName, htok.1, h1, h2]

/-- What a successful `parseHumanFriendlyPortion` returns. -/
theorem parseHumanFriendlyPortion_some (cs username name rest : List Char)
    (h : parseHumanFriendlyPortion cs = some (username, name, rest)) :
    isName username = true ∧ isName name = true ∧ cs = username ++ '/' :: (name ++ rest) ∧
      ∀ c t, rest = c :: t → isNameChar c = false := by
  unfold parseHumanFriendlyPortion at h
  split at h
  · rename_i u rest1 hu
    split at h
    · rename_i n rest2 hn
      injection h with h
      injection h with h1 h
      injection h with h2 h3
      subst h1 h2 h3
      obtain ⟨hu1, hu2, _⟩ := parseName_some _ _ _ hu
      obtain ⟨hn1, hn2, hn3⟩ := parseName_some _ _ _ hn
      exact ⟨hu1, hn1, by rw [hu2, hn2], hn3⟩
    · cases h
  · cases h

/-- A username and a name, joined by a slash, are parsed off the front of a text that does
not go on with a name character. -/
theorem parseHumanFriendlyPortion_token (username name rest : List Char)
    (hu : isName username = true) (hn : isName name = true)
    (hrest : ∀ c t, rest = c :: t → isNameChar c = false) :
    parseHumanFriendlyPortion (username ++ '/' :: (name ++ rest)) =
      some (username, name, rest) := by
  have h1 := parseName_token username ('/' :: (name ++ rest)) hu (by
    intro c t hct
    injection hct with hc _
    subst hc
    decide)
  have h2 := parseName_token name rest hn hrest
  simp [parseHumanFriendlyPortion, h1, h2]

/-- What `parsePath` returns when it leaves no text. -/
theorem parsePath_all (cs path : List Char) (h : parsePath cs = .ok (path, [])) :
    cs = path ∧ IsPath path := by
  unfold parsePath at h
  split at h
  · rename_i rest
    split at h
    · rename_i store rest2 hstore
      simp only at h
      split at h
      · cases h
      · rename_i hne
        split at h
        · rename_i hb58
          injection h with h
          injection h with h1 h2
          obtain ⟨hs1, hs2, _⟩ := parseName_some _ _ _ hstore
          have hall : ∀ x ∈ rest2, x.isAlphanum = true :=
            List.dropWhile_eq_nil_iff.mp h2
          have htake : rest2.takeWhile Char.isAlphanum = rest2 :=
            List.takeWhile_eq_self_iff.mpr hall
          rw [htake] at h1 hne hb58
          subst h1
          refine ⟨by rw [hs2]; rfl, Or.inr ⟨store, rest2, rfl, hs1, hne, hall, hb58⟩⟩
        · cases h
    · cases h
  · injection h with h
    injection h with h1 h2
    subst h1
    exact ⟨h2, Or.inl rfl⟩

/-- A path is parsed back as itself. -/
theorem parsePath_path (path : List Char) (h : IsPath path) :
    parsePath path = .ok (path, []) := by
  rcases h with rfl | ⟨store, hash, rfl, hs, hne, hall, hb58⟩
  · rfl
  · have h1 := parseName_token store ('/' :: hash) hs (by
      intro c t hct
      injection hct with hc _
      subst hc
      decide)
    have htake : hash.takeWhile Char.isAlphanum = hash := List.takeWhile_eq_self_iff.mpr hall
    have hdrop : hash.dropWhile Char.isAlphanum = [] := List.dropWhile_eq_nil_iff.mpr hall
    simp [parsePath, h1, htake, hdrop, hne, hb58]

/-- What `parseConcreteRef` returns when it leaves no text: the text was empty, or an `@`
followed by the profile id and the path. -/
theorem parseConcreteRef_all (cs profileID path : List Char)
    (h : parseConcreteRef cs = .ok (profileID, path, [])) :
    (∀ x ∈ profileID, x.isAlphanum = true) ∧ IsPath path ∧
      ((cs = [] ∧ profileID = [] ∧ path = []) ∨ cs = '@' :: (profileID ++ path)) := by
  unfold parseConcreteRef at h
  split at h
  · rename_i rest
    split at h
    · rename_i path' rest' hpath
      injection h with h
      injection h with h1 h
      injection h with h2 h3
      subst h1 h2 h3
      obtain ⟨hp1, hp2⟩ := parsePath_all _ _ hpath
      refine ⟨fun x hx => List.mem_takeWhile_imp hx, hp2, Or.inr ?_⟩
      rw [← hp1, List.takeWhile_append_dropWhile]
    · cases h
  · injection h with h
    injection h with h1 h
    injection h with h2 h3
    subst h1 h2
    exact ⟨by simp, Or.inl rfl, Or.inl ⟨h3, rfl, rfl⟩⟩

/-- The rendering of a profile id and a path is parsed back as them. -/
theorem parseConcreteRef_token (profileID path : List Char)
    (hid : ∀ x ∈ profileID, x.isAlphanum = true) (hpath : IsPath path) :
    parseConcreteRef (if profileID = [] ∧ path = [] then [] else '@' :: (profileID ++ path)) =
      .ok (profileID, path, []) := by
  split
  · rename_i hempty
    obtain ⟨h1, h2⟩ := hempty
    subst h1 h2
    rfl
  · have hstop : ∀ c t, path = c :: t → Char.isAlphanum c = false := by
      intro c t hct
      rcases hpath with h0 | ⟨store, hash, hp, _⟩
      · rw [h0] at hct; cases hct
      · rw [hp] at hct
        injection hct with hc _
        subst hc
        decide
    obtain ⟨h1, h2⟩ := takeWhile_token (p := Char.isAlphanum) profileID path hid hstop
    simp [parseConcreteRef, h1, h2, parsePath_path path hpath]

/-- A string made of characters is empty when there are none. -/
theorem mk_eq_empty (l : List Char) : String.mk l = "" ↔ l = [] := by
  constructor
  · intro h
    have := congrArg String.data h
    simpa using this
  · rintro rfl
    rfl

/-- The characters of a rendered ref. -/
theorem render_data (username profileID name path : List Char) :
    (Ref.render { Username := String.mk username, ProfileID := String.mk profileID,
                  Name := String.mk name, Path := String.mk path }).data =
      (if username = [] ∧ name = [] then [] else username ++ '/' :: name) ++
        (if profileID = [] ∧ path = [] then [] else '@' :: (profileID ++ path)) := by
  have hslash : ("/" : String).data = ['/'] := rfl
  have hat : ("@" : String).data = ['@'] := rfl
  simp only [Ref.render, mk_eq_empty, String.data_append]
  congr 1
  · split
    · rfl
    · simp [hslash]
  · split
    · rfl
    · simp [hat]

/-- The result of `Parse` on a text whose parts parse and leave nothing. -/
theorem Parse_parts (text : String) (username name rest profileID path : List Char)
    (hhuman : (match parseHumanFriendlyPortion text.data with
      | some parsed => parsed
      | none => ([], [], text.data)) = (username, name, rest))
    (hconcrete : parseConcreteRef rest = .ok (profileID, path, [])) :
    Parse text =
      ({ Username := String.mk username, ProfileID := String.mk profileID,
         Name := String.mk name, Path := String.mk path },
       if hasUpperCase (String.mk name) then some Error.ErrBadCaseName else none) := by
  unfold Parse
  simp only [hhuman, hconcrete]
  split <;> rfl

/-- What `Parse` has read when it accepts a text, with or without the warning. -/
theorem Parse_accepts (text : String) (ref : Ref) (err : Option Error)
    (h : Parse text = (ref, err)) (hacc : err = none ∨ err = some Error.ErrBadCaseName) :
    ∃ username name profileID path : List Char,
      ref = { Username := String.mk username, ProfileID := String.mk profileID,
              Name := String.mk name, Path := String.mk path } ∧
      err = (if hasUpperCase (String.mk name) then some Error.ErrBadCaseName else none) ∧
      ((username = [] ∧ name = []) ∨ (isName username = true ∧ isName name = true)) ∧
      (∀ x ∈ profileID, x.isAlphanum = true) ∧ IsPath path := by
  unfold Parse at h
  simp only at h
  split at h
  · rename_i e he
    injection h with h1 h2
    subst h2
    rcases hacc with hacc | hacc
    · cases hacc
    · injection hacc with hacc
      subst hacc
      -- the only error of `parseConcreteRef` is the base58 error
      exfalso
      revert he
      generalize (match parseHumanFriendlyPortion text.data with
        | some parsed => parsed
        | none => ([], [], text.data)).2.2 = cs
      intro he
      unfold parseConcreteRef at he
      split at he
      · split at he
        · cases he
        · rename_i e' hp
          injection he with he
          subst he
          unfold parsePath at hp
          split at hp
          · split at hp
            · simp only at hp
              split at hp
              · cases hp
              · split at hp
                · cases hp
                · cases hp
            · cases hp
          · cases hp
      · cases he
  · rename_i profileID path rest hc
    split at h
    · rename_i c t
      injection h with h1 h2
      subst h2
      rcases hacc with hacc | hacc <;> cases hacc
    · cases hh : parseHumanFriendlyPortion text.data with
      | none =>
        simp only [hh] at hc h
        obtain ⟨hid, hpath, _⟩ := parseConcreteRef_all _ _ _ hc
        refine ⟨[], [], profileID, path, ?_, ?_, Or.inl ⟨rfl, rfl⟩, hid, hpath⟩
        · split at h <;> · injection h with h1 h2; exact h1.symm
        · split at h <;> · injection h with h1 h2; simp_all
      | some parsed =>
        obtain ⟨username, name, rest0⟩ := parsed
        simp only [hh] at hc h
        obtain ⟨hu, hn, _, _⟩ := parseHumanFriendlyPortion_some _ _ _ _ hh
        obtain ⟨hid, hpath, _⟩ := parseConcreteRef_all _ _ _ hc
        refine ⟨username, name, profileID, path, ?_, ?_, Or.inr ⟨hu, hn⟩, hid, hpath⟩
        · split at h <;> · injection h with h1 h2; exact h1.symm
        · split at h <;> · injection h with h1 h2; simp_all

/-- The rendering of a profile id and a path is empty or starts with `@`. -/
theorem concrete_stop (profileID path : List Char) :
    ∀ c t, (if profileID = [] ∧ path = [] then [] else '@' :: (profileID ++ path)) = c :: t →
      isNameChar c = false ∧ c.isAlpha = false := by
  intro c t h
  split at h
  · cases h
  · injection h with hc _
    subst hc
    exact ⟨by decide, by decide⟩

/-- C18: a text made of a username, a slash, a name with an upper-case letter and a suffix that
is empty or a well-formed `@` part is parsed in full, and `Parse` returns the parsed ref together
with `ErrBadCaseName`; so `Parse("test_peer/a_New_Dataset")` returns the ref of `test_peer` and
`a_New_Dataset` with `ErrBadCaseName`. -/
theorem Parse_bad_case (username name suffix profileID path : List Char)
    (hu : isName username = true) (hn : isName name = true)
    (hupper : hasUpperCase (String.mk name) = true)
    (hsuffix : parseConcreteRef suffix = .ok (profileID, path, [])) :
    Parse (String.mk (username ++ '/' :: (name ++ suffix))) =
        ({ Username := String.mk username, ProfileID := String.mk profileID,
           Name := String.mk name, Path := String.mk path },
         some Error.ErrBadCaseName) ∧
      Parse "test_peer/a_New_Dataset" =
        ({ Username := "test_peer", ProfileID := "", Name := "a_New_Dataset", Path := "" },
         some Error.ErrBadCaseName) := by
  refine ⟨?_, rfl⟩
  have hstop : ∀ c t, suffix = c :: t → isNameChar c = false := by
    intro c t hct
    obtain ⟨_, _, hcs⟩ := parseConcreteRef_all _ _ _ hsuffix
    rcases hcs with ⟨h0, _, _⟩ | h1
    · rw [h0] at hct; cases hct
    · rw [h1] at hct
      injection hct with hc _
      subst hc
      decide
  have hh := parseHumanFriendlyPortion_token username name suffix hu hn hstop
  have := Parse_parts (String.mk (username ++ '/' :: (name ++ suffix))) username name suffix
    profileID path (by simp only [hh]) hsuffix
  rw [this, hupper]
  rfl

/-- C18, on the text of `TestParseBadCase` followed by a profile id and a path. -/
theorem Parse_bad_case_witness :
    hasUpperCase "a_New_Dataset" = true ∧
      Parse "test_peer/a_New_Dataset@QmFirst/ipfs/QmSecond" =
        ({ Username := "test_peer", ProfileID := "QmFirst", Name := "a_New_Dataset",
           Path := "/ipfs/QmSecond" },
         some Error.ErrBadCaseName) :=
  ⟨rfl, (Parse_bad_case "test_peer".data "a_New_Dataset".data "@QmFirst/ipfs/QmSecond".data
    "QmFirst".data "/ipfs/QmSecond".data rfl rfl rfl rfl).1⟩

/-- C20: when `Parse` accepts a text, with a nil error or with the warning `ErrBadCaseName`,
the rendering of the ref it returns is parsed to the same ref, with the same outcome: the same
`Username`, `Name`, `ProfileID` and `Path`. -/
theorem Parse_render_round_trip (text : String) (ref : Ref) (err : Option Error)
    (h : Parse text = (ref, err)) (hacc : err = none ∨ err = some Error.ErrBadCaseName) :
    Parse ref.render = (ref, err) := by
  obtain ⟨username, name, profileID, path, rfl, rfl, hun, hid, hpath⟩ :=
    Parse_accepts text ref err h hacc
  apply Parse_parts _ username name
    (if profileID = [] ∧ path = [] then [] else '@' :: (profileID ++ path)) profileID path
  · rw [render_data]
    rcases hun with ⟨rfl, rfl⟩ | ⟨hu, hn⟩
    · simp only [and_self, if_true, List.nil_append]
      have hnone : parseHumanFriendlyPortion
          (if profileID = [] ∧ path = [] then [] else '@' :: (profileID ++ path)) = none := by
        have hstop := concrete_stop profileID path
        generalize (if profileID = [] ∧ path = [] then [] else '@' :: (profileID ++ path)) = cs
          at hstop
        cases cs with
        | nil => rfl
        | cons c t =>
          have hc := (hstop c t rfl).2
          simp [parseHumanFriendlyPortion, parseName, hc]
      simp only [hnone]
    · have hne : ¬ (username = [] ∧ name = []) := by
        rintro ⟨h0, _⟩
        rw [h0] at hu
        simp [isName] at hu
      simp only [hne, if_false]
      have hh := parseHumanFriendlyPortion_token username name
        (if profileID = [] ∧ path = [] then [] else '@' :: (profileID ++ path)) hu hn
        (fun c t hct => (concrete_stop profileID path c t hct).1)
      rw [List.append_assoc, List.cons_append]
      simp only [hh]
  · exact parseConcreteRef_token profileID path hid hpath

/-- C20, on the full reference of `TestParse`. -/
theorem Parse_render_round_trip_witness :
    Parse "abc/my_dataset@QmFirst/ipfs/QmSecond" =
        ({ Username := "abc", ProfileID := "QmFirst", Name := "my_dataset",
           Path := "/ipfs/QmSecond" }, none) ∧
      Parse (Ref.render { Username := "abc", ProfileID := "QmFirst", Name := "my_dataset",
                          Path := "/ipfs/QmSecond" }) =
        ({ Username := "abc", ProfileID := "QmFirst", Name := "my_dataset",
           Path := "/ipfs/QmSecond" }, none) :=
  ⟨rfl, Parse_render_round_trip "abc/my_dataset@QmFirst/ipfs/QmSecond" _ none rfl (Or.inl rfl)⟩

/-- The parser on the texts of `TestParse`: the refs of the good cases and the messages of the
bad cases are the ones the test expects. -/
theorem Parse_tests :
    Parse "abc/my_dataset" =
        ({ Username := "abc", ProfileID := "", Name := "my_dataset", Path := "" }, none) ∧
      Parse "@QmFirst/ipfs/QmSecond" =
        ({ Username := "", ProfileID := "QmFirst", Name := "", Path := "/ipfs/QmSecond" },
          none) ∧
      Parse "@/ipfs/QmSecond" =
        ({ Username := "", ProfileID := "", Name := "", Path := "/ipfs/QmSecond" }, none) ∧
      Parse "abc/my-dataset" =
        ({ Username := "abc", ProfileID := "", Name := "my-dataset", Path := "" }, none) ∧
      Parse "some-user/my_dataset" =
        ({ Username := "some-user", ProfileID := "", Name := "my_dataset", Path := "" }, none) ∧
      (Parse "@/ipfs/QmOne").2 =
        some (Error.errorf "path contains invalid base58 characters") ∧
      (Parse "/ipfs/QmThis").2 =
        some (Error.errorf "parsing ref, unexpected character at position 0: \'/\'") ∧
      (Parse "foo").2 =
        some (Error.errorf "parsing ref, unexpected character at position 0: \'f\'") ∧
      (Parse "abc/data.set").2 =
        some (Error.errorf "parsing ref, unexpected character at position 8: \'.\'") ∧
      (Parse "abc/my=ds").2 =
        some (Error.errorf "parsing ref, unexpected character at position 6: \'=\'") :=
  ⟨rfl, rfl, rfl, rfl, rfl, rfl, rfl, rfl, rfl, rfl⟩

/-- The names `another_ds` and `movie_ds`, in order. -/
theorem another_le_movie :
    ['a', 'n', 'o', 't', 'h', 'e', 'r', '_', 'd', 's'] ≤
      ['m', 'o', 'v', 'i', 'e', '_', 'd', 's'] := by
  decide

/-- The names `movie_ds` and `another_ds`, out of order. -/
theorem movie_not_le_another :
    ¬ ['m', 'o', 'v', 'i', 'e', '_', 'd', 's'] ≤
      ['a', 'n', 'o', 't', 'h', 'e', 'r', '_', 'd', 's'] := by
  decide

/-- The listing of any dscache is in ascending order of `PrettyName`. -/
theorem ListRefs_sorted (cache : Dscache) :
    List.Sorted (fun a b : RefEntry => a.PrettyName ≤ b.PrettyName) cache.ListRefs := by
  haveI : IsTotal RefEntry (fun a b => a.PrettyName ≤ b.PrettyName) :=
    ⟨fun a b => le_total a.PrettyName b.PrettyName⟩
  haveI : IsTrans RefEntry (fun a b => a.PrettyName ≤ b.PrettyName) :=
    ⟨fun _ _ _ hab hbc => le_trans hab hbc⟩
  exact List.sorted_insertionSort _ _

/-- C21: after any sequence of saves merged into any dscache, the listing of the `Refs` entries
is in ascending order of `PrettyName`, and the dscache reloaded from its file lists the same
entries in the same order; saving `movie_ds` and then `another_ds`, or the two the other way
round, lists `another_ds` before `movie_ds`. -/
theorem Dscache_listing_sorted (cache : Dscache) (saves : List SaveInfo) :
    List.Sorted (fun a b : RefEntry => a.PrettyName ≤ b.PrettyName)
        (saves.foldl Dscache.MergeSave cache).ListRefs ∧
      (Dscache.load (saves.foldl Dscache.MergeSave cache).serialize).ListRefs =
        (saves.foldl Dscache.MergeSave cache).ListRefs ∧
      List.Sorted (fun a b : RefEntry => a.PrettyName ≤ b.PrettyName)
        (Dscache.load (saves.foldl Dscache.MergeSave cache).serialize).ListRefs ∧
      ((Dscache.load ([movieSave, anotherSave].foldl Dscache.MergeSave
          Dscache.empty).serialize).ListRefs).map (fun e => e.PrettyName) =
        ["another_ds", "movie_ds"] ∧
      (([anotherSave, movieSave].foldl Dscache.MergeSave Dscache.empty).ListRefs).map
          (fun e => e.PrettyName) =
        ["another_ds", "movie_ds"] := by
  have hreload : ∀ c : Dscache, (Dscache.load c.serialize).ListRefs = c.ListRefs := by
    intro c
    show List.insertionSort _ c.ListRefs = c.ListRefs
    exact List.Sorted.insertionSort_eq (ListRefs_sorted c)
  refine ⟨ListRefs_sorted _, hreload _, ListRefs_sorted _, ?_, ?_⟩
  · rw [hreload]
    simp [Dscache.ListRefs, Dscache.MergeSave, Dscache.empty, movieSave, anotherSave,
      List.insertionSort, List.orderedInsert, another_le_movie, movie_not_le_another]
  · simp [Dscache.ListRefs, Dscache.MergeSave, Dscache.empty, movieSave, anotherSave,
      List.insertionSort, List.orderedInsert, another_le_movie, movie_not_le_another]

/-- Without a logbook, or when `Items` fails, `DatasetLog` is its fallback (lines 57-75). -/
theorem DatasetLog_fallback {S R L : Type} (env : Env S R L) (r : Repo S R L)
    (ref : DatasetRef) (limit offset : Int) (loadDatasets : Bool) (sched : Sched)
    (hfall : env.hasLogbook r.book = false ∨
      ∃ err, env.Items r.book (env.ConvertToDsref ref) offset limit = .error err) :
    DatasetLog env r ref limit offset loadDatasets sched =
      DatasetLog.fromHistory env r ref limit offset loadDatasets sched := by
  unfold DatasetLog
  rcases hfall with h | ⟨err, h⟩
  · simp [h]
  · split
    · simp [h]
    · rfl

/-- C22, as amended: when the repo has no logbook, or the `Items` call of its logbook fails,
`DatasetLog` answers from the history walker, called with the same offset, limit and
`loadDatasets`: when the walk returns a nil error, `DatasetLog` returns its refs converted one
for one to log items, in the same order, with a nil error. -/
theorem DatasetLog_answers_from_history {S R L : Type} (env : Env S R L) (r : Repo S R L)
    (ref : DatasetRef) (limit offset : Int) (loadDatasets : Bool) (sched : Sched)
    (rlog : List DatasetRef)
    (hfall : env.hasLogbook r.book = false ∨
      ∃ err, env.Items r.book (env.ConvertToDsref ref) offset limit = .error err)
    (hwalk : DatasetLogFromHistory env r ref offset limit loadDatasets sched = (rlog, none)) :
    (DatasetLog env r ref limit offset loadDatasets sched).1 =
        (rlog.map env.ConvertToDatasetLogItem, none) ∧
      (DatasetLog env r ref limit offset loadDatasets sched).1.1.length = rlog.length := by
  rw [DatasetLog_fallback env r ref limit offset loadDatasets sched hfall]
  have h : (DatasetLog.fromHistory env r ref limit offset loadDatasets sched).1 =
      (rlog.map env.ConvertToDatasetLogItem, none) := by
    unfold DatasetLog.fromHistory
    rw [hwalk]
    simp only
    split <;> rfl
  rw [h]
  exact ⟨rfl, by simp⟩

/-- C22, as amended, on the repo without a logbook: the three versions of `movies` come back
as three items, newest first. -/
theorem DatasetLog_answers_from_history_witness :
    (memEnv sampleProfile).hasLogbook sampleRepo.book = false ∧
      (DatasetLog (memEnv sampleProfile) sampleRepo sampleRef 10 0 true
        { steps := 10, cause := Cause.timeout }).1.1.map (fun item => item.Path) =
        ["/map/c", "/map/b", "/map/a"] ∧
      (DatasetLog (memEnv sampleProfile) sampleRepo sampleRef 10 0 true
        { steps := 10, cause := Cause.timeout }).1.2 = none := by
  have h := (DatasetLog_answers_from_history (memEnv sampleProfile) sampleRepo sampleRef 10 0
    true { steps := 10, cause := Cause.timeout }
    (DatasetLogFromHistory (memEnv sampleProfile) sampleRepo sampleRef 0 10 true
      { steps := 10, cause := Cause.timeout }).1 (Or.inl rfl) rfl).1
  rw [h]
  exact ⟨rfl, rfl, rfl⟩

/-- C22, as stated, fails on a repo whose logbook knows `movies` and holds no item for it:
`Items` succeeds with an empty list, the history walker would return the three versions with a
nil error, and `DatasetLog` returns no item and `ErrNoHistory` (lines 31-33). -/
theorem DatasetLog_empty_items_no_walk :
    (memEnv sampleProfile).Items emptyLogRepo.book
        ((memEnv sampleProfile).ConvertToDsref sampleRef) 0 10 = .ok [] ∧
      (DatasetLogFromHistory (memEnv sampleProfile) emptyLogRepo sampleRef 0 10 true
        { steps := 10, cause := Cause.timeout }).2 = none ∧
      (DatasetLogFromHistory (memEnv sampleProfile) emptyLogRepo sampleRef 0 10 true
        { steps := 10, cause := Cause.timeout }).1.length = 3 ∧
      (DatasetLog (memEnv sampleProfile) emptyLogRepo sampleRef 10 0 true
        { steps := 10, cause := Cause.timeout }).1 = ([], some Error.ErrNoHistory) ∧
      (DatasetLog (memEnv sampleProfile) emptyLogRepo sampleRef 10 0 true
        { steps := 10, cause := Cause.timeout }).1 ≠
        ((DatasetLogFromHistory (memEnv sampleProfile) emptyLogRepo sampleRef 0 10 true
          { steps := 10, cause := Cause.timeout }).1.map
            (memEnv sampleProfile).ConvertToDatasetLogItem, none) :=
  ⟨rfl, rfl, rfl, rfl, by decide⟩

/-- The snapshots of the refs of a chain are the snapshots of the chain. -/
theorem chainRefs_datasets (ref : DatasetRef) :
    ∀ (dss : List Dataset) (p : String),
      (chainRefs ref p dss).map (fun v => v.Dataset) = dss.map some := by
  intro dss
  induction dss with
  | nil => intro p; rfl
  | cons d rest ih => intro p; simp [chainRefs, ih]

/-- C23: on a fallback read whose walk returns a nil error, `DatasetLog` starts the backfill
goroutine exactly when `r.Profile()` succeeds with the peername of the ref. What `DatasetLog`
returns, the converted refs and a nil error, is the same for every `ConstructDatasetLog`,
failing or not, and whether the goroutine finishes (under any schedule of its own walk) or never
does. When it is started and finishes, the goroutine has run `constructDatasetLogFromHistory` on
the repo and the converted ref: in particular, when the ref resolves to a chain of at most
1000000 snapshots and the walk of the goroutine is given the time to finish, the logbook is left
as `ConstructDatasetLog` leaves it when it is handed the snapshots of the whole chain, newest
first. When the goroutine is not started nothing is done to the logbook. -/
theorem DatasetLog_backfill {S R L : Type} (env : Env S R L)
    (construct : L → Ref → List (Option Dataset) → Option Error × L) (r : Repo S R L)
    (ref : DatasetRef) (limit offset : Int) (loadDatasets : Bool) (sched : Sched)
    (rlog : List DatasetRef)
    (hfall : env.hasLogbook r.book = false ∨
      ∃ err, env.Items r.book (env.ConvertToDsref ref) offset limit = .error err)
    (hwalk : DatasetLogFromHistory env r ref offset limit loadDatasets sched = (rlog, none)) :
    ((DatasetLog env r ref limit offset loadDatasets sched).2 = true ↔
        ∃ pro, env.Profile r = .ok pro ∧ ref.Peername = pro.Peername) ∧
      (∀ backfill : Option Sched,
        (DatasetLog.withBackfill env construct r ref limit offset loadDatasets sched
          backfill).1 = (rlog.map env.ConvertToDatasetLogItem, none)) ∧
      ((∃ pro, env.Profile r = .ok pro ∧ ref.Peername = pro.Peername) →
        (DatasetLog.withBackfill env construct r ref limit offset loadDatasets sched
          none).2 = none ∧
        (∀ walk : Sched,
          (DatasetLog.withBackfill env construct r ref limit offset loadDatasets sched
            (some walk)).2 =
            some (constructDatasetLogFromHistory env construct r (env.ConvertToDsref ref)
              walk)) ∧
        ∀ (walk : Sched) (head : DatasetRef) (dss : List Dataset),
          env.CanonicalizeDatasetRef r
            { DatasetRef.zero with
              Peername := (env.ConvertToDsref ref).Username,
              Name := (env.ConvertToDsref ref).Name,
              Path := (env.ConvertToDsref ref).Path } = .ok head →
          IsChain (env.LoadDataset r.store) head.Path dss →
          dss.length ≤ 1000000 → dss.length < walk.steps →
          (DatasetLog.withBackfill env construct r ref limit offset loadDatasets sched
            (some walk)).2 =
            some (construct r.book (env.ConvertToDsref ref) (dss.map some))) ∧
      ((¬ ∃ pro, env.Profile r = .ok pro ∧ ref.Peername = pro.Peername) →
        ∀ backfill : Option Sched,
          (DatasetLog.withBackfill env construct r ref limit offset loadDatasets sched
            backfill).2 = none) := by
  have hd := DatasetLog_fallback env r ref limit offset loadDatasets sched hfall
  have hres : DatasetLog env r ref limit offset loadDatasets sched =
      ((rlog.map env.ConvertToDatasetLogItem, none),
        match env.Profile r with
        | .ok pro => decide (ref.Peername = pro.Peername)
        | .error _ => false) := by
    rw [hd]
    unfold DatasetLog.fromHistory
    rw [hwalk]
    simp only
    split <;> rfl
  have hstart : (DatasetLog env r ref limit offset loadDatasets sched).2 = true ↔
      ∃ pro, env.Profile r = .ok pro ∧ ref.Peername = pro.Peername := by
    rw [hres]
    cases hp : env.Profile r with
    | error e => simp
    | ok pro => simp
  refine ⟨hstart, ?_, ?_, ?_⟩
  · intro backfill
    simp only [DatasetLog.withBackfill, hres]
  · intro hpro
    have hon := hstart.mpr hpro
    have hrun : ∀ walk : Sched,
        (DatasetLog.withBackfill env construct r ref limit offset loadDatasets sched
          (some walk)).2 =
          some (constructDatasetLogFromHistory env construct r (env.ConvertToDsref ref)
            walk) := by
      intro walk
      simp only [DatasetLog.withBackfill, hon]
      rfl
    refine ⟨?_, hrun, ?_⟩
    · simp only [DatasetLog.withBackfill, hon]
      rfl
    · intro walk head dss hcanon hchain hlen hsteps
      rw [hrun walk]
      have hlen' : (dss.length : Int) ≤ 1000000 := by exact_mod_cast hlen
      have hw := worker_chain (DatasetLogFromHistory.load env r true) dss head.Path head
        0 1000000 walk.steps hchain rfl (by norm_num) (by norm_num) (by norm_num)
        (by norm_num) (by
          have : min (dss.length : Int) (max 0 0 + 1000000) = dss.length := by omega
          rw [this]
          exact_mod_cast hsteps)
      have htake : ((chainRefs head head.Path dss).drop (0 : Int).toNat).take
          (1000000 : Int).toNat = chainRefs head head.Path dss := by
        have h1 : (0 : Int).toNat = 0 := rfl
        have h2 : (1000000 : Int).toNat = 1000000 := rfl
        rw [h1, h2, List.drop_zero]
        exact List.take_of_length_le (by rw [chainRefs_length]; exact hlen)
      rw [htake] at hw
      simp only [constructDatasetLogFromHistory, DatasetLogFromHistory, hcanon, hw, if_true,
        chainRefs_datasets]
  · intro hno backfill
    have hoff : (DatasetLog env r ref limit offset loadDatasets sched).2 = false := by
      cases hb : (DatasetLog env r ref limit offset loadDatasets sched).2 with
      | false => rfl
      | true => exact absurd (hstart.mp hb) hno
    simp only [DatasetLog.withBackfill, hoff]
    rfl

/-- C23, on the repo whose logbook does not know `movies`, read by its owner `test_peer`: the
backfill is started; the three items come back whether the goroutine never finishes, fails, or
enters the three versions in the logbook, which it does when its walk finishes. -/
theorem DatasetLog_backfill_witness :
    (DatasetLog (memEnv sampleProfile) unloggedRepo sampleRef 10 0 true
        { steps := 10, cause := Cause.timeout }).2 = true ∧
      ((DatasetLog.withBackfill (memEnv sampleProfile) memConstruct unloggedRepo sampleRef
          10 0 true { steps := 10, cause := Cause.timeout } none).1.1.map
            (fun item => item.Path)) = ["/map/c", "/map/b", "/map/a"] ∧
      (DatasetLog.withBackfill (memEnv sampleProfile) memConstruct unloggedRepo sampleRef
          10 0 true { steps := 10, cause := Cause.timeout }
          (some { steps := 4, cause := Cause.timeout })).2 =
        some (memConstruct unloggedRepo.book
          ((memEnv sampleProfile).ConvertToDsref sampleRef)
          [some (sampleSnapshot "/map/b" "third"), some (sampleSnapshot "/map/a" "second"),
            some (sampleSnapshot "" "first")]) ∧
      (memConstruct unloggedRepo.book ((memEnv sampleProfile).ConvertToDsref sampleRef)
          [some (sampleSnapshot "/map/b" "third"), some (sampleSnapshot "/map/a" "second"),
            some (sampleSnapshot "" "first")]).2.map
          (fun logs => (logs.lookup "movies").map
            (fun items => items.map (fun item => item.CommitTitle))) =
        some (some ["third", "second", "first"]) ∧
      (DatasetLog.withBackfill (memEnv sampleProfile) memConstruct unloggedRepo sampleRef
          10 0 true { steps := 10, cause := Cause.timeout }
          (some { steps := 2, cause := Cause.timeout })).2 =
        some (some Error.ErrDatasetLogTimeout, unloggedRepo.book) := by
  have h := DatasetLog_backfill (memEnv sampleProfile) memConstruct unloggedRepo sampleRef 10 0
    true { steps := 10, cause := Cause.timeout }
    (DatasetLogFromHistory (memEnv sampleProfile) unloggedRepo sampleRef 0 10 true
      { steps := 10, cause := Cause.timeout }).1 (Or.inr ⟨Error.LogbookErrNotFound, rfl⟩) rfl
  have hchain : IsChain ((memEnv sampleProfile).LoadDataset unloggedRepo.store) "/map/c"
      [sampleSnapshot "/map/b" "third", sampleSnapshot "/map/a" "second",
        sampleSnapshot "" "first"] := ⟨rfl, by decide, rfl, by decide, rfl, rfl⟩
  have hown := h.2.2.1 ⟨sampleProfile, rfl, rfl⟩
  refine ⟨h.1.mpr ⟨sampleProfile, rfl, rfl⟩, ?_, ?_, rfl, ?_⟩
  · rw [h.2.1 none]
    rfl
  · exact hown.2.2 { steps := 4, cause := Cause.timeout } { sampleRef with Path := "/map/c" }
      [sampleSnapshot "/map/b" "third", sampleSnapshot "/map/a" "second",
        sampleSnapshot "" "first"] rfl hchain (by decide) (by decide)
  · rw [hown.2.1 { steps := 2, cause := Cause.timeout }]
    rfl

/-- C29: when the fallback walk returns an error, with or without refs, `DatasetLog` returns
that error and no item, and does not start the backfill goroutine. -/
theorem DatasetLog_walk_error {S R L : Type} (env : Env S R L) (r : Repo S R L)
    (ref : DatasetRef) (limit offset : Int) (loadDatasets : Bool) (sched : Sched)
    (rlog : List DatasetRef) (err : Error)
    (hfall : env.hasLogbook r.book = false ∨
      ∃ e, env.Items r.book (env.ConvertToDsref ref) offset limit = .error e)
    (hwalk : DatasetLogFromHistory env r ref offset limit loadDatasets sched =
      (rlog, some err)) :
    DatasetLog env r ref limit offset loadDatasets sched = (([], some err), false) := by
  rw [DatasetLog_fallback env r ref limit offset loadDatasets sched hfall]
  unfold DatasetLog.fromHistory
  rw [hwalk]

/-- C29, on the repo without a logbook: the walk is cut off after two steps with two refs and
the timeout error; `DatasetLog` returns the timeout error and no item. -/
theorem DatasetLog_walk_error_witness :
    (DatasetLogFromHistory (memEnv sampleProfile) sampleRepo sampleRef 0 10 true
        { steps := 2, cause := Cause.timeout }).1.length = 2 ∧
      DatasetLog (memEnv sampleProfile) sampleRepo sampleRef 10 0 true
          { steps := 2, cause := Cause.timeout } =
        (([], some Error.ErrDatasetLogTimeout), false) :=
  ⟨rfl, DatasetLog_walk_error (memEnv sampleProfile) sampleRepo sampleRef 10 0 true
    { steps := 2, cause := Cause.timeout }
    (DatasetLogFromHistory (memEnv sampleProfile) sampleRepo sampleRef 0 10 true
      { steps := 2, cause := Cause.timeout }).1 Error.ErrDatasetLogTimeout (Or.inl rfl) rfl⟩

/-- What the naming has done when it resolves a name. The profile loaded and the head was
looked up under the first name, the inferred one or, when none was inferred, the given one. When
no name was inferred the final name is the given one (and `NewName` is not set if it has a head);
when the inferred name has no head it is the final name; when it has one, `NewName` is set and the
final name is the one `GenerateAvailableName` returned. `prev`, `mutable` and `prevPath` are what
`PrepareHeadDatasetVersion` returned for the final name. -/
theorem naming_resolved_inv {S R L : Type} (env : Env S R L) (fuel : Nat) (r : Repo S R L)
    (changes named : Dataset) (sw : SaveSwitches) (pro : Profile) (dsName : String)
    (prev mutable : Dataset) (prevPath : String)
    (h : SaveDataset.naming env fuel r changes sw =
      .resolved pro named dsName prev mutable prevPath) :
    env.Profile r = .ok pro ∧
      env.PrepareHeadDatasetVersion r pro.Peername dsName = .ok (prev, mutable, prevPath) ∧
      ∃ (prev0 mutable0 : Dataset) (prevPath0 : String),
        env.PrepareHeadDatasetVersion r pro.Peername
            (if (env.MaybeInferName changes).1 ≠ "" then (env.MaybeInferName changes).1
              else changes.Name) = .ok (prev0, mutable0, prevPath0) ∧
        (((env.MaybeInferName changes).1 = "" ∧ dsName = changes.Name ∧
            (prevPath0 ≠ "" → sw.NewName = false)) ∨
          ((env.MaybeInferName changes).1 ≠ "" ∧ prevPath0 = "" ∧
            dsName = (env.MaybeInferName changes).1) ∨
          ((env.MaybeInferName changes).1 ≠ "" ∧ prevPath0 ≠ "" ∧ sw.NewName = true ∧
            GenerateAvailableName env fuel r pro.Peername (env.MaybeInferName changes).1 =
              some dsName)) := by
  simp only [SaveDataset.naming] at h
  split at h
  · cases h
  · rename_i pro0 hpro
    by_cases hinf : (env.MaybeInferName changes).1 = ""
    · simp only [hinf, ne_eq, not_true_eq_false, if_false, and_false] at h
      split at h
      · cases h
      · rename_i prev0 mutable0 prevPath0 hhead
        split at h
        · rename_i hprev
          split at h
          · cases h
          · rename_i hnew
            injection h with h1 h2 h3 h4 h5 h6
            subst h1 h3 h4 h5 h6
            refine ⟨hpro, hhead, prev0, mutable0, prevPath0, ?_, Or.inl ⟨hinf, rfl, ?_⟩⟩
            · simpa [hinf] using hhead
            · intro _
              simpa using hnew
        · rename_i hprev
          injection h with h1 h2 h3 h4 h5 h6
          subst h1 h3 h4 h5 h6
          refine ⟨hpro, hhead, prev0, mutable0, prevPath0, ?_, Or.inl ⟨hinf, rfl, ?_⟩⟩
          · simpa [hinf] using hhead
          · intro hne
            exact absurd hne (by simpa using hprev)
    · simp only [hinf, ne_eq, not_false_eq_true, if_true, and_true] at h
      split at h
      · cases h
      · rename_i prev0 mutable0 prevPath0 hhead
        split at h
        · rename_i hprev
          split at h
          · rename_i hnew
            split at h
            · cases h
            · rename_i name1 hgen
              split at h
              · cases h
              · rename_i prev1 mutable1 prevPath1 hhead1
                injection h with h1 h2 h3 h4 h5 h6
                subst h1 h3 h4 h5 h6
                refine ⟨hpro, hhead1, prev0, mutable0, prevPath0, ?_,
                  Or.inr (Or.inr ⟨hinf, hprev, hnew, hgen⟩)⟩
                simpa [hinf] using hhead
          · cases h
        · rename_i hprev
          injection h with h1 h2 h3 h4 h5 h6
          subst h1 h3 h4 h5 h6
          refine ⟨hpro, hhead, prev0, mutable0, prevPath0, ?_,
            Or.inr (Or.inl ⟨hinf, by simpa using hprev, rfl⟩)⟩
          simpa [hinf] using hhead

/-- C25: for every save that reaches line 149, whatever `PreviousPath` and `Name` the changes
carried, the snapshot handed to `CreateDataset` has for `PreviousPath` the head path that
`PrepareHeadDatasetVersion` returned for its `Name`, the final dataset name, and that name is
settled by the head looked up under the first name (the inferred name or, when none was inferred,
the given one): when no name was inferred it is the given name; when the inferred name has no
head it is the inferred name; and when the inferred name has a head, `NewName` is set and it is
the name `GenerateAvailableName` returned, never the inferred name itself unless that is what
`GenerateAvailableName` returned. -/
theorem SaveDataset_links_to_head {S R L : Type} (env : Env S R L) (fuel : Nat)
    (r r' : Repo S R L) (changes ds dsPrev : Dataset) (sw : SaveSwitches)
    (h : SaveDataset.prepare env fuel r changes sw = .creates r' ds dsPrev) :
    ∃ (pro : Profile) (mutable : Dataset),
      env.Profile r = .ok pro ∧
      env.PrepareHeadDatasetVersion r pro.Peername ds.Name =
        .ok (dsPrev, mutable, ds.PreviousPath) ∧
      ∃ (prev0 mutable0 : Dataset) (prevPath0 : String),
        env.PrepareHeadDatasetVersion r pro.Peername
            (if (env.MaybeInferName changes).1 ≠ "" then (env.MaybeInferName changes).1
              else changes.Name) = .ok (prev0, mutable0, prevPath0) ∧
        (((env.MaybeInferName changes).1 = "" ∧ ds.Name = changes.Name ∧
            (prevPath0 ≠ "" → sw.NewName = false)) ∨
          ((env.MaybeInferName changes).1 ≠ "" ∧ prevPath0 = "" ∧
            ds.Name = (env.MaybeInferName changes).1) ∨
          ((env.MaybeInferName changes).1 ≠ "" ∧ prevPath0 ≠ "" ∧ sw.NewName = true ∧
            GenerateAvailableName env fuel r pro.Peername (env.MaybeInferName changes).1 =
              some ds.Name)) := by
  obtain ⟨pro, named, dsName, prev, mutable, prevPath, _, _, inferred, hnaming, _, _, _, _, _,
    hds, hprev⟩ := prepare_creates_inv env fuel r r' changes ds dsPrev sw h
  obtain ⟨hpro, hhead, hname⟩ :=
    naming_resolved_inv env fuel r changes named sw pro dsName prev mutable prevPath hnaming
  have h1 : ds.Name = dsName := by rw [hds]
  have h2 : ds.PreviousPath = prevPath := by rw [hds]
  rw [h1, h2, hprev]
  exact ⟨pro, mutable, hpro, hhead, hname⟩

/-- C25, on the repo where `body_four` is saved: a save of the same body file with `NewName`
infers the name `body_four`, which has the head `/map/Qm0`; the snapshot handed over is named
`body_four_1`, the name `GenerateAvailableName` returned, and has no previous path, that name
having no head. -/
theorem SaveDataset_links_to_head_witness :
    SaveDataset.prepare (memEnv sampleProfile) 1 savedRepo bodyFour
        { noSwitches with NewName := true } =
        .creates savedRepo { bodyFour with Name := "body_four_1", Peername := "test_peer" }
          Dataset.zero ∧
      ((memEnv sampleProfile).MaybeInferName bodyFour).1 = "body_four" ∧
      GenerateAvailableName (memEnv sampleProfile) 1 savedRepo "test_peer" "body_four" =
        some "body_four_1" ∧
      ∃ (pro : Profile) (mutable : Dataset),
        (memEnv sampleProfile).Profile savedRepo = .ok pro ∧
        (memEnv sampleProfile).PrepareHeadDatasetVersion savedRepo pro.Peername "body_four_1" =
          .ok (Dataset.zero, mutable, "") ∧
        ∃ (prev0 mutable0 : Dataset) (prevPath0 : String),
          (memEnv sampleProfile).PrepareHeadDatasetVersion savedRepo pro.Peername
              (if ((memEnv sampleProfile).MaybeInferName bodyFour).1 ≠ "" then
                ((memEnv sampleProfile).MaybeInferName bodyFour).1
              else bodyFour.Name) = .ok (prev0, mutable0, prevPath0) ∧
          ((((memEnv sampleProfile).MaybeInferName bodyFour).1 = "" ∧
              "body_four_1" = bodyFour.Name ∧
              (prevPath0 ≠ "" → ({ noSwitches with NewName := true } : SaveSwitches).NewName =
                false)) ∨
            (((memEnv sampleProfile).MaybeInferName bodyFour).1 ≠ "" ∧ prevPath0 = "" ∧
              "body_four_1" = ((memEnv sampleProfile).MaybeInferName bodyFour).1) ∨
            (((memEnv sampleProfile).MaybeInferName bodyFour).1 ≠ "" ∧ prevPath0 ≠ "" ∧
              ({ noSwitches with NewName := true } : SaveSwitches).NewName = true ∧
              GenerateAvailableName (memEnv sampleProfile) 1 savedRepo pro.Peername
                  ((memEnv sampleProfile).MaybeInferName bodyFour).1 =
                some "body_four_1")) :=
  ⟨rfl, rfl, rfl, SaveDataset_links_to_head (memEnv sampleProfile) 1 savedRepo savedRepo bodyFour
    { bodyFour with Name := "body_four_1", Peername := "test_peer" } Dataset.zero
    { noSwitches with NewName := true } rfl⟩

/-- The repo of a call of `CreateDataset` that gets as far as `WriteVersionSave` keeps the
logbook that call leaves. -/
theorem writeVersion_book {S R L : Type} (env : Env S R L) (r : Repo S R L) (pro : Profile)
    (ref : DatasetRef) (path initID : String) (ds : Dataset) :
    (CreateDataset.writeVersion env r pro ref path initID ds).repo.book =
      (env.WriteVersionSave r.book initID ds).2 := by
  unfold CreateDataset.writeVersion CreateDataset.finish
  simp only
  repeat' split
  all_goals rfl

/-- C26: in a call of `CreateDataset` without `DryRun` whose content write and `PutRef`
succeed: when `RefToInitID` reports `logbook.ErrNotFound`, `WriteDatasetInit` is called and, if
it succeeds, the version is written under the id it minted, to the logbook it left; when
`RefToInitID` reports anything else, `WriteDatasetInit` is not called, and the version is written
under the id `RefToInitID` returned, to the logbook as it was. In both cases the logbook
of the repo afterwards is the one `WriteVersionSave` left. -/
theorem CreateDataset_init_then_version {S R L : Type} (env : Env S R L) (r : Repo S R L)
    (ds dsPrev dropped written : Dataset) (sw : SaveSwitches) (pro : Profile) (path : String)
    (store : S) (refs1 refs2 : R)
    (hpro : env.Profile r = .ok pro) (hname : ds.Name ≠ "")
    (hdrop : env.Drop ds sw.Drop = .ok dropped) (hvalid : env.ValidateDataset dropped = none)
    (hwrite : env.dsfsCreateDataset r.store dropped dsPrev sw = (.ok path, store, written))
    (hdry : sw.DryRun = false)
    (hdelete : refs1 =
      if written.PreviousPath ≠ "" ∧ written.PreviousPath ≠ "/" then
        (env.DeleteRef r.refs
          { DatasetRef.zero with
            ProfileID := pro.ID, Peername := pro.Peername, Name := ds.Name,
            Path := written.PreviousPath }).2
      else r.refs)
    (hput : env.PutRef refs1
      { DatasetRef.zero with
        ProfileID := pro.ID, Peername := pro.Peername, Name := ds.Name, Path := path } =
        (none, refs2)) :
    (∀ (initID : String) (book1 : L),
        (env.RefToInitID r.book
          { Username := pro.Peername, ProfileID := "", Name := ds.Name, Path := "" }).2 =
          some Error.LogbookErrNotFound →
        env.WriteDatasetInit r.book ds.Name = (.ok initID, book1) →
        CreateDataset env r ds dsPrev sw =
            CreateDataset.writeVersion env { store := store, refs := refs2, book := book1 } pro
              { DatasetRef.zero with
                ProfileID := pro.ID, Peername := pro.Peername, Name := ds.Name, Path := path }
              path initID written ∧
          (CreateDataset env r ds dsPrev sw).repo.book =
            (env.WriteVersionSave book1 initID written).2) ∧
      ((env.RefToInitID r.book
          { Username := pro.Peername, ProfileID := "", Name := ds.Name, Path := "" }).2 ≠
          some Error.LogbookErrNotFound →
        CreateDataset env r ds dsPrev sw =
            CreateDataset.writeVersion env { store := store, refs := refs2, book := r.book } pro
              { DatasetRef.zero with
                ProfileID := pro.ID, Peername := pro.Peername, Name := ds.Name, Path := path }
              path
              (env.RefToInitID r.book
                { Username := pro.Peername, ProfileID := "", Name := ds.Name, Path := "" }).1
              written ∧
          (CreateDataset env r ds dsPrev sw).repo.book =
            (env.WriteVersionSave r.book
              (env.RefToInitID r.book
                { Username := pro.Peername, ProfileID := "", Name := ds.Name, Path := "" }).1
              written).2) := by
  constructor
  · intro initID book1 hnf hinit
    have key : CreateDataset env r ds dsPrev sw =
        CreateDataset.writeVersion env { store := store, refs := refs2, book := book1 } pro
          { DatasetRef.zero with
            ProfileID := pro.ID, Peername := pro.Peername, Name := ds.Name, Path := path }
          path initID written := by
      unfold CreateDataset
      simp only [hpro, hname, hdrop, hvalid, hwrite, hdry]
      split_ifs <;> simp_all
    refine ⟨key, ?_⟩
    rw [key, writeVersion_book]
  · intro hnf
    have key : CreateDataset env r ds dsPrev sw =
        CreateDataset.writeVersion env { store := store, refs := refs2, book := r.book } pro
          { DatasetRef.zero with
            ProfileID := pro.ID, Peername := pro.Peername, Name := ds.Name, Path := path }
          path
          (env.RefToInitID r.book
            { Username := pro.Peername, ProfileID := "", Name := ds.Name, Path := "" }).1
          written := by
      unfold CreateDataset
      simp only [hpro, hname, hdrop, hvalid, hwrite, hdry]
      split_ifs <;> simp_all
    refine ⟨key, ?_⟩
    rw [key, writeVersion_book]

/-- C26, on the in-memory repos: the first save of `body_four` finds no id, writes the init
entry and then the version under the new id; the second save finds the id `body_four` and
writes the version under it, with no init entry. -/
theorem CreateDataset_init_then_version_witness :
    ((memEnv sampleProfile).RefToInitID emptyRepo.book
        { Username := "test_peer", ProfileID := "", Name := "body_four", Path := "" }).2 =
        some Error.LogbookErrNotFound ∧
      (CreateDataset (memEnv sampleProfile) emptyRepo handedFour Dataset.zero
        noSwitches).repo.book =
        ((memEnv sampleProfile).WriteVersionSave (some [("body_four", [])]) "body_four"
          writtenFour).2 ∧
      (memEnv sampleProfile).RefToInitID savedRepo.book
        { Username := "test_peer", ProfileID := "", Name := "body_four", Path := "" } =
        ("body_four", none) ∧
      (CreateDataset (memEnv sampleProfile) savedRepo handedFive
        (bodyFourHead "body_four" "/map/Qm0") noSwitches).repo.book =
        ((memEnv sampleProfile).WriteVersionSave savedRepo.book "body_four" writtenFive).2 :=
  ⟨rfl,
   ((CreateDataset_init_then_version (memEnv sampleProfile) emptyRepo handedFour Dataset.zero
      handedFour writtenFour noSwitches sampleProfile "/map/Qm0" [("/map/Qm0", writtenFour)]
      [] [peerRef "body_four" "/map/Qm0"] rfl (by decide) rfl rfl rfl rfl rfl rfl).1
      "body_four" (some [("body_four", [])]) rfl rfl).2,
   rfl,
   ((CreateDataset_init_then_version (memEnv sampleProfile) savedRepo handedFive
      (bodyFourHead "body_four" "/map/Qm0") handedFive writtenFive noSwitches sampleProfile
      "/map/Qm1" [("/map/Qm1", writtenFive), ("/map/Qm0", bodyFourHead "body_four" "/map/Qm0")]
      [] [peerRef "body_four" "/map/Qm1"] rfl (by decide) rfl rfl rfl rfl rfl rfl).2
      (by decide)).2⟩

/-- A decrement of a Go int that is more than one step from zero: it does not reach zero,
it comes one step closer, and it stays a Go int. -/
theorem wrapInt_dec (lim : Int) (h1 : -2 ^ 63 ≤ lim) (h2 : lim < 2 ^ 63)
    (h3 : 1 < untilZero lim) :
    wrapInt (lim - 1) ≠ 0 ∧ untilZero (wrapInt (lim - 1)) = untilZero lim - 1 ∧
      -2 ^ 63 ≤ wrapInt (lim - 1) ∧ wrapInt (lim - 1) < 2 ^ 63 := by
  unfold untilZero at h3 ⊢
  unfold wrapInt
  by_cases hmin : lim = -2 ^ 63
  · subst hmin
    norm_num
  · have hw : (lim - 1 + 2 ^ 63) % 2 ^ 64 = lim - 1 + 2 ^ 63 :=
      Int.emod_eq_of_lt (by omega) (by omega)
    rw [hw]
    split_ifs at h3 ⊢ <;> omega

/-- On a chain, with a limit that is not used up by the chain, the worker, given steps
enough, sends every version from position `off` on and then signals `done`. -/
theorem worker_chain_all (load : String → Except Error Dataset) :
    ∀ (dss : List Dataset) (p : String) (ref : DatasetRef) (off lim : Int) (steps : Nat),
      IsChain load p dss → ref.Path = p → off < 2 ^ 63 → -2 ^ 63 ≤ off - dss.length + 1 →
      -2 ^ 63 ≤ lim → lim < 2 ^ 63 → (dss.length : Int) < untilZero lim →
      dss.length < steps →
      DatasetLogFromHistory.worker load steps ref off lim =
        ((chainRefs ref p dss).drop off.toNat, true) := by
  intro dss
  induction dss with
  | nil => intro p ref off lim steps h; exact absurd h (by simp [IsChain])
  | cons d rest ih =>
    intro p ref off lim steps hc hp hoff hoff' hl1 hl2 hlim hst
    obtain ⟨n, rfl⟩ : ∃ n, steps = n + 1 := ⟨steps - 1, by simp at hst; omega⟩
    simp only [List.length_cons, Nat.cast_add, Nat.cast_one] at hoff' hlim hst
    obtain ⟨hw0, hw1, hw2, hw3⟩ := wrapInt_dec lim hl1 hl2 (by omega)
    cases rest with
    | nil =>
      obtain ⟨hload, hprev⟩ := hc
      subst hp
      have hpos : 0 < n := by simp at hst; omega
      by_cases h0 : off ≤ 0
      · have h0n : off.toNat = 0 := by omega
        simp [DatasetLogFromHistory.worker, hload, h0, hw0, chainRefs, h0n, hpos, hprev]
      · obtain ⟨j, hj⟩ : ∃ j, off.toNat = j + 1 := ⟨off.toNat - 1, by omega⟩
        simp [DatasetLogFromHistory.worker, hload, h0, chainRefs, hj, hprev, hpos]
    | cons d' rest' =>
      obtain ⟨hload, hprev, hrest⟩ := hc
      subst hp
      have hlen : 1 ≤ (d' :: rest').length := by simp
      have hwo : wrapInt (off - 1) = off - 1 := wrapInt_of_range (by omega) (by omega)
      by_cases h0 : off ≤ 0
      · have h0n : off.toNat = 0 := by omega
        have hih := ih d.PreviousPath
          { ref with Dataset := some d, Path := d.PreviousPath } (off - 1) (wrapInt (lim - 1)) n
          hrest rfl (by omega) (by omega)
          hw2 hw3 (by rw [hw1]; omega) (by omega)
        have h1 : (off - 1).toNat = 0 := by omega
        rw [chainRefs_update, h1] at hih
        simp [DatasetLogFromHistory.worker, hload, h0, hw0, hprev, hwo, hih, h0n]
        simp [chainRefs]
      · obtain ⟨j, hj⟩ : ∃ j, off.toNat = j + 1 := ⟨off.toNat - 1, by omega⟩
        have hih := ih d.PreviousPath
          { ref with Dataset := some d, Path := d.PreviousPath } (off - 1) lim n hrest rfl
          (by omega) (by omega)
          hl1 hl2 (by omega) (by omega)
        have h1 : (off - 1).toNat = j := by omega
        rw [chainRefs_update, h1] at hih
        simp [DatasetLogFromHistory.worker, hload, h0, hprev, hwo, hih, hj]
        simp [chainRefs]

/-- C27: on a chain of `n` snapshots (fewer than 2^63), with an offset `o ≥ 0` and a limit that
is zero or negative (both Go ints), when every load succeeds and the worker finishes before a
`Done` channel fires, `DatasetLogFromHistory` returns a nil error and every version from
position `o` to the end of the chain, `n - o` of them (none when `o ≥ n`): the limit is
decremented past zero and is never equal to zero. -/
theorem DatasetLogFromHistory_no_limit {S R L : Type} (env : Env S R L) (r : Repo S R L)
    (ref ref' : DatasetRef) (o l : Int) (loadDatasets : Bool) (sched : Sched)
    (dss : List Dataset)
    (hcanon : env.CanonicalizeDatasetRef r ref = .ok ref')
    (hchain : IsChain (DatasetLogFromHistory.load env r loadDatasets) ref'.Path dss)
    (ho : 0 ≤ o) (ho' : o < 2 ^ 63) (hl : l ≤ 0) (hl' : -2 ^ 63 ≤ l)
    (hn : dss.length < 2 ^ 63) (hsched : dss.length < sched.steps) :
    DatasetLogFromHistory env r ref o l loadDatasets sched =
        ((chainRefs ref' ref'.Path dss).drop o.toNat, none) ∧
      (DatasetLogFromHistory env r ref o l loadDatasets sched).1.length =
        dss.length - o.toNat := by
  have hn' : (dss.length : Int) < 2 ^ 63 := by exact_mod_cast hn
  have hw := worker_chain_all (DatasetLogFromHistory.load env r loadDatasets) dss ref'.Path ref'
    o l sched.steps hchain rfl ho' (by omega) hl' (by omega)
    (by unfold untilZero; split_ifs <;> omega) hsched
  have hres : DatasetLogFromHistory env r ref o l loadDatasets sched =
      ((chainRefs ref' ref'.Path dss).drop o.toNat, none) := by
    simp [DatasetLogFromHistory, hcanon, hw]
  refine ⟨hres, ?_⟩
  rw [hres]
  simp [chainRefs_length]

/-- C27, on the sample repo: offset 1 and limit 0 return the two older versions. -/
theorem DatasetLogFromHistory_no_limit_witness :
    IsChain (DatasetLogFromHistory.load (memEnv sampleProfile) sampleRepo true) "/map/c"
        [sampleSnapshot "/map/b" "third", sampleSnapshot "/map/a" "second",
          sampleSnapshot "" "first"] ∧
      (DatasetLogFromHistory (memEnv sampleProfile) sampleRepo sampleRef 1 0 true
        { steps := 4, cause := Cause.timeout }).1.map (fun v => v.Path) =
        ["/map/b", "/map/a"] ∧
      (DatasetLogFromHistory (memEnv sampleProfile) sampleRepo sampleRef 1 0 true
        { steps := 4, cause := Cause.timeout }).2 = none := by
  have hchain : IsChain (DatasetLogFromHistory.load (memEnv sampleProfile) sampleRepo true)
      "/map/c" [sampleSnapshot "/map/b" "third", sampleSnapshot "/map/a" "second",
        sampleSnapshot "" "first"] := ⟨rfl, by decide, rfl, by decide, rfl, rfl⟩
  have h := DatasetLogFromHistory_no_limit (memEnv sampleProfile) sampleRepo sampleRef
    { sampleRef with Path := "/map/c" } 1 0 true { steps := 4, cause := Cause.timeout }
    [sampleSnapshot "/map/b" "third", sampleSnapshot "/map/a" "second", sampleSnapshot "" "first"]
    rfl hchain (by decide) (by decide) (by decide) (by decide) (by decide) (by decide)
  rw [h.1]
  exact ⟨hchain, rfl, rfl⟩

/-- On a chain that breaks, with a limit that is not used up before the break, the worker
never signals `done`, and given steps enough it has sent every version from position `off` up to
the failing load. -/
theorem worker_broken (load : String → Except Error Dataset) :
    ∀ (dss : List Dataset) (p : String) (ref : DatasetRef) (off lim : Int) (steps : Nat),
      IsBrokenChain load p dss → ref.Path = p → off < 2 ^ 63 →
      -2 ^ 63 ≤ off - dss.length → -2 ^ 63 ≤ lim → lim < 2 ^ 63 →
      ((dss.length - off.toNat : Nat) : Int) < untilZero lim →
      (DatasetLogFromHistory.worker load steps ref off lim).2 = false ∧
        (dss.length < steps →
          (DatasetLogFromHistory.worker load steps ref off lim).1 =
            (chainRefs ref p dss).drop off.toNat) := by
  intro dss
  induction dss with
  | nil =>
    intro p ref off lim steps hc hp _ _ _ _ _
    obtain ⟨err, herr⟩ := hc
    subst hp
    cases steps with
    | zero => simp [DatasetLogFromHistory.worker]
    | succ n => simp [DatasetLogFromHistory.worker, herr, chainRefs]
  | cons d rest ih =>
    intro p ref off lim steps hc hp hoff hoff' hl1 hl2 hlim
    obtain ⟨hload, hprev, hrest⟩ := hc
    subst hp
    cases steps with
    | zero => simp [DatasetLogFromHistory.worker]
    | succ n =>
      simp only [List.length_cons, Nat.cast_add, Nat.cast_one] at hoff'
      have hwo : wrapInt (off - 1) = off - 1 := wrapInt_of_range (by omega) (by omega)
      by_cases h0 : off ≤ 0
      · have h0n : off.toNat = 0 := by omega
        have hlim' : ((rest.length + 1 : Nat) : Int) < untilZero lim := by
          simpa [h0n] using hlim
        obtain ⟨hw0, hw1, hw2, hw3⟩ := wrapInt_dec lim hl1 hl2 (by omega)
        have h1 : (off - 1).toNat = 0 := by omega
        have hih := ih d.PreviousPath
          { ref with Dataset := some d, Path := d.PreviousPath } (off - 1) (wrapInt (lim - 1)) n
          hrest rfl (by omega) (by omega) hw2 hw3 (by rw [hw1, h1]; simp; omega)
        rw [chainRefs_update, h1] at hih
        refine ⟨?_, ?_⟩
        · simp [DatasetLogFromHistory.worker, hload, h0, hw0, hprev, hwo, hih.1]
        · intro hst
          have := hih.2 (by simp only [List.length_cons] at hst; omega)
          simp [DatasetLogFromHistory.worker, hload, h0, hw0, hprev, hwo, this, h0n]
          simp [chainRefs]
      · obtain ⟨j, hj⟩ : ∃ j, off.toNat = j + 1 := ⟨off.toNat - 1, by omega⟩
        have h1 : (off - 1).toNat = j := by omega
        have hih := ih d.PreviousPath
          { ref with Dataset := some d, Path := d.PreviousPath } (off - 1) lim n hrest rfl
          (by omega) (by omega) hl1 hl2 (by
            rw [h1]
            simp only [List.length_cons, hj] at hlim
            have : rest.length + 1 - (j + 1) = rest.length - j := by omega
            rw [this] at hlim
            exact hlim)
        rw [chainRefs_update, h1] at hih
        refine ⟨?_, ?_⟩
        · simp [DatasetLogFromHistory.worker, hload, h0, hprev, hwo, hih.1]
        · intro hst
          have := hih.2 (by simp only [List.length_cons] at hst; omega)
          simp [DatasetLogFromHistory.worker, hload, h0, hprev, hwo, this, hj]
          simp [chainRefs]

/-- Once the worker has run into the failing load of a chain that breaks, it assigns nothing
more to `err`. -/
theorem lateWrite_broken (load : String → Except Error Dataset) :
    ∀ (dss : List Dataset) (p : String) (ref : DatasetRef) (off lim : Int) (steps late : Nat),
      IsBrokenChain load p dss → ref.Path = p → dss.length < steps →
      DatasetLogFromHistory.lateWrite load steps late ref off lim = none := by
  intro dss
  induction dss with
  | nil =>
    intro p ref off lim steps late hc hp hst
    obtain ⟨err, herr⟩ := hc
    subst hp
    cases steps with
    | zero => simp at hst
    | succ n => simp [DatasetLogFromHistory.lateWrite, herr]
  | cons d rest ih =>
    intro p ref off lim steps late hc hp hst
    obtain ⟨hload, hprev, hrest⟩ := hc
    subst hp
    cases steps with
    | zero => simp at hst
    | succ n =>
      have hn : rest.length < n := by simp only [List.length_cons] at hst; omega
      simp only [DatasetLogFromHistory.lateWrite, hload, hprev, if_false]
      split_ifs <;> first | rfl | exact ih d.PreviousPath _ _ _ n late hrest rfl hn

/-- When the snapshots of a chain load one after the other (fewer than 2^63 of them) and the next
load fails, and the limit does not stop the walk before that load (it is zero or negative, or
larger than the number of versions from the offset on), the worker ends without a signal on
`done`, so the walk never returns through the `done` branch; and when the worker has reached the
failing load before the caller takes a `Done` branch, the walk returns `ErrDatasetLogTimeout`
and exactly the versions sent before that load, whatever the rest of the schedule. -/
theorem DatasetLogFromHistory_load_failure {S R L : Type} (env : Env S R L) (r : Repo S R L)
    (ref ref' : DatasetRef) (o l : Int) (loadDatasets : Bool) (sched : Sched)
    (dss : List Dataset)
    (hcanon : env.CanonicalizeDatasetRef r ref = .ok ref')
    (hbroken : IsBrokenChain (DatasetLogFromHistory.load env r loadDatasets) ref'.Path dss)
    (ho : 0 ≤ o) (ho' : o < 2 ^ 63) (hl : -2 ^ 63 ≤ l) (hl' : l < 2 ^ 63)
    (hn : dss.length < 2 ^ 63)
    (hreach : l ≤ 0 ∨ ((dss.length - o.toNat : Nat) : Int) < l) :
    (DatasetLogFromHistory.worker (DatasetLogFromHistory.load env r loadDatasets)
        sched.steps ref' o l).2 = false ∧
      (dss.length < sched.steps →
        DatasetLogFromHistory env r ref o l loadDatasets sched =
          ((chainRefs ref' ref'.Path dss).drop o.toNat, some Error.ErrDatasetLogTimeout)) := by
  have hn' : (dss.length : Int) < 2 ^ 63 := by exact_mod_cast hn
  have hw := worker_broken (DatasetLogFromHistory.load env r loadDatasets) dss ref'.Path ref'
    o l sched.steps hbroken rfl ho' (by omega) hl hl' (by
      unfold untilZero
      rcases hreach with h | h
      · have : ¬ 0 < l := by omega
        simp only [this, if_false]
        have : ((dss.length - o.toNat : Nat) : Int) ≤ dss.length := by omega
        omega
      · have : 0 < l := by omega
        simp only [this, if_true]
        exact h)
  refine ⟨hw.1, ?_⟩
  intro hst
  have hlate := lateWrite_broken (DatasetLogFromHistory.load env r loadDatasets) dss ref'.Path
    ref' o l sched.steps sched.late hbroken rfl hst
  simp only [DatasetLogFromHistory, hcanon, hw.1, hlate, hw.2 hst]
  cases sched.cause <;> rfl

/-- C28, the code at a failing input: on the repo whose head `/map/c` names a predecessor the
store does not have, walked with offset 0 and limit 10, the caller has received the head when
the timeout fires and `return rlog, ErrDatasetLogTimeout` stores the error in the named result
`err`; the worker's load of `/map/gone` then fails and assigns its error to the same `err`
(line 96) before the function hands its results back. The walk returns the head with the load
error, not `ErrDatasetLogTimeout`; when the failing load is over before the caller stops
waiting, it returns `ErrDatasetLogTimeout`. -/
theorem DatasetLogFromHistory_returns_load_error :
    IsBrokenChain (DatasetLogFromHistory.load (memEnv sampleProfile) brokenRepo true) "/map/c"
        [sampleSnapshot "/map/gone" "third"] ∧
      (DatasetLogFromHistory (memEnv sampleProfile) brokenRepo sampleRef 0 10 true
        { steps := 1, cause := Cause.timeout, late := 1 }).1.map (fun v => v.Path) =
        ["/map/c"] ∧
      (DatasetLogFromHistory (memEnv sampleProfile) brokenRepo sampleRef 0 10 true
        { steps := 1, cause := Cause.timeout, late := 1 }).2 =
        some (Error.errorf "path not found") ∧
      (DatasetLogFromHistory (memEnv sampleProfile) brokenRepo sampleRef 0 10 true
        { steps := 2, cause := Cause.timeout, late := 1 }).2 =
        some Error.ErrDatasetLogTimeout :=
  ⟨⟨rfl, by decide, Error.errorf "path not found", rfl⟩, rfl, rfl, rfl⟩

/-- Entered with the counter at `c`, the loop does not return within `fuel` passes when none of
the names `pfx_(c+1)` .. `pfx_(c+fuel)` is free. -/
theorem loop_none {S R L : Type} (env : Env S R L) (r : Repo S R L) (peername pfx : String) :
    ∀ (fuel c : Nat), c + fuel < 2 ^ 63 →
      (∀ j : Nat, c < j → j ≤ c + fuel → env.CanonicalizeDatasetRef r
        { DatasetRef.zero with Name := pfx ++ "_" ++ toString (j : Int), Peername := peername } ≠
          .error Error.ErrNotFound) →
      GenerateAvailableName.loop env r peername pfx fuel (c : Int) = none := by
  intro fuel
  induction fuel with
  | zero => intro c _ _; rfl
  | succ n ih =>
    intro c hc hused
    have hc' : ((c + (n + 1) : Nat) : Int) < 2 ^ 63 := by exact_mod_cast hc
    have hw : wrapInt ((c : Int) + 1) = ((c + 1 : Nat) : Int) := by
      rw [wrapInt_of_range (by omega) (by push_cast at hc'; omega)]; rfl
    rw [loop_succ, hw]
    have hu := hused (c + 1) (by omega) (by omega)
    have hi := ih (c + 1) (by omega) (fun j h1 h2 => hused j (by omega) (by omega))
    cases hlook : env.CanonicalizeDatasetRef r
        { DatasetRef.zero with
          Name := pfx ++ "_" ++ toString ((c + 1 : Nat) : Int), Peername := peername } with
    | error e =>
      have hne : e ≠ Error.ErrNotFound := by
        intro he; subst he; exact hu hlook
      simp only [hne, if_false]
      exact hi
    | ok x => exact hi

/-- When no lookup answers `ErrNotFound`, the loop has not returned after any number of
passes, whatever the counter it is entered with. -/
theorem loop_never {S R L : Type} (env : Env S R L) (r : Repo S R L) (peername pfx : String)
    (hused : ∀ c : Int, env.CanonicalizeDatasetRef r
      { DatasetRef.zero with Name := pfx ++ "_" ++ toString c, Peername := peername } ≠
        .error Error.ErrNotFound) :
    ∀ (fuel : Nat) (c : Int), GenerateAvailableName.loop env r peername pfx fuel c = none := by
  intro fuel
  induction fuel with
  | zero => intro c; rfl
  | succ n ih =>
    intro c
    rw [loop_succ]
    have hu := hused (wrapInt (c + 1))
    have hi := ih (wrapInt (c + 1))
    cases hlook : env.CanonicalizeDatasetRef r
        { DatasetRef.zero with
          Name := pfx ++ "_" ++ toString (wrapInt (c + 1)), Peername := peername } with
    | error e =>
      have hne : e ≠ Error.ErrNotFound := by
        intro he; subst he; exact hu hlook
      simp only [hne, if_false]
      exact hi
    | ok x => exact hi

/-- C30: with the counter a Go int that does not overflow, `GenerateAvailableName` returns
(within fewer than 2^63 passes of its loop) if and only if for some `1 ≤ k < 2^63` the lookup of
`peername/pfx_k` answers exactly `ErrNotFound`; a pass whose lookup answers anything else, a nil
error or a different error, goes on to the next counter; when no lookup ever answers
`ErrNotFound` the loop has not returned after any number of passes; and when the numbers whose
names are in use form a finite set (of fewer than 2^63 - 1) and the lookup of every other name
answers `ErrNotFound`, it returns. -/
theorem GenerateAvailableName_terminates_iff {S R L : Type} (env : Env S R L) (r : Repo S R L)
    (peername pfx : String) :
    ((∃ fuel : Nat, fuel < 2 ^ 63 ∧
        (GenerateAvailableName env fuel r peername pfx).isSome = true) ↔
      ∃ k : Nat, 1 ≤ k ∧ k < 2 ^ 63 ∧ env.CanonicalizeDatasetRef r
        { DatasetRef.zero with Name := pfx ++ "_" ++ toString (k : Int), Peername := peername } =
          .error Error.ErrNotFound) ∧
      (∀ (fuel : Nat) (c : Int), env.CanonicalizeDatasetRef r
          { DatasetRef.zero with
            Name := pfx ++ "_" ++ toString (wrapInt (c + 1)), Peername := peername } ≠
            .error Error.ErrNotFound →
        GenerateAvailableName.loop env r peername pfx (fuel + 1) c =
          GenerateAvailableName.loop env r peername pfx fuel (wrapInt (c + 1))) ∧
      ((∀ c : Int, env.CanonicalizeDatasetRef r
          { DatasetRef.zero with Name := pfx ++ "_" ++ toString c, Peername := peername } ≠
            .error Error.ErrNotFound) →
        ∀ fuel : Nat, GenerateAvailableName env fuel r peername pfx = none) ∧
      (∀ used : Finset Nat, used.card < 2 ^ 63 - 1 →
        (∀ k : Nat, 1 ≤ k → k ∉ used → env.CanonicalizeDatasetRef r
          { DatasetRef.zero with
            Name := pfx ++ "_" ++ toString (k : Int), Peername := peername } =
            .error Error.ErrNotFound) →
        ∃ fuel : Nat, (GenerateAvailableName env fuel r peername pfx).isSome = true) := by
  have hback : (∃ k : Nat, 1 ≤ k ∧ k < 2 ^ 63 ∧ env.CanonicalizeDatasetRef r
        { DatasetRef.zero with Name := pfx ++ "_" ++ toString (k : Int), Peername := peername } =
          .error Error.ErrNotFound) →
      ∃ fuel : Nat, fuel < 2 ^ 63 ∧
        (GenerateAvailableName env fuel r peername pfx).isSome = true := by
    classical
    intro hex
    have hk0 := Nat.find_spec hex
    have hmin : ∀ j : Nat, 1 ≤ j → j < Nat.find hex → env.CanonicalizeDatasetRef r
        { DatasetRef.zero with Name := pfx ++ "_" ++ toString (j : Int), Peername := peername } ≠
          .error Error.ErrNotFound := by
      intro j hj1 hj2 hfree
      exact Nat.find_min hex hj2 ⟨hj1, by omega, hfree⟩
    refine ⟨Nat.find hex, hk0.2.1, ?_⟩
    have := loop_finds env r peername pfx (Nat.find hex) (by exact_mod_cast hk0.2.1) hk0.2.2 hmin
      (Nat.find hex) 0 (by omega) (by omega)
    simp only [GenerateAvailableName]
    rw [show ((0 : Int)) = ((0 : Nat) : Int) from rfl, this]
    rfl
  refine ⟨⟨?_, hback⟩, ?_, ?_, ?_⟩
  · rintro ⟨fuel, hfuel, hsome⟩
    by_contra hno
    have hnone := loop_none env r peername pfx fuel 0 (by omega) (fun j h1 h2 hfree =>
      hno ⟨j, by omega, by omega, hfree⟩)
    simp only [GenerateAvailableName] at hsome
    rw [show ((0 : Int)) = ((0 : Nat) : Int) from rfl, hnone] at hsome
    exact absurd hsome (by decide)
  · intro fuel c hne
    rw [loop_succ]
    cases hlook : env.CanonicalizeDatasetRef r
        { DatasetRef.zero with
          Name := pfx ++ "_" ++ toString (wrapInt (c + 1)), Peername := peername } with
    | error e =>
      have hne' : e ≠ Error.ErrNotFound := by
        intro he; subst he; exact hne hlook
      simp only [hne', if_false]
    | ok x => rfl
  · intro hused fuel
    exact loop_never env r peername pfx hused fuel 0
  · intro used hcard hfree
    have hlt : used.card < (Finset.Icc 1 (2 ^ 63 - 1)).card := by
      rw [Nat.card_Icc]
      omega
    obtain ⟨k, hk, hnot⟩ : ∃ k, k ∈ Finset.Icc 1 (2 ^ 63 - 1) ∧ k ∉ used := by
      by_contra hall
      have hsub : Finset.Icc 1 (2 ^ 63 - 1) ⊆ used := by
        intro k hk
        by_contra hk'
        exact hall ⟨k, hk, hk'⟩
      exact absurd (Finset.card_le_card hsub) (by omega)
    rw [Finset.mem_Icc] at hk
    obtain ⟨fuel, _, hsome⟩ := hback ⟨k, hk.1, by omega, hfree k hk.1 hnot⟩
    exact ⟨fuel, hsome⟩

/-- C30, on the sample repos: with `body_four` saved, `body_four_1` is free and the function
returns; on the repo where every lookup succeeds it has not returned after a hundred passes. -/
theorem GenerateAvailableName_terminates_iff_witness :
    (∃ fuel : Nat, fuel < 2 ^ 63 ∧
        (GenerateAvailableName (memEnv sampleProfile) fuel savedRepo "test_peer"
          "body_four").isSome = true) ∧
      GenerateAvailableName takenEnv 100 savedRepo "test_peer" "body_four" = none :=
  ⟨(GenerateAvailableName_terminates_iff (memEnv sampleProfile) savedRepo "test_peer"
      "body_four").1.mpr ⟨1, by decide, by decide, rfl⟩,
   (GenerateAvailableName_terminates_iff takenEnv savedRepo "test_peer" "body_four").2.2.1
      (fun c h => by cases h) 100⟩


/-- When the worker completes no step before a `Done` branch is taken, as when its first load
does not return, `DatasetLogFromHistory` returns no version and `ErrDatasetLogTimeout`, whatever
the offset and the limit. -/
theorem DatasetLogFromHistory_no_step {S R L : Type} (env : Env S R L) (r : Repo S R L)
    (ref ref' : DatasetRef) (o l : Int) (loadDatasets : Bool) (cause : Cause)
    (hcanon : env.CanonicalizeDatasetRef r ref = .ok ref') :
    DatasetLogFromHistory env r ref o l loadDatasets { steps := 0, cause := cause } =
      ([], some Error.ErrDatasetLogTimeout) := by
  simp only [DatasetLogFromHistory, hcanon, DatasetLogFromHistory.worker]
  cases cause <;> rfl

end Qri
